import Mathlib

/-! Call signalling state machine of `CallComponent.jsx`.

A shallow embedding of the React component
`client/src/components/call/CallComponent.jsx`.

* React state (`useState`) and refs (`useRef`) are fields of one record, `World`.
* Browser objects the component owns (peer connections, media streams) live in
  a small heap inside `World`; a reference is an index into that heap.
* Every side effect on the outside world (socket emits, transport calls, track
  stops) is appended to `World.log`, so orderings can be stated.
* An `async` function is cut at each `await`: the part up to the `await` is one
  function, the suspended rest is a `Task` stored in `World.tasks`, and the
  environment resumes it later with the outcome of the awaited operation
  (`Event.settle`). Other events may be delivered in between.
* Within one handler the state setters take effect in call order (the last
  write wins), and the component re-renders once the handler has run
  (`commit`): line 64 and the effect of lines 66-70.
* Left out: the video elements and `track.enabled` (lines 125-158), which no
  other code reads, and exceptions thrown by `new RTCPeerConnection`,
  `pc.addTrack`, `track.stop` and `pc.close`.
-/

namespace CallComponent

/-! ## Values -/

/-- The seven values of `CALL_STATES` (lines 6-14). -/
inductive CallState where
  | idle | calling | ringing | connected | ended | rejected | failed
  deriving DecidableEq, Repr

/-- The list `ACTIVE_CALL_STATES` (lines 16-20). -/
def ACTIVE_CALL_STATES : List CallState :=
  [CallState.calling, CallState.ringing, CallState.connected]

/-- A JavaScript value that may be `undefined` or `null`. -/
inductive JsOpt (α : Type) where
  | undefined
  | null
  | value (a : α)
  deriving DecidableEq, Repr

/-- The operator `a ?? b`. -/
def JsOpt.orElse {α : Type} (a b : JsOpt α) : JsOpt α :=
  match a with
  | JsOpt.value x => JsOpt.value x
  | _ => b

/-- A destructuring default `x = d`: used only when the value is `undefined`. -/
def JsOpt.withDefault {α : Type} (a : JsOpt α) (d : α) : JsOpt α :=
  match a with
  | JsOpt.undefined => JsOpt.value d
  | x => x

/-- Truthiness of an optional string (`null`, `undefined` and `""` are falsy). -/
def truthy (s : Option String) : Bool :=
  match s with
  | some x => x != ""
  | none => false

/-- The expression `s || d` for an optional string. -/
def orDefault (s : Option String) (d : String) : String :=
  match s with
  | some x => if x != "" then x else d
  | none => d

/-- A session description `{type, sdp}`. -/
structure Sdp where
  type : String
  sdp : String
  deriving DecidableEq, Repr

/-- A network candidate as carried by an `ice-candidate` message. -/
abbrev Candidate := Nat

/-- A thrown or rejected JavaScript error, with the two fields the code reads. -/
structure JsError where
  name : String
  message : Option String
  deriving DecidableEq, Repr

/-- The object stored by `setIncomingCall` (lines 170-175); `sender` is its
field `from`. -/
structure IncomingCall where
  sender : Option String
  fromUsername : Option String
  signal : Option Sdp
  isVideoCall : Bool
  deriving DecidableEq, Repr

/-- The payload of an `incoming-call` message before `!!incomingIsVideo`. -/
structure IncomingCallPayload where
  sender : Option String
  fromUsername : Option String
  signal : Option Sdp
  isVideoCall : Option Bool
  deriving DecidableEq, Repr

/-- The store's `outgoingCallTarget` (written by `ChatRoom.js`, lines 228-246). -/
structure OutgoingCallTarget where
  receiverId : JsOpt String
  receiverName : JsOpt String
  isVideoCall : JsOpt Bool
  deriving DecidableEq, Repr

/-- The signalling socket; `emitError` is what `socket.emit` throws, if it does. -/
structure Socket where
  emitError : Option JsError
  deriving DecidableEq, Repr

/-- Messages the component emits on the socket; `dest` is the field `to`. -/
inductive Msg where
  | callUser (userToCall : String) (signalData : Sdp) (sender : String)
      (isVideoCall : Bool)
  | answerCall (dest : Option String) (signal : Sdp)
  | iceCandidate (dest : Option String) (candidate : Candidate)
  | endCall (dest : String)
  | rejectCall (dest : String)
  deriving DecidableEq, Repr

/-! ## Heap objects -/

/-- A local media track. -/
structure Track where
  id : Nat
  video : Bool
  stopped : Bool
  deriving DecidableEq, Repr

/-- A local `MediaStream` returned by `getUserMedia`. -/
structure MediaStream where
  tracks : List Track
  deriving DecidableEq, Repr

/-- A remote track: `id` is the field the code compares, `obj` the identity of
the JavaScript object (the native `MediaStream.addTrack` ignores an object that
is already in the stream). -/
structure RemoteTrack where
  id : Nat
  obj : Nat
  deriving DecidableEq, Repr

/-- An `RTCPeerConnection`. `peer` is the `to` captured by its `onicecandidate`
handler (line 341 / 439). -/
structure PeerConnection where
  closed : Bool
  remoteDescription : Option Sdp
  localDescription : Option Sdp
  peer : Option String
  deriving DecidableEq, Repr

/-- The argument of `pc.ontrack`: `ev.streams?.[0]` and `ev.track`. -/
structure TrackEvent where
  firstStream : Option (List RemoteTrack)
  track : Option RemoteTrack
  deriving DecidableEq, Repr

/-- The values of `pc.connectionState`. -/
inductive ConnectionState where
  | new | connecting | connected | disconnected | failed | closed
  deriving DecidableEq, Repr

/-- Side effects on the outside world, in the order the code performs them. -/
inductive Effect where
  | emit (m : Msg)
  | emitThrew (m : Msg)
  | getUserMedia (video : Bool)
  | newPeerConnection (pc : Nat)
  | addTrack (pc : Nat) (stream : Nat) (track : Nat)
  | setRemoteDescription (pc : Nat) (d : Option Sdp)
  | addIceCandidate (pc : Nat) (c : Candidate)
  | createOffer (pc : Nat)
  | createAnswer (pc : Nat)
  | setLocalDescription (pc : Nat) (d : Sdp)
  | close (pc : Nat)
  | stop (stream : Nat) (track : Nat)
  deriving DecidableEq, Repr

/-! ## Suspended async functions -/

/-- The values captured by the closure of `startCall`. -/
structure StartCtx where
  socket : Socket
  receiverId : String
  currentUserId : String
  deriving DecidableEq, Repr

/-- The values captured by the closure of `answerCall` (and of the `rejectCall`
it calls in its `catch`). -/
structure AnswerCtx where
  socket : Socket
  incomingCall : IncomingCall
  deriving DecidableEq, Repr

/-- An async function suspended at an `await`; the constructor names the
function and the awaited call. -/
inductive Task where
  | done
  | startCall_getUserMedia (c : StartCtx)
  | startCall_createOffer (c : StartCtx) (pc : Nat)
  | startCall_setLocalDescription (c : StartCtx) (pc : Nat) (offer : Sdp)
  | handleCallAccepted_setRemoteDescription (pc : Nat) (signal : Sdp)
  | handleCallAccepted_addIceCandidate (pc : Nat) (rest : List Candidate)
  | answerCall_getUserMedia (c : AnswerCtx)
  | answerCall_setRemoteDescription (c : AnswerCtx) (pc : Nat)
  | answerCall_addIceCandidate (c : AnswerCtx) (pc : Nat) (rest : List Candidate)
  | answerCall_createAnswer (c : AnswerCtx) (pc : Nat)
  | answerCall_setLocalDescription (c : AnswerCtx) (pc : Nat) (answer : Sdp)
  deriving DecidableEq, Repr

/-- How an awaited operation settles. -/
inductive Outcome where
  | resolved
  | stream (tracks : List (Nat × Bool))
  | description (d : Sdp)
  | rejected (e : JsError)
  deriving DecidableEq, Repr

/-! ## The component -/

/-- Everything the component can read or write. -/
structure World where
  -- collaborators and props (lines 22-30)
  socket : Option Socket
  currentUserId : Option String
  receiverIdProp : JsOpt String
  receiverNamePropRaw : JsOpt String
  isVideoCallPropRaw : JsOpt Bool
  outgoingCallTarget : Option OutgoingCallTarget
  -- React state (lines 42-50)
  callState : CallState
  incomingCall : Option IncomingCall
  remoteDisplayName : String
  localStream : Option Nat
  remoteStream : Option (List RemoteTrack)
  isMuted : Bool
  isVideoOff : Bool
  errorMessage : Option String
  showEndedModal : Bool
  -- refs (lines 54-62)
  pcRef : Option Nat
  otherPeerUserIdRef : Option String
  localStreamRef : Option Nat
  inCallRef : Bool
  hasBeenInCallRef : Bool
  isUnmountedRef : Bool
  isVideoCallRef : Bool
  pendingIceCandidatesRef : List Candidate
  preConnectionIceQueueRef : List Candidate
  -- heap
  pcs : List PeerConnection
  streams : List MediaStream
  -- suspended async functions
  tasks : List Task
  -- side effects so far
  log : List Effect
  deriving DecidableEq, Repr

/-- The component as first mounted (initial `useState` / `useRef` values). -/
def World.mount (socket : Option Socket) (currentUserId : Option String)
    (receiverIdProp receiverNameProp : JsOpt String) (isVideoCallProp : JsOpt Bool)
    (target : Option OutgoingCallTarget) : World :=
  { socket := socket, currentUserId := currentUserId
    receiverIdProp := receiverIdProp, receiverNamePropRaw := receiverNameProp
    isVideoCallPropRaw := isVideoCallProp, outgoingCallTarget := target
    callState := CallState.idle, incomingCall := none, remoteDisplayName := ""
    localStream := none, remoteStream := none, isMuted := false
    isVideoOff := false, errorMessage := none, showEndedModal := false
    pcRef := none, otherPeerUserIdRef := none, localStreamRef := none
    inCallRef := false, hasBeenInCallRef := false, isUnmountedRef := false
    isVideoCallRef := true, pendingIceCandidatesRef := []
    preConnectionIceQueueRef := [], pcs := [], streams := [], tasks := []
    log := [] }

/-! ## Props and derived values (lines 32-36) -/

/-- The value `x` of a `JsOpt`, or `none` for `null` / `undefined`. -/
def JsOpt.toOption {α : Type} (a : JsOpt α) : Option α :=
  match a with
  | JsOpt.value x => some x
  | _ => none

/-- The expression `outgoingCallTarget?.field`. -/
def targetField {α : Type} (t : Option OutgoingCallTarget)
    (f : OutgoingCallTarget → JsOpt α) : JsOpt α :=
  match t with
  | some x => f x
  | none => JsOpt.undefined

/-- Line 32: `receiverIdProp ?? outgoingCallTarget?.receiverId`. -/
def receiverId (w : World) : Option String :=
  (w.receiverIdProp.orElse
    (targetField w.outgoingCallTarget OutgoingCallTarget.receiverId)).toOption

/-- Line 24: the destructured `receiverNameProp`, default `"User"`. -/
def receiverNameProp (w : World) : JsOpt String :=
  w.receiverNamePropRaw.withDefault "User"

/-- Lines 33-34: `receiverNameProp ?? outgoingCallTarget?.receiverName ?? "User"`. -/
def receiverName (w : World) : JsOpt String :=
  ((receiverNameProp w).orElse
    (targetField w.outgoingCallTarget OutgoingCallTarget.receiverName)).orElse
    (JsOpt.value "User")

/-- Line 25: the destructured `isVideoCallProp`, default `true`. -/
def isVideoCallProp (w : World) : JsOpt Bool :=
  w.isVideoCallPropRaw.withDefault true

/-- Lines 35-36: `isVideoCallProp ?? outgoingCallTarget?.isVideoCall ?? true`. -/
def isVideoCall (w : World) : JsOpt Bool :=
  ((isVideoCallProp w).orElse
    (targetField w.outgoingCallTarget OutgoingCallTarget.isVideoCall)).orElse
    (JsOpt.value true)

/-- The expression `!!b` for an optional boolean. -/
def toBool (b : JsOpt Bool) : Bool :=
  match b with
  | JsOpt.value x => x
  | _ => false

/-- A truthy string, or `none`. -/
def nonEmpty (s : Option String) : Option String :=
  match s with
  | some x => if x != "" then some x else none
  | none => none

/-! ## Primitive effects -/

/-- Append to the effect log. -/
def World.record (w : World) (es : List Effect) : World :=
  { w with log := w.log ++ es }

/-- Suspend an async function at an `await`. -/
def World.suspend (w : World) (t : Task) : World :=
  { w with tasks := w.tasks ++ [t] }

/-- What a call `socket.emit(m)` does to the outside world. -/
def emitEffect (sock : Socket) (m : Msg) : Effect :=
  match sock.emitError with
  | some _ => Effect.emitThrew m
  | none => Effect.emit m

/-- The call `socket.emit(m)`; returns what it threw, if it threw. -/
def emit (sock : Socket) (m : Msg) (w : World) : World × Option JsError :=
  (w.record [emitEffect sock m], sock.emitError)

/-- A `socket.emit` wrapped in `try { ... } catch (e) { /* ignore */ }`. -/
def emitIgnoring (sock : Socket) (m : Msg) (w : World) : World :=
  (emit sock m w).1

/-- The effects of `if (socket && id) { try { socket.emit(m(id)) } catch {} }`
(lines 111-117, 273-279, 499-505). -/
def notifyEffects (socket : Option Socket) (id : Option String)
    (m : String → Msg) : List Effect :=
  match socket, nonEmpty id with
  | some sock, some o => [emitEffect sock (m o)]
  | _, _ => []

/-- The statement `if (socket && id) { try { socket.emit(m(id)) } catch {} }`. -/
def notifyPeer (socket : Option Socket) (id : Option String) (m : String → Msg)
    (w : World) : World :=
  match socket, nonEmpty id with
  | some sock, some o => emitIgnoring sock (m o) w
  | _, _ => w

/-- The messages that were emitted without throwing, in order. -/
def emitted (w : World) : List Msg :=
  w.log.filterMap fun e =>
    match e with
    | Effect.emit m => some m
    | _ => none

/-- The candidates passed to `pc.addIceCandidate`, in call order. -/
def given (w : World) (pc : Nat) : List Candidate :=
  w.log.filterMap fun e =>
    match e with
    | Effect.addIceCandidate p c => if p = pc then some c else none
    | _ => none

/-- Whether peer connection `pc` exists and has not been closed. -/
def isOpen (w : World) (pc : Nat) : Bool :=
  match w.pcs[pc]? with
  | some c => !c.closed
  | none => false

/-- The peer connections that exist and have not been closed. -/
def openPcs (w : World) : List Nat :=
  (List.range w.pcs.length).filter (isOpen w)

/-- Whether every track of local stream `s` has been stopped. -/
def allStopped (w : World) (s : Nat) : Bool :=
  match w.streams[s]? with
  | some ms => ms.tracks.all Track.stopped
  | none => true

/-- The value of `pc.remoteDescription`. -/
def remoteDescription (w : World) (pc : Nat) : Option Sdp :=
  match w.pcs[pc]? with
  | some c => c.remoteDescription
  | none => none

/-- Update the object at index `i` of a heap, if there is one. -/
def updateAt {α : Type} (l : List α) (i : Nat) (f : α → α) : List α :=
  match l[i]? with
  | some c => l.set i (f c)
  | none => l

/-- Update one peer connection in the heap. -/
def World.updatePc (w : World) (pc : Nat) (f : PeerConnection → PeerConnection) :
    World :=
  { w with pcs := updateAt w.pcs pc f }

/-! ## Lines 72-123: release helpers -/

/-- Lines 72-79. -/
def stopAllTracks (stream : Option Nat) (w : World) : World :=
  match stream with
  | none => w
  | some s =>
    { w with
      streams := updateAt w.streams s fun ms =>
        { tracks := ms.tracks.map fun t => { t with stopped := true } }
      log := w.log ++
        (((w.streams[s]?).map MediaStream.tracks).getD []).map
          fun t => Effect.stop s t.id }

/-- Lines 81-92. -/
def closePeerConnection (w : World) : World :=
  let pc := w.pcRef
  let w1 : World :=
    { w with pcRef := none, pendingIceCandidatesRef := []
             preConnectionIceQueueRef := [] }
  match pc with
  | none => w1
  | some p =>
    (w1.updatePc p fun c => { c with closed := true }).record [Effect.close p]

/-- Lines 94-107. -/
def resetCall (w : World) : World :=
  let w1 := closePeerConnection w
  let stream := w1.localStreamRef
  let w2 : World :=
    match stream with
    | some _ => { stopAllTracks stream w1 with localStreamRef := none }
    | none => w1
  { w2 with localStream := none, remoteStream := none, incomingCall := none
            remoteDisplayName := "", otherPeerUserIdRef := none
            errorMessage := none }

/-- Lines 109-123; `socket` is the one captured by the `useCallback`. -/
def endCall (w : World) : World :=
  let otherId := w.otherPeerUserIdRef
  let w1 := notifyPeer w.socket otherId Msg.endCall w
  resetCall
    { w1 with otherPeerUserIdRef := none, inCallRef := false
              callState := CallState.ended, showEndedModal := true }

/-! ## Lines 160-265: socket listeners -/

/-- Lines 164-178. -/
def handleIncomingCall (p : IncomingCallPayload) (w : World) : World :=
  { w with
    incomingCall := some
      { sender := p.sender, fromUsername := p.fromUsername, signal := p.signal
        isVideoCall := p.isVideoCall.getD false }
    callState := CallState.ringing
    otherPeerUserIdRef := p.sender }

/-- Lines 187-194: the loop over `pending`, up to its next `await`, and the
`setCallState(CONNECTED)` after it. -/
def handleCallAccepted_drain (pc : Nat) (pending : List Candidate) (w : World) :
    World :=
  match pending with
  | c :: rest =>
    (w.record [Effect.addIceCandidate pc c]).suspend
      (Task.handleCallAccepted_addIceCandidate pc rest)
  | [] => { w with callState := CallState.connected }

/-- Lines 180-184: up to `await pc.setRemoteDescription(...)`. -/
def handleCallAccepted (signal : Option Sdp) (w : World) : World :=
  match w.pcRef, signal with
  | some pc, some sig =>
    (w.record [Effect.setRemoteDescription pc (some sig)]).suspend
      (Task.handleCallAccepted_setRemoteDescription pc sig)
  | _, _ => w

/-- Lines 185-194: `setRemoteDescription` resolved. -/
def handleCallAccepted_afterSetRemoteDescription (pc : Nat) (sig : Sdp)
    (w : World) : World :=
  let w1 := w.updatePc pc fun c => { c with remoteDescription := some sig }
  let pending := w1.pendingIceCandidatesRef
  handleCallAccepted_drain pc pending { w1 with pendingIceCandidatesRef := [] }

/-- Lines 195-203: the `catch` of `handleCallAccepted`. -/
def handleCallAccepted_catch (w : World) : World :=
  if !w.isUnmountedRef then
    resetCall
      { w with errorMessage := some "Connection error"
               callState := CallState.failed, showEndedModal := true }
  else w

/-- Lines 206-222. The rest of the function after its `await` is empty, so no
task is suspended. -/
def handleIceCandidate (candidate : Option Candidate) (w : World) : World :=
  match candidate with
  | none => w
  | some c =>
    match w.pcRef with
    | none =>
      { w with preConnectionIceQueueRef := w.preConnectionIceQueueRef ++ [c] }
    | some pc =>
      if (remoteDescription w pc).isSome then
        w.record [Effect.addIceCandidate pc c]
      else
        { w with pendingIceCandidatesRef := w.pendingIceCandidatesRef ++ [c] }

/-- Lines 224-230. -/
def handleCallEnded (w : World) : World :=
  if !w.inCallRef then w
  else
    resetCall
      { w with inCallRef := false, callState := CallState.ended
               showEndedModal := true }

/-- Lines 232-238. -/
def handleCallRejected (w : World) : World :=
  if !w.inCallRef then w
  else
    resetCall
      { w with inCallRef := false, callState := CallState.rejected
               showEndedModal := true }

/-- Lines 240-248; `payload` is `none` when the message has no payload, and
holds `payload.message` otherwise. -/
def handleCallFailed (payload : Option (Option String)) (w : World) : World :=
  if !w.inCallRef then w
  else
    let message := orDefault (payload.getD none) "Call failed"
    resetCall
      { w with inCallRef := false, errorMessage := some message
               callState := CallState.failed, showEndedModal := true }

/-- Lines 269-284: the cleanup that runs when the component unmounts. -/
def unmountCleanup (w : World) : World :=
  let w0 : World := { w with isUnmountedRef := true }
  if !w0.inCallRef then w0
  else
    let otherId := w0.otherPeerUserIdRef
    let w1 := notifyPeer w0.socket otherId Msg.endCall w0
    let w2 := closePeerConnection w1
    let stream := w2.localStreamRef
    let w3 := stopAllTracks stream w2
    { w3 with localStreamRef := none }

/-! ## Handlers attached to a peer connection -/

/-- The native `MediaStream.addTrack`: an object already in the stream is not
added again. -/
def addTrack (next : List RemoteTrack) (t : RemoteTrack) : List RemoteTrack :=
  if next.any (fun x => x.obj == t.obj) then next else next ++ [t]

/-- Lines 320-335 / 419-434: the updater passed to `setRemoteStream`. -/
def ontrackUpdater (ev : TrackEvent) (prev : Option (List RemoteTrack)) :
    List RemoteTrack :=
  let next : List RemoteTrack := (prev.getD []).foldl addTrack []
  match ev.firstStream with
  | some ts =>
    ts.foldl
      (fun nx t => if !(nx.any fun x => x.id == t.id) then addTrack nx t else nx)
      next
  | none =>
    match ev.track with
    | some t => if !(next.any fun x => x.id == t.id) then addTrack next t else next
    | none => next

/-- Lines 319-336 / 418-435. -/
def ontrack (ev : TrackEvent) (w : World) : World :=
  { w with remoteStream := some (ontrackUpdater ev w.remoteStream) }

/-- Lines 338-344 / 437-440; `socket` is the one captured when the handler was
attached, `pc.peer` the captured `to`. -/
def onicecandidate (pc : Nat) (candidate : Option Candidate) (w : World) : World :=
  match candidate, w.socket, w.pcs[pc]? with
  | some c, some sock, some p => (emit sock (Msg.iceCandidate p.peer c) w).1
  | _, _, _ => w

/-- Lines 346-358 / 442-454. -/
def onconnectionstatechange (st : ConnectionState) (w : World) : World :=
  if st = ConnectionState.failed ∨ st = ConnectionState.disconnected then
    if !w.isUnmountedRef && w.inCallRef then
      resetCall
        { w with errorMessage := some "Connection failed"
                 callState := CallState.failed, showEndedModal := true }
    else w
  else w

/-- The stream object `getUserMedia` resolves with: its tracks, none stopped. -/
def freshStream (tracks : List (Nat × Bool)) : MediaStream :=
  { tracks := tracks.map fun t => { id := t.1, video := t.2, stopped := false } }

/-- Lines 308-317 / 407-416: keep the acquired stream, create the peer
connection, store it in `pcRef` and add the tracks. Returns the new world and
the index of the new peer connection. -/
def installMedia (tracks : List (Nat × Bool)) (peer : Option String) (w : World) :
    World × Nat :=
  let sid := w.streams.length
  let pid := w.pcs.length
  let w1 : World :=
    { w with streams := w.streams ++ [freshStream tracks], localStreamRef := some sid
             localStream := some sid
             isVideoOff := if !w.isVideoCallRef then true else w.isVideoOff }
  let w2 : World :=
    { w1 with
      pcs := w1.pcs ++
        [{ closed := false, remoteDescription := none, localDescription := none
           peer := peer }]
      pcRef := some pid
      log := w1.log ++ [Effect.newPeerConnection pid] ++
        tracks.map fun t => Effect.addTrack pid sid t.1 }
  (w2, pid)

/-- The text chosen in the `catch` of `startCall` and of `answerCall`
(lines 371-380 / 481-490). -/
def mediaErrorMessage (err : JsError) : String :=
  if err.name = "NotAllowedError" ∨ err.name = "PermissionDeniedError" then
    "Camera/microphone access was denied."
  else
    orDefault err.message "Could not access camera or microphone."

/-! ## Lines 287-386: `startCall` -/

/-- Lines 369-385: the `catch` of `startCall`. -/
def startCall_catch (err : JsError) (w : World) : World :=
  resetCall
    { w with errorMessage := some (mediaErrorMessage err)
             callState := CallState.failed, showEndedModal := true
             hasBeenInCallRef := true }

/-- Lines 287-307: up to `await navigator.mediaDevices.getUserMedia(...)`. -/
def startCall (w : World) : World :=
  match w.socket, nonEmpty (receiverId w), nonEmpty w.currentUserId with
  | some sock, some rid, some uid =>
    let w1 : World :=
      { w with errorMessage := none, otherPeerUserIdRef := some rid
               remoteDisplayName :=
                 orDefault (receiverName w).toOption "User"
               isVideoCallRef := toBool (isVideoCall w)
               callState := CallState.calling
               pendingIceCandidatesRef := [], preConnectionIceQueueRef := [] }
    (w1.record [Effect.getUserMedia w1.isVideoCallRef]).suspend
      (Task.startCall_getUserMedia
        { socket := sock, receiverId := rid, currentUserId := uid })
  | _, _, _ =>
    { w with
      errorMessage := some "Cannot start call: missing user or connection"
      callState := CallState.failed, showEndedModal := true
      hasBeenInCallRef := true }

/-- Lines 308-360: `getUserMedia` resolved; up to `await pc.createOffer()`. -/
def startCall_afterGetUserMedia (c : StartCtx) (tracks : List (Nat × Bool))
    (w : World) : World :=
  let r := installMedia tracks (some c.receiverId) w
  (r.1.record [Effect.createOffer r.2]).suspend (Task.startCall_createOffer c r.2)

/-- Line 361: `createOffer` resolved; up to `await pc.setLocalDescription(offer)`. -/
def startCall_afterCreateOffer (c : StartCtx) (pc : Nat) (offer : Sdp)
    (w : World) : World :=
  (w.record [Effect.setLocalDescription pc offer]).suspend
    (Task.startCall_setLocalDescription c pc offer)

/-- Lines 363-368: `setLocalDescription` resolved; the `call-user` emit. -/
def startCall_afterSetLocalDescription (c : StartCtx) (pc : Nat) (offer : Sdp)
    (w : World) : World :=
  let w1 := w.updatePc pc fun p => { p with localDescription := some offer }
  let r := emit c.socket
    (Msg.callUser c.receiverId { type := offer.type, sdp := offer.sdp }
      c.currentUserId w1.isVideoCallRef) w1
  match r.2 with
  | some err => startCall_catch err r.1
  | none => r.1

/-! ## Lines 388-523: `answerCall`, `rejectCall`, `handleCloseEnded` -/

/-- Lines 497-511; `socket` and `incomingCall` are the ones of the render whose
closure is running. -/
def rejectCall (socket : Option Socket) (incomingCall : Option IncomingCall)
    (w : World) : World :=
  let sender := incomingCall.bind IncomingCall.sender
  let w1 := notifyPeer socket sender Msg.rejectCall w
  resetCall
    { w1 with inCallRef := false, callState := CallState.rejected
              showEndedModal := true, incomingCall := none }

/-- Lines 479-494: the `catch` of `answerCall`. -/
def answerCall_catch (c : AnswerCtx) (err : JsError) (w : World) : World :=
  rejectCall (some c.socket) (some c.incomingCall)
    { w with errorMessage := some (mediaErrorMessage err)
             callState := CallState.failed, showEndedModal := true }

/-- Lines 388-406: up to `await navigator.mediaDevices.getUserMedia(...)`. -/
def answerCall (w : World) : World :=
  match w.socket, w.incomingCall with
  | some sock, some ic =>
    let w1 : World :=
      { w with otherPeerUserIdRef := ic.sender
               remoteDisplayName := orDefault ic.fromUsername "User"
               errorMessage := none
               isVideoCallRef := ic.isVideoCall
               pendingIceCandidatesRef := [] }
    (w1.record [Effect.getUserMedia w1.isVideoCallRef]).suspend
      (Task.answerCall_getUserMedia { socket := sock, incomingCall := ic })
  | _, _ => w

/-- Lines 407-456: `getUserMedia` resolved; up to
`await pc.setRemoteDescription(...)`. -/
def answerCall_afterGetUserMedia (c : AnswerCtx) (tracks : List (Nat × Bool))
    (w : World) : World :=
  let r := installMedia tracks c.incomingCall.sender w
  (r.1.record [Effect.setRemoteDescription r.2 c.incomingCall.signal]).suspend
    (Task.answerCall_setRemoteDescription c r.2)

/-- Lines 461-469: the loop over `[...preQueue, ...pending]`, up to its next
`await`, and the `await pc.createAnswer()` after it. -/
def answerCall_drain (c : AnswerCtx) (pc : Nat) (queue : List Candidate)
    (w : World) : World :=
  match queue with
  | x :: rest =>
    (w.record [Effect.addIceCandidate pc x]).suspend
      (Task.answerCall_addIceCandidate c pc rest)
  | [] => (w.record [Effect.createAnswer pc]).suspend (Task.answerCall_createAnswer c pc)

/-- Lines 457-461: `setRemoteDescription` resolved. -/
def answerCall_afterSetRemoteDescription (c : AnswerCtx) (pc : Nat) (w : World) :
    World :=
  let w1 := w.updatePc pc fun p =>
    { p with remoteDescription := c.incomingCall.signal }
  let preQueue := w1.preConnectionIceQueueRef
  let w2 : World := { w1 with preConnectionIceQueueRef := [] }
  let pending := w2.pendingIceCandidatesRef
  let w3 : World := { w2 with pendingIceCandidatesRef := [] }
  answerCall_drain c pc (preQueue ++ pending) w3

/-- Line 470: `createAnswer` resolved; up to
`await pc.setLocalDescription(answer)`. -/
def answerCall_afterCreateAnswer (c : AnswerCtx) (pc : Nat) (answer : Sdp)
    (w : World) : World :=
  (w.record [Effect.setLocalDescription pc answer]).suspend
    (Task.answerCall_setLocalDescription c pc answer)

/-- Lines 472-478: `setLocalDescription` resolved; the `answer-call` emit and
the transition to Connected. -/
def answerCall_afterSetLocalDescription (c : AnswerCtx) (pc : Nat) (answer : Sdp)
    (w : World) : World :=
  let w1 := w.updatePc pc fun p => { p with localDescription := some answer }
  let r := emit c.socket
    (Msg.answerCall c.incomingCall.sender
      { type := answer.type, sdp := answer.sdp }) w1
  match r.2 with
  | some err => answerCall_catch c err r.1
  | none => { r.1 with callState := CallState.connected, incomingCall := none }

/-- Lines 37-40: `onClose`. The parent's `onCloseProp` is outside the component. -/
def onClose (w : World) : World :=
  { w with outgoingCallTarget := none }

/-- Lines 513-515. -/
def cancelCall (w : World) : World :=
  endCall w

/-- Lines 517-523. -/
def handleCloseEnded (w : World) : World :=
  onClose
    { w with callState := CallState.idle, showEndedModal := false
             errorMessage := none, hasBeenInCallRef := false }

/-! ## Resuming suspended functions, rendering, and the event loop -/

/-- Resume the async function suspended as task `k` with the outcome of the
operation it awaits. An outcome of the wrong kind for that operation is not
delivered. -/
def settle (k : Nat) (o : Outcome) (w : World) : World :=
  match w.tasks[k]? with
  | none => w
  | some t =>
    let w1 : World := { w with tasks := w.tasks.set k Task.done }
    match t, o with
    | Task.startCall_getUserMedia c, Outcome.stream ts =>
      startCall_afterGetUserMedia c ts w1
    | Task.startCall_getUserMedia _, Outcome.rejected e => startCall_catch e w1
    | Task.startCall_createOffer c pc, Outcome.description d =>
      startCall_afterCreateOffer c pc d w1
    | Task.startCall_createOffer _ _, Outcome.rejected e => startCall_catch e w1
    | Task.startCall_setLocalDescription c pc d, Outcome.resolved =>
      startCall_afterSetLocalDescription c pc d w1
    | Task.startCall_setLocalDescription _ _ _, Outcome.rejected e =>
      startCall_catch e w1
    | Task.handleCallAccepted_setRemoteDescription pc sig, Outcome.resolved =>
      handleCallAccepted_afterSetRemoteDescription pc sig w1
    | Task.handleCallAccepted_setRemoteDescription _ _, Outcome.rejected _ =>
      handleCallAccepted_catch w1
    | Task.handleCallAccepted_addIceCandidate pc rest, Outcome.resolved =>
      handleCallAccepted_drain pc rest w1
    | Task.handleCallAccepted_addIceCandidate pc rest, Outcome.rejected _ =>
      handleCallAccepted_drain pc rest w1
    | Task.answerCall_getUserMedia c, Outcome.stream ts =>
      answerCall_afterGetUserMedia c ts w1
    | Task.answerCall_getUserMedia c, Outcome.rejected e => answerCall_catch c e w1
    | Task.answerCall_setRemoteDescription c pc, Outcome.resolved =>
      answerCall_afterSetRemoteDescription c pc w1
    | Task.answerCall_setRemoteDescription c _, Outcome.rejected e =>
      answerCall_catch c e w1
    | Task.answerCall_addIceCandidate c pc rest, Outcome.resolved =>
      answerCall_drain c pc rest w1
    | Task.answerCall_addIceCandidate c pc rest, Outcome.rejected _ =>
      answerCall_drain c pc rest w1
    | Task.answerCall_createAnswer c pc, Outcome.description d =>
      answerCall_afterCreateAnswer c pc d w1
    | Task.answerCall_createAnswer c _, Outcome.rejected e => answerCall_catch c e w1
    | Task.answerCall_setLocalDescription c pc d, Outcome.resolved =>
      answerCall_afterSetLocalDescription c pc d w1
    | Task.answerCall_setLocalDescription c _ _, Outcome.rejected e =>
      answerCall_catch c e w1
    | _, _ => w

/-- Whether `ACTIVE_CALL_STATES.includes(s)`. -/
def isActive (s : CallState) : Bool :=
  ACTIVE_CALL_STATES.contains s

/-- What React does once a handler has run from world `before` to world `after`.
A mounted component re-renders: line 64 copies `localStream` into
`localStreamRef`, and when `callState` changed the effect of lines 66-70 runs.
State setters called on an unmounted component are ignored. -/
def commit (before after : World) : World :=
  if before.isUnmountedRef then
    { after with
      callState := before.callState, incomingCall := before.incomingCall
      remoteDisplayName := before.remoteDisplayName
      localStream := before.localStream, remoteStream := before.remoteStream
      isMuted := before.isMuted, isVideoOff := before.isVideoOff
      errorMessage := before.errorMessage
      showEndedModal := before.showEndedModal }
  else
    let w1 : World := { after with localStreamRef := after.localStream }
    if after.callState = before.callState then w1
    else
      { w1 with inCallRef := isActive after.callState
                hasBeenInCallRef :=
                  if isActive after.callState then true else w1.hasBeenInCallRef }

/-- What the component renders (lines 525-767), as far as it decides which
buttons exist. -/
inductive View where
  | nothing
  | notConnected
  | endedModal
  | outgoingPrompt
  | calling
  | ringing
  | connected (video : Bool)
  deriving DecidableEq, Repr

/-- Lines 525-767. -/
def view (w : World) : View :=
  if w.socket.isNone then
    if truthy (receiverId w) then View.notConnected else View.nothing
  else if w.callState = CallState.idle ∧ ¬ truthy (receiverId w) then View.nothing
  else if w.showEndedModal ∧ w.hasBeenInCallRef ∧
      (w.callState = CallState.ended ∨ w.callState = CallState.rejected ∨
        w.callState = CallState.failed) then View.endedModal
  else if w.callState = CallState.idle ∧ truthy (receiverId w) then
    View.outgoingPrompt
  else if w.callState = CallState.calling then View.calling
  else if w.callState = CallState.ringing ∧ w.incomingCall.isSome then View.ringing
  else if w.callState = CallState.connected then View.connected w.isVideoCallRef
  else View.nothing

/-- Everything that can happen to the component. -/
inductive Event where
  -- the store sets `outgoingCallTarget` (ChatRoom.js, lines 228-246)
  | setOutgoingCallTarget (t : Option OutgoingCallTarget)
  -- buttons
  | clickClose
  | clickCloseEnded
  | clickStart
  | clickCancel
  | clickDecline
  | clickAccept
  | clickMute
  | clickVideo
  | clickEnd
  -- socket messages
  | incomingCall (p : IncomingCallPayload)
  | callAccepted (signal : Option Sdp)
  | iceCandidate (candidate : Option Candidate)
  | callEnded
  | callRejected
  | callFailed (payload : Option (Option String))
  -- an awaited operation settles
  | settle (task : Nat) (o : Outcome)
  -- events of a peer connection
  | track (pc : Nat) (ev : TrackEvent)
  | localCandidate (pc : Nat) (candidate : Option Candidate)
  | connectionState (pc : Nat) (st : ConnectionState)
  -- the component is unmounted
  | unmount
  deriving DecidableEq, Repr

/-- The handler a button click runs, when the button is rendered. -/
def click (e : Event) (w : World) : World :=
  match view w, e with
  | View.notConnected, Event.clickClose => onClose w
  | View.outgoingPrompt, Event.clickClose => onClose w
  | View.endedModal, Event.clickCloseEnded => handleCloseEnded w
  | View.outgoingPrompt, Event.clickStart => startCall w
  | View.calling, Event.clickCancel => cancelCall w
  | View.ringing, Event.clickDecline => rejectCall w.socket w.incomingCall w
  | View.ringing, Event.clickAccept => answerCall w
  | View.connected _, Event.clickMute => { w with isMuted := !w.isMuted }
  | View.connected true, Event.clickVideo => { w with isVideoOff := !w.isVideoOff }
  | View.connected _, Event.clickEnd => endCall w
  | _, _ => w

/-- The socket listener a message runs (lines 250-255). -/
def receive (e : Event) (w : World) : World :=
  match e with
  | Event.incomingCall p => handleIncomingCall p w
  | Event.callAccepted signal => handleCallAccepted signal w
  | Event.iceCandidate c => handleIceCandidate c w
  | Event.callEnded => handleCallEnded w
  | Event.callRejected => handleCallRejected w
  | Event.callFailed payload => handleCallFailed payload w
  | _ => w

/-- One turn of the event loop. Socket listeners exist while the component is
mounted with a socket (line 162); buttons exist while it is mounted; a closed
peer connection fires no events. -/
def step (w : World) (e : Event) : World :=
  match e with
  | Event.unmount => if w.isUnmountedRef then w else unmountCleanup w
  | Event.settle k o => commit w (settle k o w)
  | Event.track pc ev => if isOpen w pc then commit w (ontrack ev w) else w
  | Event.localCandidate pc c =>
    if isOpen w pc then commit w (onicecandidate pc c w) else w
  | Event.connectionState pc st =>
    if isOpen w pc then commit w (onconnectionstatechange st w) else w
  | Event.setOutgoingCallTarget t =>
    if w.isUnmountedRef then w else commit w { w with outgoingCallTarget := t }
  | Event.incomingCall _ | Event.callAccepted _ | Event.iceCandidate _
  | Event.callEnded | Event.callRejected | Event.callFailed _ =>
    if w.isUnmountedRef ∨ w.socket.isNone then w else commit w (receive e w)
  | _ => if w.isUnmountedRef then w else commit w (click e w)

/-- Deliver a sequence of events. -/
def run (w : World) (es : List Event) : World :=
  es.foldl step w

/-- The worlds the component can be in: a mounted component and any events. -/
def Reachable (w : World) : Prop :=
  ∃ (socket : Option Socket) (uid : Option String) (rid rname : JsOpt String)
    (video : JsOpt Bool) (target : Option OutgoingCallTarget) (es : List Event),
    w = run (World.mount socket uid rid rname video target) es

/-! ## Event sequences used to state the properties -/

/-- The `ice-candidate` messages that deliver the candidates `cs`, in order. -/
def deliver (cs : List Candidate) : List Event :=
  cs.map fun c => Event.iceCandidate (some c)

/-- The two ways a call of `pc.addIceCandidate` can settle. -/
def settlesAddIceCandidate (o : Outcome) : Bool :=
  match o with
  | Outcome.resolved => true
  | Outcome.rejected _ => true
  | _ => false

/-- Settle the tasks `k`, `k + 1`, ... with the outcomes `os`, one after the
other: the awaits of a loop, each of which suspends a new task. -/
def settleFrom : Nat → List Outcome → List Event
  | _, [] => []
  | k, o :: os => Event.settle k o :: settleFrom (k + 1) os

/-- What `pc.close()` in `closePeerConnection` does to the heap of peer
connections. -/
def closeAt (pcs : List PeerConnection) (pcRef : Option Nat) :
    List PeerConnection :=
  match pcRef with
  | some p => updateAt pcs p fun c => { c with closed := true }
  | none => pcs

/-- What `stopAllTracks` does to the heap of streams. -/
def stopAt (streams : List MediaStream) (ref : Option Nat) : List MediaStream :=
  match ref with
  | some s => updateAt streams s fun ms =>
      { tracks := ms.tracks.map fun t => { t with stopped := true } }
  | none => streams

/-- The effect logged by `closePeerConnection`. -/
def closeEffects (pcRef : Option Nat) : List Effect :=
  match pcRef with
  | some p => [Effect.close p]
  | none => []

/-- The effects logged by `stopAllTracks`. -/
def stopEffects (streams : List MediaStream) (ref : Option Nat) : List Effect :=
  match ref with
  | some s => (((streams[s]?).map MediaStream.tracks).getD []).map
      fun t => Effect.stop s t.id
  | none => []

/-- The effects `resetCall` has on the outside world: the close of the held
peer connection and the stop of each track of the held stream. -/
def resetEffects (w : World) : List Effect :=
  closeEffects w.pcRef ++ stopEffects w.streams w.localStreamRef

/-- The parts of the world that queueing a candidate leaves alone. -/
def Frame (w v : World) : Prop :=
  v.log = w.log ∧ v.pcs = w.pcs ∧ v.pcRef = w.pcRef ∧ v.tasks = w.tasks ∧
  v.isUnmountedRef = w.isUnmountedRef ∧ v.socket = w.socket ∧
  v.callState = w.callState ∧
  v.preConnectionIceQueueRef = w.preConnectionIceQueueRef

/-- A task whose resumption with outcome `o` leads to a
`setCallState(CALL_STATES.CONNECTED)` (lines 194 and 477): the resolved
`setRemoteDescription` of `handleCallAccepted` and the settled
`addIceCandidate` calls of its loop, and the resolved `setLocalDescription` of
`answerCall`. -/
def connects (t : Task) (o : Outcome) : Bool :=
  match t, o with
  | Task.handleCallAccepted_setRemoteDescription _ _, Outcome.resolved => true
  | Task.handleCallAccepted_addIceCandidate _ _, Outcome.resolved => true
  | Task.handleCallAccepted_addIceCandidate _ _, Outcome.rejected _ => true
  | Task.answerCall_setLocalDescription _ _ _, Outcome.resolved => true
  | _, _ => false

/-- Task `k` is `handleCallAccepted` or `answerCall` suspended at its
`await pc.setRemoteDescription(...)`. -/
def AwaitsSetRemoteDescription (w : World) (k : Nat) : Prop :=
  (∃ pc sig,
    w.tasks[k]? = some (Task.handleCallAccepted_setRemoteDescription pc sig)) ∨
  (∃ c pc, w.tasks[k]? = some (Task.answerCall_setRemoteDescription c pc))

/-- Ended, Rejected or Failed. -/
def isTerminal (s : CallState) : Bool :=
  match s with
  | CallState.ended => true
  | CallState.rejected => true
  | CallState.failed => true
  | _ => false

/-- World `v` holds no transport session and no local media, and what `w` held
has been closed and stopped. -/
def Released (w v : World) : Prop :=
  v.pcRef = none ∧ (∀ p, w.pcRef = some p → isOpen v p = false) ∧
  v.localStream = none ∧ v.localStreamRef = none ∧
  (∀ s, w.localStream = some s → allStopped v s = true)

/-- What a handler has done when it ran from `w` to `b`: it left `callState`
alone, or set a state that is not terminal, or it released what `w` held. -/
def LeavesOrReleases (w b : World) : Prop :=
  b.callState = w.callState ∨ isTerminal b.callState = false ∨
  (b.pcRef = none ∧ (∀ p, w.pcRef = some p → isOpen b p = false) ∧
    b.localStream = none ∧
    (∀ s, w.localStreamRef = some s → allStopped b s = true))

/-- Line 64: while the component is mounted, `localStreamRef` is `localStream`
at every turn of the event loop. -/
def Rendered (w : World) : Prop :=
  w.isUnmountedRef = false → w.localStreamRef = w.localStream

/-- Task `k` is `startCall` or `answerCall` suspended at its
`await navigator.mediaDevices.getUserMedia(...)`. -/
def AwaitsGetUserMedia (w : World) (k : Nat) : Prop :=
  (∃ c, w.tasks[k]? = some (Task.startCall_getUserMedia c)) ∨
  (∃ c, w.tasks[k]? = some (Task.answerCall_getUserMedia c))

/-! ## Example values -/

/-- A socket whose `emit` does not throw. -/
def exampleSocket : Socket :=
  { emitError := none }

/-- An offer. -/
def exampleOffer : Sdp :=
  { type := "offer", sdp := "v=0 offer" }

/-- An answer. -/
def exampleAnswer : Sdp :=
  { type := "answer", sdp := "v=0 answer" }

/-- The component of user alice, mounted to call bob. -/
def callerMount : World :=
  World.mount (some exampleSocket) (some "alice") (JsOpt.value "bob")
    JsOpt.undefined JsOpt.undefined none

/-- The component of user bob, mounted with no call target. -/
def calleeMount : World :=
  World.mount (some exampleSocket) (some "bob") JsOpt.undefined
    JsOpt.undefined JsOpt.undefined none

/-- The `incoming-call` message of alice's video call. -/
def invite : IncomingCallPayload :=
  { sender := some "alice", fromUsername := some "Alice"
    signal := some exampleOffer, isVideoCall := some true }

/-- A `getUserMedia` that resolves with one audio and one video track. -/
def cam : Outcome :=
  Outcome.stream [(1, false), (2, true)]

/-- The error of a refused permission prompt. -/
def denied : JsError :=
  { name := "NotAllowedError", message := some "Permission denied" }

/-- The error of a camera that another program holds. -/
def busy : JsError :=
  { name := "NotReadableError", message := some "Device in use" }

/-- The error of a description the transport refuses. -/
def badSdp : JsError :=
  { name := "InvalidAccessError", message := some "Failed to parse SDP" }

/-- The error of a candidate the transport refuses. -/
def badCandidate : JsError :=
  { name := "OperationError", message := none }

/-- Alice has started the call: media acquired, offer created and sent. -/
def callingWorld : World :=
  run callerMount
    [Event.clickStart, Event.settle 0 cam,
     Event.settle 1 (Outcome.description exampleOffer),
     Event.settle 2 Outcome.resolved]

/-- What the closure of bob's `answerCall` captured. -/
def answeringCtx : AnswerCtx :=
  { socket := exampleSocket
    incomingCall :=
      { sender := some "alice", fromUsername := some "Alice"
        signal := some exampleOffer, isVideoCall := true } }

/-- Bob has accepted alice's call and `setRemoteDescription` is pending;
candidates 7 and 8 arrived before the transport session existed, candidate 9
after. -/
def answeringWorld : World :=
  run calleeMount
    [Event.incomingCall invite, Event.iceCandidate (some 7), Event.clickAccept,
     Event.iceCandidate (some 8), Event.settle 0 cam,
     Event.iceCandidate (some 9)]

/-- Alice is in a call with bob. -/
def connectedWorld : World :=
  run callingWorld
    [Event.callAccepted (some exampleAnswer), Event.settle 3 Outcome.resolved]

/-- The `incoming-call` message of carol's video call. -/
def carolInvite : IncomingCallPayload :=
  { sender := some "carol", fromUsername := some "Carol"
    signal := some exampleOffer, isVideoCall := some true }

/-- What the closure of alice's `answerCall` captured when she accepted carol's
call. -/
def carolCtx : AnswerCtx :=
  { socket := exampleSocket
    incomingCall :=
      { sender := some "carol", fromUsername := some "Carol"
        signal := some exampleOffer, isVideoCall := true } }

/-- Alice, in a call with bob, has accepted a call from carol and
`getUserMedia` is pending. -/
def busyWorld : World :=
  run connectedWorld [Event.incomingCall carolInvite, Event.clickAccept]

/-- A component with a socket but no logged-in user (`user` is null after a
logout, which leaves the socket of the chat store alone) and no call target. -/
def anonMount : World :=
  World.mount (some exampleSocket) none JsOpt.undefined JsOpt.undefined
    JsOpt.undefined none

/-- The call target the chat room stores when the user picks bob for a video
call. -/
def bobTarget : OutgoingCallTarget :=
  { receiverId := JsOpt.value "bob", receiverName := JsOpt.value "Bob"
    isVideoCall := JsOpt.value true }

/-- The user accepted alice's call; alice hung up while the permission prompt
was open; the prompt was then granted; the user closed the "call ended" dialog
and picked bob to call. The component is Idle, shows the Start button, and
holds the session and the stream that the late completion of `getUserMedia`
created. -/
def staleIdleWorld : World :=
  run anonMount
    [Event.incomingCall invite, Event.clickAccept, Event.callEnded,
     Event.settle 0 cam, Event.clickCloseEnded,
     Event.setOutgoingCallTarget (some bobTarget)]

/-! ## What a handler does to the call, and what holds in every reachable world -/

/-- The text set by the guard of `startCall` (line 289). -/
def missingUserMessage : String :=
  "Cannot start call: missing user or connection"

/-- A handler that ran from `w` to `b` left the call alone. -/
def Quiet (w b : World) : Prop :=
  b.callState = w.callState ∧ b.otherPeerUserIdRef = w.otherPeerUserIdRef ∧
  b.inCallRef = w.inCallRef ∧ b.errorMessage = w.errorMessage ∧
  b.remoteDisplayName = w.remoteDisplayName ∧
  b.isUnmountedRef = w.isUnmountedRef

/-- A handler that ran from `w` to `b` set a terminal state and called
`resetCall`. -/
def Terminated (w b : World) : Prop :=
  isTerminal b.callState = true ∧ b.otherPeerUserIdRef = none ∧
  (b.inCallRef = false ∨ b.inCallRef = w.inCallRef) ∧ b.errorMessage = none ∧
  b.remoteDisplayName = "" ∧ b.isUnmountedRef = w.isUnmountedRef

/-- A continuation that ran from `w` to `b` set Connected. -/
def Connects (w b : World) : Prop :=
  b.callState = CallState.connected ∧
  b.otherPeerUserIdRef = w.otherPeerUserIdRef ∧ b.inCallRef = w.inCallRef ∧
  b.errorMessage = w.errorMessage ∧ b.remoteDisplayName = w.remoteDisplayName ∧
  b.isUnmountedRef = w.isUnmountedRef

/-- A handler that ran from `w` to `b` set or kept an active state
(`handleIncomingCall`, `startCall`, `answerCall`). -/
def Activated (w b : World) : Prop :=
  isActive b.callState = true ∧ b.inCallRef = w.inCallRef ∧
  (b.errorMessage = w.errorMessage ∨ b.errorMessage = none) ∧
  b.isUnmountedRef = w.isUnmountedRef

/-- The guard of `startCall` ran from the Idle world `w` to `b`. -/
def Guarded (w b : World) : Prop :=
  w.callState = CallState.idle ∧ b.callState = CallState.failed ∧
  b.otherPeerUserIdRef = w.otherPeerUserIdRef ∧ b.inCallRef = w.inCallRef ∧
  b.errorMessage = some missingUserMessage ∧
  b.remoteDisplayName = w.remoteDisplayName ∧
  b.isUnmountedRef = w.isUnmountedRef

/-- `handleCloseEnded` ran from the terminal world `w` to `b`. -/
def Acknowledged (w b : World) : Prop :=
  isTerminal w.callState = true ∧ b.callState = CallState.idle ∧
  b.otherPeerUserIdRef = w.otherPeerUserIdRef ∧ b.inCallRef = w.inCallRef ∧
  b.errorMessage = none ∧ b.remoteDisplayName = w.remoteDisplayName ∧
  b.isUnmountedRef = w.isUnmountedRef

/-- What holds in every reachable world: a remote party is recorded only in an
active state; while mounted, `inCallRef` says whether the state is active
(lines 66-70); and outside the active states the display name is empty. -/
def Consistent (w : World) : Prop :=
  (w.otherPeerUserIdRef ≠ none → isActive w.callState = true) ∧
  (w.isUnmountedRef = false → w.inCallRef = isActive w.callState) ∧
  (isActive w.callState = false → w.remoteDisplayName = "")

/-- The messages among the effects `es` that were emitted without throwing. -/
def sent (es : List Effect) : List Msg :=
  es.filterMap fun e =>
    match e with
    | Effect.emit m => some m
    | _ => none

/-- Bob accepts alice's call, alice hangs up while his `getUserMedia` is
pending, and then every step of his `answerCall` succeeds. -/
def lateAnswerWorld : World :=
  run calleeMount
    [Event.incomingCall invite, Event.clickAccept, Event.callEnded,
     Event.settle 0 cam, Event.settle 1 Outcome.resolved,
     Event.settle 2 (Outcome.description exampleAnswer),
     Event.settle 3 Outcome.resolved]

/-- Bob's component rings with alice's call. -/
def ringingWorld : World :=
  run calleeMount [Event.incomingCall invite]

/-- Alice started a call to bob and refused the permission prompt. -/
def failedWorld : World :=
  run callerMount [Event.clickStart, Event.settle 0 (Outcome.rejected denied)]

/-- A user who is not logged in picked bob to call and clicked Start: the guard
of `startCall` ran. -/
def guardFailedWorld : World :=
  run anonMount [Event.setOutgoingCallTarget (some bobTarget), Event.clickStart]

/-- The click on Start and the three awaited steps of `startCall`, all
succeeding, when `n` async functions were suspended before. -/
def outgoingCall (n : Nat) (ts : List (Nat × Bool)) (offer : Sdp) : List Event :=
  [Event.clickStart, Event.settle n (Outcome.stream ts),
   Event.settle (n + 1) (Outcome.description offer),
   Event.settle (n + 2) Outcome.resolved]

/-- The `call-accepted` message with answer `ans`, and its
`setRemoteDescription` resolving. -/
def acceptance (n : Nat) (ans : Sdp) : List Event :=
  [Event.callAccepted (some ans), Event.settle (n + 3) Outcome.resolved]

/-- The event that took `w` to `r` ended the call in state `s`: `callState` is
`s`, the transport session and the local media that `w` held are released, both
candidate queues are empty, the remote party is cleared, and the only effects on
the outside world are those of `resetCall`, so that no message was emitted. -/
def TornDown (w r : World) (s : CallState) : Prop :=
  r.callState = s ∧ Released w r ∧ r.pendingIceCandidatesRef = [] ∧
  r.preConnectionIceQueueRef = [] ∧ r.otherPeerUserIdRef = none ∧
  r.log = w.log ++ resetEffects w ∧ emitted r = emitted w

/-- Task `k` is the `answerCall` with closure `c`, suspended at one of its awaits
other than `addIceCandidate`: `getUserMedia`, `setRemoteDescription`,
`createAnswer` or `setLocalDescription`. -/
def AnswerCallAwaits (w : World) (k : Nat) (c : AnswerCtx) : Prop :=
  w.tasks[k]? = some (Task.answerCall_getUserMedia c) ∨
  (∃ pc, w.tasks[k]? = some (Task.answerCall_setRemoteDescription c pc)) ∨
  (∃ pc, w.tasks[k]? = some (Task.answerCall_createAnswer c pc)) ∨
  (∃ pc d, w.tasks[k]? = some (Task.answerCall_setLocalDescription c pc d))

/-- The component of user alice, mounted with no props: the call target comes
from the store. -/
def storeMount : World :=
  World.mount (some exampleSocket) (some "alice") JsOpt.undefined JsOpt.undefined
    JsOpt.undefined none

/-- The call target the chat room stores when the user picks bob for a voice
call (`ChatRoom.js`, lines 228-232). -/
def voiceTarget : OutgoingCallTarget :=
  { receiverId := JsOpt.value "bob", receiverName := JsOpt.value "Bob"
    isVideoCall := JsOpt.value false }

/-- Alice has picked bob for a voice call; the component shows the Start button. -/
def voicePromptWorld : World :=
  run storeMount [Event.setOutgoingCallTarget (some voiceTarget)]

/-- The `incoming-call` message of alice's voice call. -/
def audioInvite : IncomingCallPayload :=
  { sender := some "alice", fromUsername := some "Alice"
    signal := some exampleOffer, isVideoCall := some false }

/-- A `getUserMedia` that resolves with one audio track. -/
def mic : Outcome :=
  Outcome.stream [(1, false)]

/-- Bob accepted alice's voice call, hung up and closed the dialog. -/
def afterAudioCallWorld : World :=
  run calleeMount
    [Event.incomingCall audioInvite, Event.clickAccept, Event.settle 0 mic,
     Event.settle 1 Outcome.resolved,
     Event.settle 2 (Outcome.description exampleAnswer),
     Event.settle 3 Outcome.resolved, Event.clickEnd, Event.clickCloseEnded]

/-- After the voice call, bob accepts a video call of alice and it connects. -/
def nextVideoCallWorld : World :=
  run afterAudioCallWorld
    [Event.incomingCall invite, Event.clickAccept, Event.settle 4 cam,
     Event.settle 5 Outcome.resolved,
     Event.settle 6 (Outcome.description exampleAnswer),
     Event.settle 7 Outcome.resolved]

/-- A handler that ran from `w` to `b` left the mute flag alone, and left the
camera-off flag alone or set it. -/
def KeepsFlags (w b : World) : Prop :=
  b.isMuted = w.isMuted ∧ (b.isVideoOff = w.isVideoOff ∨ b.isVideoOff = true)

/-- The remote stream after the track events `evs`, starting with no remote
stream: each event runs the updater of `ontrack` on the previous value. -/
def remoteAfter (evs : List TrackEvent) : Option (List RemoteTrack) :=
  evs.foldl (fun s ev => some (ontrackUpdater ev s)) none

/-- The ids of the tracks of a remote stream. -/
def trackIds (s : Option (List RemoteTrack)) : List Nat :=
  (s.getD []).map RemoteTrack.id

/-- The tracks the updater of `ontrack` looks at (lines 323-333): those of
`ev.streams[0]` when there is one, else `ev.track`. -/
def offeredTracks (ev : TrackEvent) : List RemoteTrack :=
  match ev.firstStream with
  | some ts => ts
  | none => ev.track.toList

/-- The tracks an event announces, in the words of the specification: its
track, and the tracks of its first stream when it carries one. -/
def announcedTracks (ev : TrackEvent) : List RemoteTrack :=
  ev.track.toList ++ ev.firstStream.getD []

/-- One JavaScript object has one id: tracks that are the same object have the
same id. -/
def SameObjectSameId (ts : List RemoteTrack) : Prop :=
  ∀ t ∈ ts, ∀ u ∈ ts, t.obj = u.obj → t.id = u.id

/-- Whether a list of tracks gives one id to one object can be computed. -/
instance decidableSameObjectSameId (ts : List RemoteTrack) :
    Decidable (SameObjectSameId ts) := by
  unfold SameObjectSameId
  infer_instance

/-- The track events of a remote peer that sends audio and video in one stream,
and then a screen-share track in no stream. -/
def exampleTrackEvents : List TrackEvent :=
  [{ firstStream := some [{ id := 1, obj := 1 }, { id := 2, obj := 2 }]
     track := some { id := 1, obj := 1 } },
   { firstStream := some [{ id := 1, obj := 1 }, { id := 2, obj := 2 }]
     track := some { id := 2, obj := 2 } },
   { firstStream := none, track := some { id := 3, obj := 3 } }]

/-- The track of an event belongs to the first stream of the event, when the
event carries a stream (`RTCTrackEvent.streams` are the streams the track is
part of). -/
def TrackInFirstStream (ev : TrackEvent) : Prop :=
  ∀ ts t, ev.firstStream = some ts → ev.track = some t → t ∈ ts

/-- The body of the loop of lines 324-327, and lines 329-333. -/
def addIfNewId (nx : List RemoteTrack) (t : RemoteTrack) : List RemoteTrack :=
  if !(nx.any fun x => x.id == t.id) then addTrack nx t else nx

/-- No two tracks of `l` are the same object. -/
def ObjNodup (l : List RemoteTrack) : Prop :=
  (l.map RemoteTrack.obj).Nodup

/-- No two tracks of `l` have the same id. -/
def IdNodup (l : List RemoteTrack) : Prop :=
  (l.map RemoteTrack.id).Nodup

/-- A handler that ran from `w` to `b` left the remote stream alone or set it to
null. -/
def KeepsRemote (w b : World) : Prop :=
  b.remoteStream = w.remoteStream ∨ b.remoteStream = none

/-- The remote stream of a world has no two tracks that are the same object and
no two with the same id. -/
def RemoteDistinct (w : World) : Prop :=
  ObjNodup (w.remoteStream.getD []) ∧ IdNodup (w.remoteStream.getD [])

/-- The click on Accept and the awaited steps of `answerCall`, all succeeding
(the calls of `addIceCandidate` of the drain settle with `os`), when `n` async
functions were suspended before. -/
def acceptedCall (n : Nat) (ts : List (Nat × Bool)) (os : List Outcome)
    (ans : Sdp) : List Event :=
  [Event.clickAccept, Event.settle n (Outcome.stream ts)] ++
    (Event.settle (n + 1) Outcome.resolved :: settleFrom (n + 2) os) ++
    [Event.settle (n + 2 + os.length) (Outcome.description ans),
     Event.settle (n + 3 + os.length) Outcome.resolved]

/-- Bob's component rings with alice's call, and candidate 7 has arrived. -/
def ringingWithCandidateWorld : World :=
  run calleeMount [Event.incomingCall invite, Event.iceCandidate (some 7)]

/-! # Theorems -/

/-! ## General lemmas -/

theorem run_append (w : World) (a b : List Event) :
    run w (a ++ b) = run (run w a) b := by
  simp [run, List.foldl_append]

theorem run_cons (w : World) (e : Event) (es : List Event) :
    run w (e :: es) = run (step w e) es := by
  simp [run]

theorem commit_log (a b : World) : (commit a b).log = b.log := by
  unfold commit; split
  · rfl
  · split <;> rfl

theorem commit_tasks (a b : World) : (commit a b).tasks = b.tasks := by
  unfold commit; split
  · rfl
  · split <;> rfl

theorem commit_pcs (a b : World) : (commit a b).pcs = b.pcs := by
  unfold commit; split
  · rfl
  · split <;> rfl

theorem commit_streams (a b : World) : (commit a b).streams = b.streams := by
  unfold commit; split
  · rfl
  · split <;> rfl

theorem commit_pcRef (a b : World) : (commit a b).pcRef = b.pcRef := by
  unfold commit; split
  · rfl
  · split <;> rfl

theorem commit_pending (a b : World) :
    (commit a b).pendingIceCandidatesRef = b.pendingIceCandidatesRef := by
  unfold commit; split
  · rfl
  · split <;> rfl

theorem commit_pre (a b : World) :
    (commit a b).preConnectionIceQueueRef = b.preConnectionIceQueueRef := by
  unfold commit; split
  · rfl
  · split <;> rfl

theorem commit_isUnmountedRef (a b : World) :
    (commit a b).isUnmountedRef = b.isUnmountedRef := by
  unfold commit; split
  · rfl
  · split <;> rfl

theorem commit_callState (a b : World) (h : a.isUnmountedRef = false) :
    (commit a b).callState = b.callState := by
  unfold commit; simp [h]; split <;> rfl

theorem getElem?_set_append_last {α : Type} (l : List α) (k : Nat) (a b : α) :
    (l.set k a ++ [b])[l.length]? = some b := by
  rw [List.getElem?_append_right (by simp)]
  simp

theorem notifyPeer_eq (socket : Option Socket) (id : Option String)
    (m : String → Msg) (w : World) :
    notifyPeer socket id m w =
      { w with log := w.log ++ notifyEffects socket id m } := by
  unfold notifyPeer notifyEffects
  split <;> simp [emitIgnoring, emit, World.record]

theorem closePeerConnection_eq (w : World) :
    closePeerConnection w =
      { w with pcRef := none, pendingIceCandidatesRef := []
               preConnectionIceQueueRef := []
               pcs := closeAt w.pcs w.pcRef
               log := w.log ++ closeEffects w.pcRef } := by
  simp only [closePeerConnection, World.updatePc, World.record, closeAt,
    closeEffects]
  cases w.pcRef <;> simp

theorem stopAllTracks_eq (stream : Option Nat) (w : World) :
    stopAllTracks stream w =
      { w with streams := stopAt w.streams stream
               log := w.log ++ stopEffects w.streams stream } := by
  simp only [stopAllTracks, stopAt, stopEffects]
  cases stream <;> simp

theorem resetCall_eq (w : World) :
    resetCall w =
      { w with pcRef := none, pendingIceCandidatesRef := []
               preConnectionIceQueueRef := []
               pcs := closeAt w.pcs w.pcRef
               streams := stopAt w.streams w.localStreamRef
               log := w.log ++ resetEffects w
               localStreamRef := none, localStream := none, remoteStream := none
               incomingCall := none, remoteDisplayName := ""
               otherPeerUserIdRef := none, errorMessage := none } := by
  simp only [resetCall, closePeerConnection_eq, stopAllTracks_eq, resetEffects]
  cases w.localStreamRef <;> simp [stopAt, stopEffects]

theorem unmountCleanup_eq (w : World) :
    unmountCleanup w =
      if w.inCallRef then
        { w with isUnmountedRef := true, pcRef := none
                 pendingIceCandidatesRef := [], preConnectionIceQueueRef := []
                 pcs := closeAt w.pcs w.pcRef
                 streams := stopAt w.streams w.localStreamRef
                 log := w.log ++
                   notifyEffects w.socket w.otherPeerUserIdRef Msg.endCall ++
                   resetEffects w
                 localStreamRef := none }
      else { w with isUnmountedRef := true } := by
  simp only [unmountCleanup, closePeerConnection_eq, stopAllTracks_eq,
    notifyPeer_eq, resetEffects]
  cases w.inCallRef <;> simp

/-! ## Queueing of candidates (C1) -/

theorem step_iceCandidate_queued (w : World) (pc : Nat) (c : Candidate)
    (hm : w.isUnmountedRef = false) (hs : w.socket ≠ none)
    (hpc : w.pcRef = some pc) (hrd : remoteDescription w pc = none) :
    Frame w (step w (Event.iceCandidate (some c))) ∧
    (step w (Event.iceCandidate (some c))).pendingIceCandidatesRef =
      w.pendingIceCandidatesRef ++ [c] := by
  simp [Frame, step, hm, hs, commit, receive, handleIceCandidate, hpc, hrd]

theorem run_deliver_queued (cs : List Candidate) (w : World) (pc : Nat)
    (hm : w.isUnmountedRef = false) (hs : w.socket ≠ none)
    (hpc : w.pcRef = some pc) (hrd : remoteDescription w pc = none) :
    Frame w (run w (deliver cs)) ∧
    (run w (deliver cs)).pendingIceCandidatesRef =
      w.pendingIceCandidatesRef ++ cs := by
  induction cs generalizing w with
  | nil => simp [Frame, run, deliver]
  | cons c cs ih =>
    obtain ⟨hf, hq⟩ := step_iceCandidate_queued w pc c hm hs hpc hrd
    obtain ⟨h1, h2, h3, h4, h5, h6, h7, h8⟩ := hf
    have hrd2 : remoteDescription (step w (Event.iceCandidate (some c))) pc = none := by
      simpa [remoteDescription, h2] using hrd
    obtain ⟨hf3, hq3⟩ := ih (step w (Event.iceCandidate (some c)))
      (by rw [h5]; exact hm) (by rw [h6]; exact hs) (by rw [h3]; exact hpc) hrd2
    have hrun : run w (deliver (c :: cs)) =
        run (step w (Event.iceCandidate (some c))) (deliver cs) := by
      simp [run, deliver]
    rw [hrun]
    refine ⟨?_, ?_⟩
    · obtain ⟨g1, g2, g3, g4, g5, g6, g7, g8⟩ := hf3
      exact ⟨g1.trans h1, g2.trans h2, g3.trans h3, g4.trans h4, g5.trans h5,
        g6.trans h6, g7.trans h7, g8.trans h8⟩
    · rw [hq3, hq]; simp

theorem step_callAccepted (w : World) (pc : Nat) (sig : Sdp)
    (hm : w.isUnmountedRef = false) (hs : w.socket ≠ none)
    (hpc : w.pcRef = some pc) :
    step w (Event.callAccepted (some sig)) =
      { w with log := w.log ++ [Effect.setRemoteDescription pc (some sig)]
               tasks := w.tasks ++ [Task.handleCallAccepted_setRemoteDescription pc sig]
               localStreamRef := w.localStream } := by
  simp [step, hm, hs, commit, receive, handleCallAccepted, hpc, World.record,
    World.suspend]

theorem step_setRemoteDescription_resolved (w : World) (pc k : Nat) (sig : Sdp)
    (ht : w.tasks[k]? = some (Task.handleCallAccepted_setRemoteDescription pc sig)) :
    step w (Event.settle k Outcome.resolved) =
      commit w (handleCallAccepted_afterSetRemoteDescription pc sig
        { w with tasks := w.tasks.set k Task.done }) := by
  simp [step, settle, ht]

theorem step_drain_accepted (w : World) (pc k : Nat) (rest : List Candidate)
    (o : Outcome)
    (ht : w.tasks[k]? = some (Task.handleCallAccepted_addIceCandidate pc rest))
    (ho : settlesAddIceCandidate o = true) :
    step w (Event.settle k o) =
      commit w (handleCallAccepted_drain pc rest
        { w with tasks := w.tasks.set k Task.done }) := by
  cases o <;> simp [settlesAddIceCandidate] at ho <;> simp [step, settle, ht]

/-- The loop of `handleCallAccepted`, from one suspended `addIceCandidate` to
its end: the remaining candidates are passed to the transport in order,
whatever the transport answers, and then the call is Connected. -/
theorem run_drain_accepted (rest : List Candidate) (w : World) (pc k : Nat)
    (os : List Outcome)
    (hm : w.isUnmountedRef = false)
    (ht : w.tasks[k]? = some (Task.handleCallAccepted_addIceCandidate pc rest))
    (hlen : os.length = rest.length + 1)
    (hos : ∀ o ∈ os, settlesAddIceCandidate o = true) :
    (run w (Event.settle k (os.headD Outcome.resolved) ::
        settleFrom w.tasks.length os.tail)).log =
      w.log ++ rest.map (Effect.addIceCandidate pc) ∧
    (run w (Event.settle k (os.headD Outcome.resolved) ::
        settleFrom w.tasks.length os.tail)).callState = CallState.connected ∧
    (run w (Event.settle k (os.headD Outcome.resolved) ::
        settleFrom w.tasks.length os.tail)).pendingIceCandidatesRef =
      w.pendingIceCandidatesRef := by
  induction rest generalizing w k os with
  | nil =>
    match os, hlen with
    | [o], _ =>
      have ho := hos o (by simp)
      simp only [settleFrom, run, List.foldl, List.headD, List.tail]
      rw [step_drain_accepted w pc k [] o ht ho]
      simp [commit_log, commit_pending, commit_callState, hm,
        handleCallAccepted_drain]
  | cons c r ih =>
    match os, hlen with
    | o :: o2 :: os2, hl =>
      have ho := hos o (by simp)
      simp only [settleFrom, run, List.foldl, List.headD, List.tail]
      rw [step_drain_accepted w pc k (c :: r) o ht ho]
      have := ih
        (commit w (handleCallAccepted_drain pc (c :: r)
          { w with tasks := w.tasks.set k Task.done }))
        w.tasks.length (o2 :: os2)
        (by simp [commit_isUnmountedRef, hm, handleCallAccepted_drain,
              World.record, World.suspend])
        (by simp only [commit_tasks, handleCallAccepted_drain, World.record,
              World.suspend]
            exact getElem?_set_append_last _ _ _ _)
        (by simpa using hl) (fun o h => hos o (by simp [h]))
      simp only [run, List.foldl, List.headD, List.tail, commit_tasks] at this
      have hl2 : (handleCallAccepted_drain pc (c :: r)
          { w with tasks := w.tasks.set k Task.done }).tasks.length =
          w.tasks.length + 1 := by
        simp [handleCallAccepted_drain, World.record, World.suspend]
      rw [hl2] at this
      obtain ⟨h1, h2, h3⟩ := this
      refine ⟨?_, h2, ?_⟩
      · rw [h1]
        simp [commit_log, handleCallAccepted_drain, World.record, World.suspend]
      · rw [h3]
        simp [commit_pending, handleCallAccepted_drain, World.record,
          World.suspend]

/-- C1. Let a transport session `pc` be held whose remote description is not
set, in any call state. Candidates `cs1` arrive, the `call-accepted` message
arrives, and candidates `cs2` arrive while `setRemoteDescription` is pending.
Up to there nothing was passed to the transport: the only effect is the call of
`setRemoteDescription`, and every candidate was appended to the pending queue.
Once `setRemoteDescription` has resolved and the loop has run (whatever the
transport answers to each `addIceCandidate`), the transport has been given the
queue in arrival order, nothing else, the queue is empty and the call is
Connected. The queue is empty when a session is created (lines 300 and 400),
so it then holds exactly the delivered candidates. -/
theorem c1_candidates_wait_for_remote_description
    (w : World) (pc : Nat) (sig : Sdp) (cs1 cs2 : List Candidate)
    (os : List Outcome)
    (hm : w.isUnmountedRef = false) (hs : w.socket ≠ none)
    (hpc : w.pcRef = some pc) (hrd : remoteDescription w pc = none)
    (hlen : os.length = (w.pendingIceCandidatesRef ++ cs1 ++ cs2).length)
    (hos : ∀ o ∈ os, settlesAddIceCandidate o = true) :
    (run w (deliver cs1 ++ [Event.callAccepted (some sig)] ++ deliver cs2)).log =
      w.log ++ [Effect.setRemoteDescription pc (some sig)] ∧
    (run w (deliver cs1 ++ [Event.callAccepted (some sig)] ++
        deliver cs2)).pendingIceCandidatesRef =
      w.pendingIceCandidatesRef ++ cs1 ++ cs2 ∧
    (run w (deliver cs1 ++ [Event.callAccepted (some sig)] ++ deliver cs2 ++
        Event.settle w.tasks.length Outcome.resolved ::
          settleFrom (w.tasks.length + 1) os)).log =
      w.log ++ [Effect.setRemoteDescription pc (some sig)] ++
        (w.pendingIceCandidatesRef ++ cs1 ++ cs2).map (Effect.addIceCandidate pc) ∧
    given (run w (deliver cs1 ++ [Event.callAccepted (some sig)] ++ deliver cs2 ++
        Event.settle w.tasks.length Outcome.resolved ::
          settleFrom (w.tasks.length + 1) os)) pc =
      given w pc ++ (w.pendingIceCandidatesRef ++ cs1 ++ cs2) ∧
    (run w (deliver cs1 ++ [Event.callAccepted (some sig)] ++ deliver cs2 ++
        Event.settle w.tasks.length Outcome.resolved ::
          settleFrom (w.tasks.length + 1) os)).pendingIceCandidatesRef = [] ∧
    (run w (deliver cs1 ++ [Event.callAccepted (some sig)] ++ deliver cs2 ++
        Event.settle w.tasks.length Outcome.resolved ::
          settleFrom (w.tasks.length + 1) os)).callState = CallState.connected := by
  -- candidates before the accept
  obtain ⟨⟨a1, a2, a3, a4, a5, a6, _, _⟩, aq⟩ :=
    run_deliver_queued cs1 w pc hm hs hpc hrd
  generalize hA : run w (deliver cs1) = A at *
  have hmA : A.isUnmountedRef = false := a5.trans hm
  have hsA : A.socket ≠ none := by rw [a6]; exact hs
  have hpcA : A.pcRef = some pc := a3.trans hpc
  -- the accept
  have hB := step_callAccepted A pc sig hmA hsA hpcA
  generalize hBdef : step A (Event.callAccepted (some sig)) = B at *
  have hrdB : remoteDescription B pc = none := by
    rw [hB]; simpa [remoteDescription, a2] using hrd
  -- candidates while `setRemoteDescription` is pending
  obtain ⟨⟨c1, _, _, c4, c5, _, _, _⟩, cq⟩ := run_deliver_queued cs2 B pc
    (by rw [hB]; exact hmA) (by rw [hB]; exact hsA) (by rw [hB]; exact hpcA) hrdB
  generalize hC : run B (deliver cs2) = C at *
  have hq : run w (deliver cs1 ++ [Event.callAccepted (some sig)] ++ deliver cs2) = C := by
    rw [run_append, run_append, hA]
    simp only [run, List.foldl] at hBdef hC ⊢
    rw [hBdef, hC]
  have hlogC : C.log = w.log ++ [Effect.setRemoteDescription pc (some sig)] := by
    rw [c1, hB]; simp [a1]
  have hqC : C.pendingIceCandidatesRef = w.pendingIceCandidatesRef ++ cs1 ++ cs2 := by
    rw [cq, hB]; simp [aq]
  have htC : C.tasks =
      w.tasks ++ [Task.handleCallAccepted_setRemoteDescription pc sig] := by
    rw [c4, hB]; simp [a4]
  have hmC : C.isUnmountedRef = false := by rw [c5, hB]; exact hmA
  refine ⟨by rw [hq, hlogC], by rw [hq, hqC], ?_⟩
  rw [run_append, hq]
  have hk : C.tasks[w.tasks.length]? =
      some (Task.handleCallAccepted_setRemoteDescription pc sig) := by
    rw [htC]; simp
  have hD := step_setRemoteDescription_resolved C pc w.tasks.length sig hk
  rw [run_cons, hD]
  generalize hQ : w.pendingIceCandidatesRef ++ cs1 ++ cs2 = Q at *
  -- the log decides what the transport was given
  suffices hmain :
      (run (commit C (handleCallAccepted_afterSetRemoteDescription pc sig
          { C with tasks := C.tasks.set w.tasks.length Task.done }))
        (settleFrom (w.tasks.length + 1) os)).log =
        w.log ++ [Effect.setRemoteDescription pc (some sig)] ++
          Q.map (Effect.addIceCandidate pc) ∧
      (run (commit C (handleCallAccepted_afterSetRemoteDescription pc sig
          { C with tasks := C.tasks.set w.tasks.length Task.done }))
        (settleFrom (w.tasks.length + 1) os)).pendingIceCandidatesRef = [] ∧
      (run (commit C (handleCallAccepted_afterSetRemoteDescription pc sig
          { C with tasks := C.tasks.set w.tasks.length Task.done }))
        (settleFrom (w.tasks.length + 1) os)).callState = CallState.connected by
    obtain ⟨m1, m2, m3⟩ := hmain
    refine ⟨m1, ?_, m2, m3⟩
    simp [given, m1, List.filterMap_append, List.filterMap_map, Function.comp_def]
  cases Q with
  | nil =>
    have : os = [] := by simpa using hlen
    subst this
    simp [settleFrom, run, handleCallAccepted_afterSetRemoteDescription, hqC,
      handleCallAccepted_drain, commit_log, commit_pending, commit_callState, hmC,
      World.updatePc, hlogC]
  | cons c rest =>
    match os, hlen with
    | o :: os2, hl =>
      have hdr := run_drain_accepted rest
        (commit C (handleCallAccepted_afterSetRemoteDescription pc sig
          { C with tasks := C.tasks.set w.tasks.length Task.done }))
        pc (w.tasks.length + 1) (o :: os2)
        (by simp [commit_isUnmountedRef, hmC,
              handleCallAccepted_afterSetRemoteDescription, hqC,
              handleCallAccepted_drain, World.record, World.suspend, World.updatePc])
        (by simp only [commit_tasks, handleCallAccepted_afterSetRemoteDescription,
              hqC, handleCallAccepted_drain, World.record, World.suspend,
              World.updatePc, htC]
            rw [List.getElem?_append_right (by simp)]
            simp)
        (by simpa using hl) hos
      have hl2 : (commit C (handleCallAccepted_afterSetRemoteDescription pc sig
          { C with tasks := C.tasks.set w.tasks.length Task.done })).tasks.length =
          w.tasks.length + 2 := by
        simp [commit_tasks, handleCallAccepted_afterSetRemoteDescription, hqC,
          handleCallAccepted_drain, World.record, World.suspend, World.updatePc, htC]
      rw [hl2] at hdr
      simp only [List.headD, List.tail] at hdr
      obtain ⟨d1, d2, d3⟩ := hdr
      simp only [settleFrom]
      refine ⟨?_, ?_, d2⟩
      · rw [d1]
        simp [commit_log, handleCallAccepted_afterSetRemoteDescription, hqC,
          handleCallAccepted_drain, World.record, World.suspend, World.updatePc,
          hlogC]
      · rw [d3]
        simp [commit_pending, handleCallAccepted_afterSetRemoteDescription, hqC,
          handleCallAccepted_drain, World.record, World.suspend, World.updatePc]

/-- Witness of C1: alice is calling bob; candidates 7 and 8 arrive, then the
accept, then candidate 9; the transport refuses candidate 8. -/
theorem c1_candidates_wait_for_remote_description_witness :
    given (run callingWorld
      [Event.iceCandidate (some 7), Event.iceCandidate (some 8),
       Event.callAccepted (some exampleAnswer), Event.iceCandidate (some 9),
       Event.settle 3 Outcome.resolved, Event.settle 4 Outcome.resolved,
       Event.settle 5 (Outcome.rejected badCandidate),
       Event.settle 6 Outcome.resolved]) 0 = [7, 8, 9] :=
  (c1_candidates_wait_for_remote_description callingWorld 0 exampleAnswer
    [7, 8] [9] [Outcome.resolved, Outcome.rejected badCandidate, Outcome.resolved]
    (by decide) (by decide) (by decide) (by decide) (by decide)
    (by decide)).2.2.2.1

/-! ## The drain of `answerCall` (C3) -/

theorem step_drain_answer (w : World) (c : AnswerCtx) (pc k : Nat)
    (rest : List Candidate) (o : Outcome)
    (ht : w.tasks[k]? = some (Task.answerCall_addIceCandidate c pc rest))
    (ho : settlesAddIceCandidate o = true) :
    step w (Event.settle k o) =
      commit w (answerCall_drain c pc rest
        { w with tasks := w.tasks.set k Task.done }) := by
  cases o <;> simp [settlesAddIceCandidate] at ho <;> simp [step, settle, ht]

/-- The loop of `answerCall`, from one suspended `addIceCandidate` to the call of
`createAnswer`. -/
theorem run_drain_answer (rest : List Candidate) (w : World) (c : AnswerCtx)
    (pc k : Nat) (os : List Outcome)
    (ht : w.tasks[k]? = some (Task.answerCall_addIceCandidate c pc rest))
    (hlen : os.length = rest.length + 1)
    (hos : ∀ o ∈ os, settlesAddIceCandidate o = true) :
    (run w (Event.settle k (os.headD Outcome.resolved) ::
        settleFrom w.tasks.length os.tail)).log =
      w.log ++ rest.map (Effect.addIceCandidate pc) ++ [Effect.createAnswer pc] ∧
    (run w (Event.settle k (os.headD Outcome.resolved) ::
        settleFrom w.tasks.length os.tail)).pendingIceCandidatesRef =
      w.pendingIceCandidatesRef ∧
    (run w (Event.settle k (os.headD Outcome.resolved) ::
        settleFrom w.tasks.length os.tail)).preConnectionIceQueueRef =
      w.preConnectionIceQueueRef := by
  induction rest generalizing w k os with
  | nil =>
    match os, hlen with
    | [o], _ =>
      have ho := hos o (by simp)
      simp only [settleFrom, run, List.foldl, List.headD, List.tail]
      rw [step_drain_answer w c pc k [] o ht ho]
      simp [commit_log, commit_pending, commit_pre, answerCall_drain, World.record,
        World.suspend]
  | cons x r ih =>
    match os, hlen with
    | o :: o2 :: os2, hl =>
      have ho := hos o (by simp)
      simp only [settleFrom, run, List.foldl, List.headD, List.tail]
      rw [step_drain_answer w c pc k (x :: r) o ht ho]
      have := ih
        (commit w (answerCall_drain c pc (x :: r)
          { w with tasks := w.tasks.set k Task.done }))
        w.tasks.length (o2 :: os2)
        (by simp only [commit_tasks, answerCall_drain, World.record, World.suspend]
            exact getElem?_set_append_last _ _ _ _)
        (by simpa using hl) (fun o h => hos o (by simp [h]))
      simp only [run, List.foldl, List.headD, List.tail, commit_tasks] at this
      have hl2 : (answerCall_drain c pc (x :: r)
          { w with tasks := w.tasks.set k Task.done }).tasks.length =
          w.tasks.length + 1 := by
        simp [answerCall_drain, World.record, World.suspend]
      rw [hl2] at this
      obtain ⟨h1, h2, h3⟩ := this
      refine ⟨?_, ?_, ?_⟩
      · rw [h1]
        simp [commit_log, answerCall_drain, World.record, World.suspend]
      · rw [h2]
        simp [commit_pending, answerCall_drain, World.record, World.suspend]
      · rw [h3]
        simp [commit_pre, answerCall_drain, World.record, World.suspend]

/-- C3. Let `answerCall` be suspended at `await pc.setRemoteDescription(...)`
(task `k`), with any contents of the two queues. Once the remote offer has been
applied, and whatever the transport answers to each `addIceCandidate`, the
effects of the function up to its `createAnswer` are exactly the calls of
`addIceCandidate` for the pre-session queue followed by the pending queue, each
in its order; the transport has been given just these; and both queues are
empty. -/
theorem c3_answerCall_drains_both_queues
    (w : World) (c : AnswerCtx) (pc k : Nat) (os : List Outcome)
    (ht : w.tasks[k]? = some (Task.answerCall_setRemoteDescription c pc))
    (hlen : os.length =
      (w.preConnectionIceQueueRef ++ w.pendingIceCandidatesRef).length)
    (hos : ∀ o ∈ os, settlesAddIceCandidate o = true) :
    (run w (Event.settle k Outcome.resolved :: settleFrom w.tasks.length os)).log =
      w.log ++
        (w.preConnectionIceQueueRef ++ w.pendingIceCandidatesRef).map
          (Effect.addIceCandidate pc) ++ [Effect.createAnswer pc] ∧
    given (run w (Event.settle k Outcome.resolved ::
        settleFrom w.tasks.length os)) pc =
      given w pc ++ (w.preConnectionIceQueueRef ++ w.pendingIceCandidatesRef) ∧
    (run w (Event.settle k Outcome.resolved ::
        settleFrom w.tasks.length os)).preConnectionIceQueueRef = [] ∧
    (run w (Event.settle k Outcome.resolved ::
        settleFrom w.tasks.length os)).pendingIceCandidatesRef = [] := by
  have hstep : step w (Event.settle k Outcome.resolved) =
      commit w (answerCall_afterSetRemoteDescription c pc
        { w with tasks := w.tasks.set k Task.done }) := by
    simp [step, settle, ht]
  rw [run_cons, hstep]
  generalize hQ : w.preConnectionIceQueueRef ++ w.pendingIceCandidatesRef = Q at *
  suffices hmain :
      (run (commit w (answerCall_afterSetRemoteDescription c pc
          { w with tasks := w.tasks.set k Task.done }))
        (settleFrom w.tasks.length os)).log =
        w.log ++ Q.map (Effect.addIceCandidate pc) ++ [Effect.createAnswer pc] ∧
      (run (commit w (answerCall_afterSetRemoteDescription c pc
          { w with tasks := w.tasks.set k Task.done }))
        (settleFrom w.tasks.length os)).preConnectionIceQueueRef = [] ∧
      (run (commit w (answerCall_afterSetRemoteDescription c pc
          { w with tasks := w.tasks.set k Task.done }))
        (settleFrom w.tasks.length os)).pendingIceCandidatesRef = [] by
    obtain ⟨m1, m2, m3⟩ := hmain
    refine ⟨m1, ?_, m2, m3⟩
    simp [given, m1, List.filterMap_append, List.filterMap_map, Function.comp_def]
  cases Q with
  | nil =>
    have : os = [] := by simpa using hlen
    subst this
    simp [settleFrom, run, answerCall_afterSetRemoteDescription, hQ,
      answerCall_drain, commit_log, commit_pending, commit_pre, World.updatePc,
      World.record, World.suspend]
  | cons x rest =>
    match os, hlen with
    | o :: os2, hl =>
      have hdr := run_drain_answer rest
        (commit w (answerCall_afterSetRemoteDescription c pc
          { w with tasks := w.tasks.set k Task.done }))
        c pc w.tasks.length (o :: os2)
        (by simp only [commit_tasks, answerCall_afterSetRemoteDescription,
              World.updatePc, hQ, answerCall_drain, World.record, World.suspend]
            exact getElem?_set_append_last _ _ _ _)
        (by simpa using hl) hos
      have hl2 : (commit w (answerCall_afterSetRemoteDescription c pc
          { w with tasks := w.tasks.set k Task.done })).tasks.length =
          w.tasks.length + 1 := by
        simp [commit_tasks, answerCall_afterSetRemoteDescription, hQ,
          answerCall_drain, World.record, World.suspend, World.updatePc]
      rw [hl2] at hdr
      simp only [List.headD, List.tail] at hdr
      obtain ⟨d1, d2, d3⟩ := hdr
      simp only [settleFrom]
      refine ⟨?_, ?_, ?_⟩
      · rw [d1]
        simp [commit_log, answerCall_afterSetRemoteDescription, hQ,
          answerCall_drain, World.record, World.suspend, World.updatePc]
      · rw [d3]
        simp [commit_pre, answerCall_afterSetRemoteDescription, hQ,
          answerCall_drain, World.record, World.suspend, World.updatePc]
      · rw [d2]
        simp [commit_pending, answerCall_afterSetRemoteDescription, hQ,
          answerCall_drain, World.record, World.suspend, World.updatePc]

/-- Witness of C3: bob accepts alice's call with candidates 7 and 8 in the
pre-session queue and candidate 9 in the pending queue; the transport refuses
candidate 8. -/
theorem c3_answerCall_drains_both_queues_witness :
    answeringWorld.preConnectionIceQueueRef = [7, 8] ∧
    answeringWorld.pendingIceCandidatesRef = [9] ∧
    given (run answeringWorld
      [Event.settle 1 Outcome.resolved, Event.settle 2 Outcome.resolved,
       Event.settle 3 (Outcome.rejected badCandidate),
       Event.settle 4 Outcome.resolved]) 0 = [7, 8, 9] :=
  ⟨by decide, by decide,
    (c3_answerCall_drains_both_queues answeringWorld answeringCtx 0 1
      [Outcome.resolved, Outcome.rejected badCandidate, Outcome.resolved]
      (by decide) (by decide) (by decide)).2.1⟩

/-! ## The pre-session queue on the caller side (C2) -/

/-- C2, the code at the failing input. Alice starts a call; candidate 7 arrives
while `getUserMedia` is pending (no transport session yet, so line 210 puts it
in the pre-session queue), candidate 8 arrives once the session exists. After
the accept the call is Connected and the transport has been given candidate 8
only: `handleCallAccepted` drains `pendingIceCandidatesRef` and never reads
`preConnectionIceQueueRef`, where candidate 7 stays. -/
theorem c2_pre_session_candidate_is_never_applied :
    (run callerMount
      [Event.clickStart, Event.iceCandidate (some 7), Event.settle 0 cam,
       Event.settle 1 (Outcome.description exampleOffer),
       Event.settle 2 Outcome.resolved, Event.iceCandidate (some 8),
       Event.callAccepted (some exampleAnswer), Event.settle 3 Outcome.resolved,
       Event.settle 4 Outcome.resolved]).callState = CallState.connected ∧
    given (run callerMount
      [Event.clickStart, Event.iceCandidate (some 7), Event.settle 0 cam,
       Event.settle 1 (Outcome.description exampleOffer),
       Event.settle 2 Outcome.resolved, Event.iceCandidate (some 8),
       Event.callAccepted (some exampleAnswer), Event.settle 3 Outcome.resolved,
       Event.settle 4 Outcome.resolved]) 0 = [8] ∧
    (run callerMount
      [Event.clickStart, Event.iceCandidate (some 7), Event.settle 0 cam,
       Event.settle 1 (Outcome.description exampleOffer),
       Event.settle 2 Outcome.resolved, Event.iceCandidate (some 8),
       Event.callAccepted (some exampleAnswer), Event.settle 3 Outcome.resolved,
       Event.settle 4 Outcome.resolved]).preConnectionIceQueueRef = [7] := by
  decide

/-! ## Connected only after the remote description (C4) -/

theorem commit_callState_ne (a b : World) (v : CallState)
    (hb : b.callState ≠ v) (ha : a.callState ≠ v) :
    (commit a b).callState ≠ v := by
  unfold commit; split
  · exact ha
  · split <;> exact hb

theorem click_callState (e : Event) (w : World)
    (h : w.callState ≠ CallState.connected) :
    (click e w).callState ≠ CallState.connected := by
  unfold click
  split <;> simp_all [onClose, handleCloseEnded, startCall, cancelCall, endCall,
    rejectCall, answerCall, resetCall_eq, notifyPeer_eq, World.record,
    World.suspend]
  · split <;> simp
  · split <;> simp_all

theorem receive_callState (e : Event) (w : World)
    (h : w.callState ≠ CallState.connected) :
    (receive e w).callState ≠ CallState.connected := by
  unfold receive
  split <;> simp_all [handleIncomingCall, handleCallAccepted, handleIceCandidate,
    handleCallEnded, handleCallRejected, handleCallFailed, resetCall_eq,
    World.record, World.suspend]
  · split <;> simp_all
  · split
    · exact h
    · split
      · simp_all
      · split <;> simp_all
  · split <;> simp_all
  · split <;> simp_all
  · split <;> simp_all

theorem settle_callState (k : Nat) (o : Outcome) (w : World)
    (h : w.callState ≠ CallState.connected)
    (hc : ∀ t, w.tasks[k]? = some t → connects t o = false) :
    (settle k o w).callState ≠ CallState.connected := by
  unfold settle
  split
  · exact h
  · rename_i t ht
    have hct := hc t ht
    split <;> simp_all [connects, startCall_afterGetUserMedia, startCall_catch,
      startCall_afterCreateOffer, startCall_afterSetLocalDescription,
      handleCallAccepted_catch, answerCall_afterGetUserMedia, answerCall_catch,
      answerCall_afterSetRemoteDescription, answerCall_drain,
      answerCall_afterCreateAnswer, answerCall_afterSetLocalDescription,
      installMedia, rejectCall, emit, resetCall_eq, notifyPeer_eq, World.record,
      World.suspend, World.updatePc]
    all_goals (split <;> simp_all)

/-- A step that turns `callState` into Connected resumes one of the tasks of
`connects`. -/
theorem step_connected_only (w : World) (e : Event)
    (hb : w.callState ≠ CallState.connected)
    (ha : (step w e).callState = CallState.connected) :
    ∃ k t o, e = Event.settle k o ∧ w.tasks[k]? = some t ∧ connects t o = true := by
  by_contra hne
  apply absurd ha
  cases e with
  | settle k o =>
    apply commit_callState_ne _ _ _ _ hb
    apply settle_callState k o w hb
    intro t ht
    by_contra hc
    exact hne ⟨k, t, o, rfl, ht, by simpa using hc⟩
  | unmount =>
    simp only [step, unmountCleanup_eq]
    split
    · exact hb
    · split <;> exact hb
  | track pc ev =>
    simp only [step]
    split
    · exact commit_callState_ne _ _ _ (by simpa [ontrack] using hb) hb
    · exact hb
  | localCandidate pc c =>
    simp only [step]
    split
    · apply commit_callState_ne _ _ _ _ hb
      simp only [onicecandidate]
      split
      · simpa [emit, World.record] using hb
      · exact hb
    · exact hb
  | connectionState pc st =>
    simp only [step]
    split
    · apply commit_callState_ne _ _ _ _ hb
      simp only [onconnectionstatechange]
      split
      · split
        · simp [resetCall_eq]
        · exact hb
      · exact hb
    · exact hb
  | setOutgoingCallTarget t =>
    simp only [step]
    split
    · exact hb
    · exact commit_callState_ne _ _ _ (by simpa using hb) hb
  | incomingCall p =>
    simp only [step]
    split
    · exact hb
    · exact commit_callState_ne _ _ _ (receive_callState _ _ hb) hb
  | callAccepted p =>
    simp only [step]
    split
    · exact hb
    · exact commit_callState_ne _ _ _ (receive_callState _ _ hb) hb
  | iceCandidate p =>
    simp only [step]
    split
    · exact hb
    · exact commit_callState_ne _ _ _ (receive_callState _ _ hb) hb
  | callEnded =>
    simp only [step]
    split
    · exact hb
    · exact commit_callState_ne _ _ _ (receive_callState _ _ hb) hb
  | callRejected =>
    simp only [step]
    split
    · exact hb
    · exact commit_callState_ne _ _ _ (receive_callState _ _ hb) hb
  | callFailed p =>
    simp only [step]
    split
    · exact hb
    · exact commit_callState_ne _ _ _ (receive_callState _ _ hb) hb
  | _ =>
    simp only [step]
    split
    · exact hb
    · exact commit_callState_ne _ _ _ (click_callState _ _ hb) hb

/-- When `setRemoteDescription` rejects, the step does not end Connected and
the async function has finished. -/
theorem step_setRemoteDescription_rejected (w : World) (k : Nat) (err : JsError)
    (ht : AwaitsSetRemoteDescription w k)
    (hm : w.isUnmountedRef = false ∨ w.callState ≠ CallState.connected) :
    (step w (Event.settle k (Outcome.rejected err))).callState ≠
      CallState.connected ∧
    (step w (Event.settle k (Outcome.rejected err))).tasks =
      w.tasks.set k Task.done := by
  have hcases : w.isUnmountedRef = false ∨
      (w.isUnmountedRef = true ∧ w.callState ≠ CallState.connected) := by
    cases hu : w.isUnmountedRef
    · exact Or.inl rfl
    · rcases hm with h | h
      · simp [hu] at h
      · exact Or.inr ⟨rfl, h⟩
  rcases ht with ⟨pc, sig, ht⟩ | ⟨c, pc, ht⟩
  · simp only [step, settle, ht, commit_tasks]
    refine ⟨?_, ?_⟩
    · rcases hcases with hu | ⟨hu, hc⟩
      · rw [commit_callState _ _ hu]
        simp [handleCallAccepted_catch, hu, resetCall_eq]
      · simpa [commit, hu] using hc
    · simp only [handleCallAccepted_catch]
      split <;> simp [resetCall_eq]
  · simp only [step, settle, ht, commit_tasks]
    refine ⟨?_, ?_⟩
    · rcases hcases with hu | ⟨hu, hc⟩
      · rw [commit_callState _ _ hu]
        simp [answerCall_catch, rejectCall, resetCall_eq]
      · simpa [commit, hu] using hc
    · simp [answerCall_catch, rejectCall, resetCall_eq, notifyPeer_eq]

/-- C4. (1) A step of the event loop turns `callState` into Connected only by
resuming `handleCallAccepted` after its `setRemoteDescription` has resolved (or
inside the loop that follows it), or `answerCall` at its last `await`, which it
reaches only through its resolved `setRemoteDescription`. (2) When applying the
remote description fails, in `handleCallAccepted` and in `answerCall` alike,
`callState` is not Connected after that step, and the function has finished, so
it sets nothing later. (On an unmounted component React ignores the setters, so
there `callState` is simply what it was.) -/
theorem c4_connected_only_after_remote_description (w : World) (e : Event) :
    (w.callState ≠ CallState.connected →
      (step w e).callState = CallState.connected →
      ∃ k t o, e = Event.settle k o ∧ w.tasks[k]? = some t ∧
        connects t o = true) ∧
    (∀ k err, AwaitsSetRemoteDescription w k →
      e = Event.settle k (Outcome.rejected err) →
      (w.isUnmountedRef = false ∨ w.callState ≠ CallState.connected) →
      (step w e).callState ≠ CallState.connected ∧
      (step w e).tasks = w.tasks.set k Task.done) := by
  refine ⟨step_connected_only w e, ?_⟩
  intro k err ht he hm
  subst he
  exact step_setRemoteDescription_rejected w k err ht hm

/-- Witness of C4: bob has accepted alice's call and the transport refuses her
offer. -/
theorem c4_connected_only_after_remote_description_witness :
    (step answeringWorld (Event.settle 1 (Outcome.rejected badSdp))).callState ≠
      CallState.connected ∧
    (step answeringWorld (Event.settle 1 (Outcome.rejected badSdp))).tasks =
      answeringWorld.tasks.set 1 Task.done :=
  (c4_connected_only_after_remote_description answeringWorld
    (Event.settle 1 (Outcome.rejected badSdp))).2 1 badSdp
    (Or.inr ⟨answeringCtx, 0, by decide⟩) rfl (Or.inl (by decide))

/-! ## Failures of the remote description and of media acquisition (C5-C7) -/

/-- C5, the code at the failing input. On the caller side a refused answer ends
in Failed. On the callee side (bob accepts, media is acquired, the transport
refuses the offer) the `catch` of `answerCall` sets Failed (line 491) and then
calls `rejectCall` (line 493), which sets Rejected (line 507): the resulting
state is Rejected, with no error message. -/
theorem c5_callee_failure_ends_rejected :
    (run callingWorld
      [Event.callAccepted (some exampleAnswer),
       Event.settle 3 (Outcome.rejected badSdp)]).callState = CallState.failed ∧
    (run calleeMount
      [Event.incomingCall invite, Event.clickAccept, Event.settle 0 cam,
       Event.settle 1 (Outcome.rejected badSdp)]).callState =
      CallState.rejected ∧
    (run calleeMount
      [Event.incomingCall invite, Event.clickAccept, Event.settle 0 cam,
       Event.settle 1 (Outcome.rejected badSdp)]).errorMessage = none := by
  decide

/-- C6, the code at the failing input. Bob accepts alice's call and refuses the
permission prompt. No transport session is created, but the resulting state is
Rejected, not Failed, and the text set at line 485 is cleared again by the
`resetCall` inside `rejectCall` (line 106), so no failure is reported. -/
theorem c6_permission_denied_on_accept_ends_rejected :
    (run calleeMount
      [Event.incomingCall invite, Event.clickAccept,
       Event.settle 0 (Outcome.rejected denied)]).callState =
      CallState.rejected ∧
    (run calleeMount
      [Event.incomingCall invite, Event.clickAccept,
       Event.settle 0 (Outcome.rejected denied)]).errorMessage = none ∧
    mediaErrorMessage denied = "Camera/microphone access was denied." ∧
    (run calleeMount
      [Event.incomingCall invite, Event.clickAccept,
       Event.settle 0 (Outcome.rejected denied)]).pcs = [] ∧
    (run calleeMount
      [Event.incomingCall invite, Event.clickAccept,
       Event.settle 0 (Outcome.rejected denied)]).pcRef = none := by
  decide

/-- C7, the code at the failing input. Alice starts a call and media
acquisition fails, once with a refused permission and once with a busy device.
The call ends in Failed, and the `catch` computes the device-specific text, but
the `resetCall` it calls last (line 384) sets `errorMessage` back to `null`
(line 106): after the step no text is exposed. -/
theorem c7_device_error_text_is_cleared :
    (run callerMount
      [Event.clickStart, Event.settle 0 (Outcome.rejected denied)]).callState =
      CallState.failed ∧
    mediaErrorMessage denied = "Camera/microphone access was denied." ∧
    (run callerMount
      [Event.clickStart, Event.settle 0 (Outcome.rejected denied)]).errorMessage =
      none ∧
    (run callerMount
      [Event.clickStart, Event.settle 0 (Outcome.rejected busy)]).callState =
      CallState.failed ∧
    mediaErrorMessage busy = "Device in use" ∧
    (run callerMount
      [Event.clickStart, Event.settle 0 (Outcome.rejected busy)]).errorMessage =
      none := by
  decide

/-! ## Release on terminal transitions (C8) -/

theorem getElem?_updateAt {α : Type} (l : List α) (i : Nat) (f : α → α) :
    (updateAt l i f)[i]? = (l[i]?).map f := by
  unfold updateAt
  split
  · rename_i c hc
    simp [hc, List.getElem?_set]
    by_contra hlt
    rw [List.getElem?_eq_none (by omega)] at hc
    cases hc
  · rename_i hc
    simp [hc]

theorem leavesOrReleases_resetCall (w u : World) (h1 : u.pcRef = w.pcRef)
    (h3 : u.localStreamRef = w.localStreamRef) :
    LeavesOrReleases w (resetCall u) := by
  refine Or.inr (Or.inr ⟨by simp [resetCall_eq], ?_, by simp [resetCall_eq], ?_⟩)
  · intro p hp
    simp [resetCall_eq, isOpen, h1, hp, closeAt, getElem?_updateAt]
    cases u.pcs[p]? <;> simp
  · intro s hs
    simp [resetCall_eq, allStopped, h3, hs, stopAt, getElem?_updateAt]
    cases u.streams[s]? <;> simp

theorem released_commit (w b : World) (hr : Rendered w)
    (hg : LeavesOrReleases w b) (hchg : (commit w b).callState ≠ w.callState)
    (hterm : isTerminal (commit w b).callState = true) :
    Released w (commit w b) := by
  cases hu : w.isUnmountedRef
  · rw [commit_callState _ _ hu] at hchg hterm
    rcases hg with h | h | ⟨g1, g2, g3, g4⟩
    · exact absurd h hchg
    · rw [h] at hterm; cases hterm
    · refine ⟨by rw [commit_pcRef]; exact g1, ?_, ?_, ?_, ?_⟩
      · intro p hp
        have := g2 p hp
        simpa [isOpen, commit_pcs] using this
      · simp [commit, hu, g3]; split <;> simp [g3]
      · simp [commit, hu, g3]; split <;> simp [g3]
      · intro s hs
        have := g4 s ((hr hu).trans hs)
        simpa [allStopped, commit_streams] using this
  · exfalso
    apply hchg
    simp [commit, hu]

theorem leavesOrReleases_same (w b : World) (h : b.callState = w.callState) :
    LeavesOrReleases w b :=
  Or.inl h

theorem click_leavesOrReleases (e : Event) (w : World) (hne : e ≠ Event.clickStart) :
    LeavesOrReleases w (click e w) := by
  unfold click
  split
  · exact leavesOrReleases_same _ _ rfl
  · exact leavesOrReleases_same _ _ rfl
  · exact Or.inr (Or.inl (by simp [handleCloseEnded, onClose, isTerminal]))
  · exact absurd rfl hne
  · simp only [cancelCall, endCall]
    exact leavesOrReleases_resetCall _ _ (by simp [notifyPeer_eq]) (by simp [notifyPeer_eq])
  · simp only [rejectCall]
    exact leavesOrReleases_resetCall _ _ (by simp [notifyPeer_eq]) (by simp [notifyPeer_eq])
  · apply leavesOrReleases_same
    simp only [answerCall]
    split <;> simp [World.record, World.suspend]
  · exact leavesOrReleases_same _ _ rfl
  · exact leavesOrReleases_same _ _ rfl
  · simp only [endCall]
    exact leavesOrReleases_resetCall _ _ (by simp [notifyPeer_eq]) (by simp [notifyPeer_eq])
  · exact leavesOrReleases_same _ _ rfl

theorem receive_leavesOrReleases (e : Event) (w : World) : LeavesOrReleases w (receive e w) := by
  unfold receive
  split
  · exact Or.inr (Or.inl (by simp [handleIncomingCall, isTerminal]))
  · apply leavesOrReleases_same
    simp only [handleCallAccepted]
    split <;> simp [World.record, World.suspend]
  · apply leavesOrReleases_same
    simp only [handleIceCandidate]
    split
    · rfl
    · split
      · rfl
      · split <;> simp [World.record]
  · simp only [handleCallEnded]
    split
    · exact leavesOrReleases_same _ _ rfl
    · exact leavesOrReleases_resetCall _ _ rfl rfl
  · simp only [handleCallRejected]
    split
    · exact leavesOrReleases_same _ _ rfl
    · exact leavesOrReleases_resetCall _ _ rfl rfl
  · simp only [handleCallFailed]
    split
    · exact leavesOrReleases_same _ _ rfl
    · exact leavesOrReleases_resetCall _ _ rfl rfl
  · exact leavesOrReleases_same _ _ rfl

theorem leavesOrReleases_rejectCall (w u : World) (socket : Option Socket)
    (ic : Option IncomingCall) (h1 : u.pcRef = w.pcRef)
    (h3 : u.localStreamRef = w.localStreamRef) :
    LeavesOrReleases w (rejectCall socket ic u) := by
  simp only [rejectCall]
  exact leavesOrReleases_resetCall _ _ (by simp [notifyPeer_eq, h1]) (by simp [notifyPeer_eq, h3])

theorem leavesOrReleases_drain_accepted (w u : World) (pc : Nat) (q : List Candidate)
    (h : u.callState = w.callState) :
    LeavesOrReleases w (handleCallAccepted_drain pc q u) := by
  cases q with
  | nil => exact Or.inr (Or.inl (by simp [handleCallAccepted_drain, isTerminal]))
  | cons c r =>
    exact leavesOrReleases_same _ _
      (by simp [handleCallAccepted_drain, World.record, World.suspend, h])

theorem leavesOrReleases_drain_answer (w u : World) (c : AnswerCtx) (pc : Nat)
    (q : List Candidate) (h : u.callState = w.callState) :
    LeavesOrReleases w (answerCall_drain c pc q u) := by
  apply leavesOrReleases_same
  cases q <;> simp [answerCall_drain, World.record, World.suspend, h]

theorem settle_leavesOrReleases (k : Nat) (o : Outcome) (w : World) :
    LeavesOrReleases w (settle k o w) := by
  unfold settle
  split
  · exact leavesOrReleases_same _ _ rfl
  · split
    · exact leavesOrReleases_same _ _ (by simp [startCall_afterGetUserMedia, installMedia,
        World.record, World.suspend])
    · exact leavesOrReleases_resetCall _ _ rfl rfl
    · exact leavesOrReleases_same _ _ rfl
    · exact leavesOrReleases_resetCall _ _ rfl rfl
    · simp only [startCall_afterSetLocalDescription, emit]
      split
      · simp only [startCall_catch]
        exact leavesOrReleases_resetCall _ _ (by simp [World.record, World.updatePc])
          (by simp [World.record, World.updatePc])
      · exact leavesOrReleases_same _ _ (by simp [World.record, World.updatePc])
    · exact leavesOrReleases_resetCall _ _ rfl rfl
    · exact leavesOrReleases_drain_accepted _ _ _ _ (by simp [World.updatePc])
    · simp only [handleCallAccepted_catch]
      split
      · exact leavesOrReleases_resetCall _ _ rfl rfl
      · exact leavesOrReleases_same _ _ rfl
    · exact leavesOrReleases_drain_accepted _ _ _ _ rfl
    · exact leavesOrReleases_drain_accepted _ _ _ _ rfl
    · exact leavesOrReleases_same _ _ (by simp [answerCall_afterGetUserMedia, installMedia,
        World.record, World.suspend])
    · exact leavesOrReleases_rejectCall _ _ _ _ rfl rfl
    · exact leavesOrReleases_drain_answer _ _ _ _ _ (by simp [World.updatePc])
    · exact leavesOrReleases_rejectCall _ _ _ _ rfl rfl
    · exact leavesOrReleases_drain_answer _ _ _ _ _ rfl
    · exact leavesOrReleases_drain_answer _ _ _ _ _ rfl
    · exact leavesOrReleases_same _ _ rfl
    · exact leavesOrReleases_rejectCall _ _ _ _ rfl rfl
    · simp only [answerCall_afterSetLocalDescription, emit]
      split
      · exact leavesOrReleases_rejectCall _ _ _ _ (by simp [World.record, World.updatePc])
          (by simp [World.record, World.updatePc])
      · exact Or.inr (Or.inl (by simp [isTerminal]))
    · exact leavesOrReleases_rejectCall _ _ _ _ rfl rfl
    · exact leavesOrReleases_same _ _ rfl

/-- Every step other than the click on Start either leaves `callState` alone or
is a handler followed by a render, where the handler left `callState` alone,
set a state that is not terminal, or released everything. -/
theorem step_leavesOrReleases (w : World) (e : Event) (hne : e ≠ Event.clickStart) :
    (step w e).callState = w.callState ∨
    ∃ b, step w e = commit w b ∧ LeavesOrReleases w b := by
  cases e with
  | settle k o => exact Or.inr ⟨_, rfl, settle_leavesOrReleases k o w⟩
  | unmount =>
    left
    simp only [step, unmountCleanup_eq]
    split
    · rfl
    · split <;> rfl
  | track pc ev =>
    simp only [step]
    split
    · exact Or.inr ⟨_, rfl, leavesOrReleases_same _ _ rfl⟩
    · exact Or.inl rfl
  | localCandidate pc c =>
    simp only [step]
    split
    · refine Or.inr ⟨_, rfl, leavesOrReleases_same _ _ ?_⟩
      simp only [onicecandidate]
      split <;> simp [emit, World.record]
    · exact Or.inl rfl
  | connectionState pc st =>
    simp only [step]
    split
    · refine Or.inr ⟨_, rfl, ?_⟩
      simp only [onconnectionstatechange]
      split
      · split
        · exact leavesOrReleases_resetCall _ _ rfl rfl
        · exact leavesOrReleases_same _ _ rfl
      · exact leavesOrReleases_same _ _ rfl
    · exact Or.inl rfl
  | setOutgoingCallTarget t =>
    simp only [step]
    split
    · exact Or.inl rfl
    · exact Or.inr ⟨_, rfl, leavesOrReleases_same _ _ rfl⟩
  | incomingCall p =>
    simp only [step]
    split
    · exact Or.inl rfl
    · exact Or.inr ⟨_, rfl, receive_leavesOrReleases _ w⟩
  | callAccepted p =>
    simp only [step]
    split
    · exact Or.inl rfl
    · exact Or.inr ⟨_, rfl, receive_leavesOrReleases _ w⟩
  | iceCandidate p =>
    simp only [step]
    split
    · exact Or.inl rfl
    · exact Or.inr ⟨_, rfl, receive_leavesOrReleases _ w⟩
  | callEnded =>
    simp only [step]
    split
    · exact Or.inl rfl
    · exact Or.inr ⟨_, rfl, receive_leavesOrReleases _ w⟩
  | callRejected =>
    simp only [step]
    split
    · exact Or.inl rfl
    · exact Or.inr ⟨_, rfl, receive_leavesOrReleases _ w⟩
  | callFailed p =>
    simp only [step]
    split
    · exact Or.inl rfl
    · exact Or.inr ⟨_, rfl, receive_leavesOrReleases _ w⟩
  | clickStart => exact absurd rfl hne
  | _ =>
    simp only [step]
    split
    · exact Or.inl rfl
    · exact Or.inr ⟨_, rfl, click_leavesOrReleases _ w (by simp)⟩

theorem rejectCall_isUnmountedRef (s : Option Socket) (ic : Option IncomingCall) (w : World) :
    (rejectCall s ic w).isUnmountedRef = w.isUnmountedRef := by
  simp [rejectCall, resetCall_eq, notifyPeer_eq]

theorem settle_isUnmountedRef (k : Nat) (o : Outcome) (w : World) :
    (settle k o w).isUnmountedRef = w.isUnmountedRef := by
  unfold settle
  split
  · rfl
  · split <;> simp [startCall_afterGetUserMedia, startCall_catch,
      startCall_afterCreateOffer, startCall_afterSetLocalDescription,
      handleCallAccepted_afterSetRemoteDescription, handleCallAccepted_drain,
      handleCallAccepted_catch, answerCall_afterGetUserMedia, answerCall_catch,
      answerCall_afterSetRemoteDescription, answerCall_drain,
      answerCall_afterCreateAnswer, answerCall_afterSetLocalDescription,
      installMedia, rejectCall_isUnmountedRef, emit, resetCall_eq, World.record,
      World.suspend, World.updatePc]
    all_goals (split <;> simp [startCall_catch, resetCall_eq, rejectCall_isUnmountedRef,
      answerCall_catch, World.record, World.suspend])

theorem rendered_commit (w b : World) (hb : b.isUnmountedRef = w.isUnmountedRef) :
    Rendered (commit w b) := by
  intro h
  rw [commit_isUnmountedRef, hb] at h
  simp [commit, h]
  split <;> rfl

theorem step_rendered (w : World) (e : Event) (h : Rendered w) : Rendered (step w e) := by
  cases e with
  | settle k o => exact rendered_commit w _ (settle_isUnmountedRef k o w)
  | unmount =>
    simp only [step]
    split
    · exact h
    · intro hu
      rw [unmountCleanup_eq] at hu
      split at hu <;> cases hu
  | track pc ev =>
    simp only [step]
    split
    · exact rendered_commit w _ rfl
    · exact h
  | localCandidate pc c =>
    simp only [step]
    split
    · apply rendered_commit
      simp only [onicecandidate]
      split <;> simp [emit, World.record]
    · exact h
  | connectionState pc st =>
    simp only [step]
    split
    · apply rendered_commit
      simp only [onconnectionstatechange]
      split
      · split
        · simp [resetCall_eq]
        · rfl
      · rfl
    · exact h
  | setOutgoingCallTarget t =>
    simp only [step]
    split
    · exact h
    · rename_i hu
      intro _
      simp [commit, hu]
  | incomingCall p =>
    simp only [step]
    split
    · exact h
    · rename_i hu
      intro _
      have hu2 : w.isUnmountedRef = false := by
        cases hw : w.isUnmountedRef
        · rfl
        · exact absurd (Or.inl hw) hu
      simp [commit, hu2]; split <;> rfl
  | callAccepted p =>
    simp only [step]
    split
    · exact h
    · rename_i hu
      intro _
      have hu2 : w.isUnmountedRef = false := by
        cases hw : w.isUnmountedRef
        · rfl
        · exact absurd (Or.inl hw) hu
      simp [commit, hu2]; split <;> rfl
  | iceCandidate p =>
    simp only [step]
    split
    · exact h
    · rename_i hu
      intro _
      have hu2 : w.isUnmountedRef = false := by
        cases hw : w.isUnmountedRef
        · rfl
        · exact absurd (Or.inl hw) hu
      simp [commit, hu2]; split <;> rfl
  | callEnded =>
    simp only [step]
    split
    · exact h
    · rename_i hu
      intro _
      have hu2 : w.isUnmountedRef = false := by
        cases hw : w.isUnmountedRef
        · rfl
        · exact absurd (Or.inl hw) hu
      simp [commit, hu2]; split <;> rfl
  | callRejected =>
    simp only [step]
    split
    · exact h
    · rename_i hu
      intro _
      have hu2 : w.isUnmountedRef = false := by
        cases hw : w.isUnmountedRef
        · rfl
        · exact absurd (Or.inl hw) hu
      simp [commit, hu2]; split <;> rfl
  | callFailed p =>
    simp only [step]
    split
    · exact h
    · rename_i hu
      intro _
      have hu2 : w.isUnmountedRef = false := by
        cases hw : w.isUnmountedRef
        · rfl
        · exact absurd (Or.inl hw) hu
      simp [commit, hu2]; split <;> rfl
  | _ =>
    simp only [step]
    split
    · exact h
    · rename_i hu
      intro _
      have hu2 : w.isUnmountedRef = false := by simpa using hu
      simp [commit, hu2]; split <;> rfl

theorem run_rendered (es : List Event) (w : World) (h : Rendered w) :
    Rendered (run w es) := by
  induction es generalizing w with
  | nil => exact h
  | cons e es ih =>
    rw [run_cons]
    exact ih _ (step_rendered w e h)

/-- Every reachable world is rendered. -/
theorem reachable_rendered (w : World) (h : Reachable w) : Rendered w := by
  obtain ⟨s, u, r, n, v, t, es, rfl⟩ := h
  exact run_rendered es _ (fun _ => rfl)

/-- C8, counterexample. In the reachable `staleIdleWorld` the click on Start runs
the guard of `startCall` (lines 288-294, no logged-in user): `callState` goes
from Idle to Failed, and the transport session and the stream held stay as
they were: open and not stopped. -/
theorem c8_missing_user_guard_releases_nothing :
    Reachable staleIdleWorld ∧
    view staleIdleWorld = View.outgoingPrompt ∧
    staleIdleWorld.callState = CallState.idle ∧
    staleIdleWorld.pcRef = some 0 ∧
    staleIdleWorld.localStream = some 0 ∧
    (step staleIdleWorld Event.clickStart).callState = CallState.failed ∧
    (step staleIdleWorld Event.clickStart).pcRef = some 0 ∧
    isOpen (step staleIdleWorld Event.clickStart) 0 = true ∧
    (step staleIdleWorld Event.clickStart).localStream = some 0 ∧
    allStopped (step staleIdleWorld Event.clickStart) 0 = false ∧
    ¬ Released staleIdleWorld (step staleIdleWorld Event.clickStart) :=
  ⟨⟨some exampleSocket, none, JsOpt.undefined, JsOpt.undefined,
      JsOpt.undefined, none,
      [Event.incomingCall invite, Event.clickAccept, Event.callEnded,
       Event.settle 0 cam, Event.clickCloseEnded,
       Event.setOutgoingCallTarget (some bobTarget)], rfl⟩,
    by decide, by decide, by decide, by decide, by decide, by decide, by decide,
    by decide, by decide, fun h => absurd h.1 (by decide)⟩

/-- C8, amended. Take any reachable world and any event other than the click on
Start. If the step changes `callState` into Ended, Rejected or Failed, then
afterwards `pcRef` is null, the session it held is closed, the local stream is
null and every track of the stream that was held is stopped. This covers
`endCall`, `rejectCall`, the remote `call-ended`, `call-rejected` and
`call-failed`, a lost connection, and the `catch` of `startCall`, `answerCall`
and `handleCallAccepted`. -/
theorem c8_terminal_transitions_release (w : World) (e : Event)
    (hw : Reachable w)
    (hne : e ≠ Event.clickStart)
    (hchg : (step w e).callState ≠ w.callState)
    (hterm : isTerminal (step w e).callState = true) :
    Released w (step w e) := by
  rcases step_leavesOrReleases w e hne with h | ⟨b, hb, hg⟩
  · exact absurd h hchg
  · rw [hb] at hchg hterm ⊢
    exact released_commit w b (reachable_rendered w hw) hg hchg hterm

/-- Witness of C8: alice hangs up her call with bob. -/
theorem c8_terminal_transitions_release_witness :
    Released connectedWorld (step connectedWorld Event.clickEnd) :=
  c8_terminal_transitions_release connectedWorld Event.clickEnd
    ⟨some exampleSocket, some "alice", JsOpt.value "bob", JsOpt.undefined,
      JsOpt.undefined, none,
      [Event.clickStart, Event.settle 0 cam,
       Event.settle 1 (Outcome.description exampleOffer),
       Event.settle 2 Outcome.resolved, Event.callAccepted (some exampleAnswer),
       Event.settle 3 Outcome.resolved], rfl⟩
    (by decide) (by decide) (by decide)

/-! ## One transport session at a time (C9) -/

theorem openPcs_append (w v : World) (c : PeerConnection)
    (h : v.pcs = w.pcs ++ [c]) (hc : c.closed = false) :
    openPcs v = openPcs w ++ [w.pcs.length] := by
  unfold openPcs
  rw [h, List.length_append, List.length_singleton, List.range_succ, List.filter_append]
  congr 1
  · apply List.filter_congr
    intro p hp
    have hlt : p < w.pcs.length := List.mem_range.mp hp
    simp [isOpen, h, List.getElem?_append_left hlt]
  · simp [isOpen, h, hc]

theorem installMedia_pcs (ts : List (Nat × Bool)) (peer : Option String) (w : World) :
    (installMedia ts peer w).1.pcs = w.pcs ++
      [{ closed := false, remoteDescription := none, localDescription := none, peer := peer }] := by
  simp [installMedia]

/-- C9, counterexample. Alice is in a call with bob (session 0 open) when
carol's call arrives and alice accepts it. When `getUserMedia` resolves,
`answerCall` creates session 1 and stores it in `pcRef`; session 0 is
still open and the stream of the first call is not stopped. -/
theorem c9_second_session_while_first_is_open :
    Reachable (step busyWorld (Event.settle 4 cam)) ∧
    busyWorld.pcRef = some 0 ∧
    openPcs busyWorld = [0] ∧
    (step busyWorld (Event.settle 4 cam)).pcRef = some 1 ∧
    openPcs (step busyWorld (Event.settle 4 cam)) = [0, 1] ∧
    allStopped (step busyWorld (Event.settle 4 cam)) 0 = false :=
  ⟨⟨some exampleSocket, some "alice", JsOpt.value "bob", JsOpt.undefined,
      JsOpt.undefined, none,
      [Event.clickStart, Event.settle 0 cam,
       Event.settle 1 (Outcome.description exampleOffer),
       Event.settle 2 Outcome.resolved, Event.callAccepted (some exampleAnswer),
       Event.settle 3 Outcome.resolved, Event.incomingCall carolInvite,
       Event.clickAccept, Event.settle 4 cam], rfl⟩,
    by decide, by decide, by decide, by decide, by decide⟩

/-- C9, amended. When `getUserMedia` resolves in `startCall` or in `answerCall`,
the new transport session is stored in `pcRef` and nothing is closed or
released: the open sessions are those that were open plus the new one, and
the streams are those that existed, untouched, plus the new one. So exactly
one session is open afterwards when none was open before. -/
theorem c9_new_session_closes_nothing (w : World) (k : Nat)
    (ts : List (Nat × Bool)) (ht : AwaitsGetUserMedia w k) :
    (step w (Event.settle k (Outcome.stream ts))).pcRef = some w.pcs.length ∧
    openPcs (step w (Event.settle k (Outcome.stream ts))) =
      openPcs w ++ [w.pcs.length] ∧
    (step w (Event.settle k (Outcome.stream ts))).localStreamRef =
      some w.streams.length ∧
    (step w (Event.settle k (Outcome.stream ts))).streams =
      w.streams ++ [freshStream ts] := by
  rcases ht with ⟨c, ht⟩ | ⟨c, ht⟩
  · simp only [step, settle, ht]
    refine ⟨?_, ?_, ?_, ?_⟩
    · simp [commit_pcRef, startCall_afterGetUserMedia, installMedia, World.record, World.suspend]
    · apply openPcs_append w _
        { closed := false, remoteDescription := none, localDescription := none
          peer := some c.receiverId }
      · simp [commit_pcs, startCall_afterGetUserMedia, installMedia, World.record, World.suspend]
      · rfl
    · simp only [commit]
      split
      · simp [startCall_afterGetUserMedia, installMedia, World.record, World.suspend]
      · split <;> simp [startCall_afterGetUserMedia, installMedia, World.record, World.suspend]
    · simp [commit_streams, startCall_afterGetUserMedia, installMedia, World.record,
        World.suspend, freshStream]
  · simp only [step, settle, ht]
    refine ⟨?_, ?_, ?_, ?_⟩
    · simp [commit_pcRef, answerCall_afterGetUserMedia, installMedia, World.record, World.suspend]
    · apply openPcs_append w _
        { closed := false, remoteDescription := none, localDescription := none
          peer := c.incomingCall.sender }
      · simp [commit_pcs, answerCall_afterGetUserMedia, installMedia, World.record, World.suspend]
      · rfl
    · simp only [commit]
      split
      · simp [answerCall_afterGetUserMedia, installMedia, World.record, World.suspend]
      · split <;> simp [answerCall_afterGetUserMedia, installMedia, World.record, World.suspend]
    · simp [commit_streams, answerCall_afterGetUserMedia, installMedia, World.record,
        World.suspend, freshStream]

/-- Witness of C9: alice accepts carol's call while in a call with bob. -/
theorem c9_new_session_closes_nothing_witness :
    openPcs (step busyWorld (Event.settle 4 cam)) = openPcs busyWorld ++ [1] :=
  (c9_new_session_closes_nothing busyWorld 4 [(1, false), (2, true)]
    (Or.inr ⟨carolCtx, by decide⟩)).2.1

/-! ## Cancelling while media acquisition is pending (C10) -/

theorem updateAt_length {α : Type} (l : List α) (i : Nat) (f : α → α) :
    (updateAt l i f).length = l.length := by
  unfold updateAt; split <;> simp

theorem closeAt_length (pcs : List PeerConnection) (r : Option Nat) :
    (closeAt pcs r).length = pcs.length := by
  unfold closeAt; split
  · exact updateAt_length _ _ _
  · rfl

theorem stopAt_length (l : List MediaStream) (r : Option Nat) :
    (stopAt l r).length = l.length := by
  unfold stopAt; split
  · exact updateAt_length _ _ _
  · rfl

theorem getElem?_set_append_next {α : Type} (l : List α) (k : Nat) (a b d e : α) :
    ((l.set k a ++ [b]).set l.length d ++ [e])[l.length + 1]? = some e := by
  rw [List.getElem?_append_right (by simp)]
  simp

theorem commit_of_mounted (a b : World) (hm : a.isUnmountedRef = false)
    (hc : b.callState = a.callState) :
    commit a b = { b with localStreamRef := b.localStream } := by
  simp [commit, hm, hc]

/-- C10, counterexample. Alice starts a call and cancels while `getUserMedia`
is pending; then `getUserMedia`, `createOffer` and `setLocalDescription`
resolve. `callState` is still Ended, but a transport session was created and
is open, the acquired stream is the local stream and is not stopped, and the
`call-user` offer was emitted after the `end-call`. -/
theorem c10_cancelled_acquisition_still_completes :
    (run callerMount
      [Event.clickStart, Event.clickCancel, Event.settle 0 cam,
       Event.settle 1 (Outcome.description exampleOffer),
       Event.settle 2 Outcome.resolved]).callState = CallState.ended ∧
    (run callerMount
      [Event.clickStart, Event.clickCancel, Event.settle 0 cam,
       Event.settle 1 (Outcome.description exampleOffer),
       Event.settle 2 Outcome.resolved]).pcRef = some 0 ∧
    openPcs (run callerMount
      [Event.clickStart, Event.clickCancel, Event.settle 0 cam,
       Event.settle 1 (Outcome.description exampleOffer),
       Event.settle 2 Outcome.resolved]) = [0] ∧
    (run callerMount
      [Event.clickStart, Event.clickCancel, Event.settle 0 cam,
       Event.settle 1 (Outcome.description exampleOffer),
       Event.settle 2 Outcome.resolved]).localStream = some 0 ∧
    allStopped (run callerMount
      [Event.clickStart, Event.clickCancel, Event.settle 0 cam,
       Event.settle 1 (Outcome.description exampleOffer),
       Event.settle 2 Outcome.resolved]) 0 = false ∧
    emitted (run callerMount
      [Event.clickStart, Event.clickCancel, Event.settle 0 cam,
       Event.settle 1 (Outcome.description exampleOffer),
       Event.settle 2 Outcome.resolved]) =
      [Msg.endCall "bob", Msg.callUser "bob" exampleOffer "alice" true] := by
  decide

/-- C10, amended. Let the component show "Calling" with `startCall` suspended at
`getUserMedia` (task `k`), and let the user cancel. The cancel sets Ended and
leaves no session and no stream. When `getUserMedia`, `createOffer` and
`setLocalDescription` then resolve (and the emit does not throw), `callState`
stays Ended, but the completion is applied, not discarded: a new transport
session is created, stored in `pcRef` and open, the acquired stream becomes the
local stream, and the effects after the cancel are the creation of the
session, its tracks, `createOffer`, `setLocalDescription` and the emitted
`call-user` offer. -/
theorem c10_stale_completion_is_applied (w : World) (c : StartCtx) (k : Nat)
    (ts : List (Nat × Bool)) (offer : Sdp)
    (hm : w.isUnmountedRef = false)
    (hv : view w = View.calling)
    (ht : w.tasks[k]? = some (Task.startCall_getUserMedia c))
    (hs : c.socket.emitError = none) :
    (step w Event.clickCancel).callState = CallState.ended ∧
    (step w Event.clickCancel).pcRef = none ∧
    (step w Event.clickCancel).localStream = none ∧
    (run w [Event.clickCancel, Event.settle k (Outcome.stream ts),
      Event.settle w.tasks.length (Outcome.description offer),
      Event.settle (w.tasks.length + 1) Outcome.resolved]).callState =
      CallState.ended ∧
    (run w [Event.clickCancel, Event.settle k (Outcome.stream ts),
      Event.settle w.tasks.length (Outcome.description offer),
      Event.settle (w.tasks.length + 1) Outcome.resolved]).pcRef =
      some w.pcs.length ∧
    isOpen (run w [Event.clickCancel, Event.settle k (Outcome.stream ts),
      Event.settle w.tasks.length (Outcome.description offer),
      Event.settle (w.tasks.length + 1) Outcome.resolved]) w.pcs.length = true ∧
    (run w [Event.clickCancel, Event.settle k (Outcome.stream ts),
      Event.settle w.tasks.length (Outcome.description offer),
      Event.settle (w.tasks.length + 1) Outcome.resolved]).localStream =
      some w.streams.length ∧
    (run w [Event.clickCancel, Event.settle k (Outcome.stream ts),
      Event.settle w.tasks.length (Outcome.description offer),
      Event.settle (w.tasks.length + 1) Outcome.resolved]).log =
      (step w Event.clickCancel).log ++
        [Effect.newPeerConnection w.pcs.length] ++
        ts.map (fun t => Effect.addTrack w.pcs.length w.streams.length t.1) ++
        [Effect.createOffer w.pcs.length,
         Effect.setLocalDescription w.pcs.length offer,
         Effect.emit (Msg.callUser c.receiverId
           { type := offer.type, sdp := offer.sdp } c.currentUserId
           w.isVideoCallRef)] := by
  have hA : step w Event.clickCancel = commit w (endCall w) := by
    simp [step, hm, click, hv, cancelCall]
  generalize hAdef : step w Event.clickCancel = A at *
  have hAc : A.callState = CallState.ended := by
    rw [hA, commit_callState _ _ hm]; simp [endCall, resetCall_eq]
  have hAm : A.isUnmountedRef = false := by
    rw [hA, commit_isUnmountedRef]; simp [endCall, resetCall_eq, notifyPeer_eq, hm]
  have hAt : A.tasks = w.tasks := by
    rw [hA, commit_tasks]; simp [endCall, resetCall_eq, notifyPeer_eq]
  have hAp : A.pcRef = none := by
    rw [hA, commit_pcRef]; simp [endCall, resetCall_eq]
  have hAl : A.localStream = none := by
    rw [hA]; simp [commit, hm, endCall, resetCall_eq]; split <;> rfl
  have hApcs : A.pcs.length = w.pcs.length := by
    rw [hA, commit_pcs]; simp [endCall, resetCall_eq, notifyPeer_eq, closeAt_length]
  have hAs : A.streams.length = w.streams.length := by
    rw [hA, commit_streams]; simp [endCall, resetCall_eq, notifyPeer_eq, stopAt_length]
  have hAv : A.isVideoCallRef = w.isVideoCallRef := by
    rw [hA]; simp [commit, hm, endCall, resetCall_eq, notifyPeer_eq]; split <;> rfl
  refine ⟨hAc, hAp, hAl, ?_⟩
  have hrun : run w [Event.clickCancel, Event.settle k (Outcome.stream ts),
      Event.settle w.tasks.length (Outcome.description offer),
      Event.settle (w.tasks.length + 1) Outcome.resolved] =
      step (step (step A (Event.settle k (Outcome.stream ts)))
        (Event.settle w.tasks.length (Outcome.description offer)))
        (Event.settle (w.tasks.length + 1) Outcome.resolved) := by
    simp [run, hAdef]
  rw [hrun]
  clear hrun hA hAdef hv
  rw [← hAt] at ht ⊢
  rw [← hApcs, ← hAs, ← hAv]
  -- `getUserMedia` resolves
  have hB : step A (Event.settle k (Outcome.stream ts)) =
      commit A (startCall_afterGetUserMedia c ts
        { A with tasks := A.tasks.set k Task.done }) := by
    simp [step, settle, ht]
  rw [commit_of_mounted _ _ hAm (by simp [startCall_afterGetUserMedia, installMedia,
    World.record, World.suspend])] at hB
  generalize step A (Event.settle k (Outcome.stream ts)) = B at *
  have hBt : B.tasks[A.tasks.length]? = some (Task.startCall_createOffer c A.pcs.length) := by
    rw [hB]
    simp only [startCall_afterGetUserMedia, installMedia, World.record, World.suspend]
    exact getElem?_set_append_last _ _ _ _
  have hBm : B.isUnmountedRef = false := by
    rw [hB]
    simpa [startCall_afterGetUserMedia, installMedia, World.record, World.suspend]
      using hAm
  have hBl : B.tasks.length = A.tasks.length + 1 := by
    rw [hB]; simp [startCall_afterGetUserMedia, installMedia, World.record, World.suspend]
  -- `createOffer` resolves
  have hC : step B (Event.settle A.tasks.length (Outcome.description offer)) =
      commit B (startCall_afterCreateOffer c A.pcs.length offer
        { B with tasks := B.tasks.set A.tasks.length Task.done }) := by
    simp [step, settle, hBt]
  rw [commit_of_mounted _ _ hBm (by simp [startCall_afterCreateOffer, World.record,
    World.suspend])] at hC
  generalize step B (Event.settle A.tasks.length (Outcome.description offer)) = C at *
  have hCt : C.tasks[A.tasks.length + 1]? =
      some (Task.startCall_setLocalDescription c A.pcs.length offer) := by
    rw [hC]
    simp only [startCall_afterCreateOffer, World.record, World.suspend]
    rw [← hBl]
    exact getElem?_set_append_last _ _ _ _
  have hCm : C.isUnmountedRef = false := by
    rw [hC]; simpa [startCall_afterCreateOffer, World.record, World.suspend] using hBm
  -- `setLocalDescription` resolves
  have hD : step C (Event.settle (A.tasks.length + 1) Outcome.resolved) =
      commit C (startCall_afterSetLocalDescription c A.pcs.length offer
        { C with tasks := C.tasks.set (A.tasks.length + 1) Task.done }) := by
    simp [step, settle, hCt]
  rw [commit_of_mounted _ _ hCm (by simp [startCall_afterSetLocalDescription, emit, hs,
    World.record, World.updatePc])] at hD
  rw [hD]
  simp only [startCall_afterSetLocalDescription, emit, hs, World.record, World.updatePc,
    hC, startCall_afterCreateOffer, World.suspend, hB, startCall_afterGetUserMedia,
    installMedia, emitEffect]
  refine ⟨hAc, trivial, ?_, trivial, ?_⟩
  · simp [isOpen, updateAt]
  · simp

/-- Witness of C10: alice cancels her call to bob while the permission prompt
is open, then grants it. -/
theorem c10_stale_completion_is_applied_witness :
    (run (step callerMount Event.clickStart)
      [Event.clickCancel, Event.settle 0 cam,
       Event.settle 1 (Outcome.description exampleOffer),
       Event.settle 2 Outcome.resolved]).pcRef = some 0 :=
  (c10_stale_completion_is_applied (step callerMount Event.clickStart)
    { socket := exampleSocket, receiverId := "bob", currentUserId := "alice" } 0
    [(1, false), (2, true)] exampleOffer (by decide) (by decide) (by decide)
    (by decide)).2.2.2.2.1

/-! ## Summaries of the handlers and the invariant of reachable worlds -/

theorem quiet_refl (w : World) : Quiet w w := ⟨rfl, rfl, rfl, rfl, rfl, rfl⟩

theorem terminated_resetCall (w u : World) (ht : isTerminal u.callState = true)
    (hi : u.inCallRef = false ∨ u.inCallRef = w.inCallRef)
    (hu : u.isUnmountedRef = w.isUnmountedRef) :
    Terminated w (resetCall u) := by
  simp [Terminated, resetCall_eq, ht, hi, hu]

theorem terminated_rejectCall (w u : World) (s : Option Socket)
    (ic : Option IncomingCall) (hu : u.isUnmountedRef = w.isUnmountedRef) :
    Terminated w (rejectCall s ic u) := by
  simp only [rejectCall]
  exact terminated_resetCall _ _ rfl (Or.inl rfl) (by simp [notifyPeer_eq, hu])

theorem view_ringing (w : World) (h : view w = View.ringing) :
    w.callState = CallState.ringing ∧ w.incomingCall.isSome = true ∧
    w.socket ≠ none := by
  unfold view at h
  repeat' split at h
  all_goals simp_all

theorem view_outgoingPrompt (w : World) (h : view w = View.outgoingPrompt) :
    w.callState = CallState.idle := by
  unfold view at h
  repeat' split at h
  all_goals simp_all

theorem view_endedModal (w : World) (h : view w = View.endedModal) :
    isTerminal w.callState = true ∧ w.showEndedModal = true ∧
    w.hasBeenInCallRef = true := by
  unfold view at h
  repeat' split at h
  all_goals simp_all
  rename_i h1
  rcases h1.2.2 with h2 | h2 | h2 <;> simp [h2, isTerminal]

theorem click_summary (e : Event) (w : World) :
    Quiet w (click e w) ∨ Terminated w (click e w) ∨ Activated w (click e w) ∨
    Guarded w (click e w) ∨ Acknowledged w (click e w) := by
  unfold click
  split
  · exact Or.inl (quiet_refl w)
  · exact Or.inl (quiet_refl w)
  · rename_i hv
    exact Or.inr (Or.inr (Or.inr (Or.inr
      ⟨(view_endedModal w hv).1, rfl, rfl, rfl, rfl, rfl, rfl⟩)))
  · rename_i hv
    have hidle := view_outgoingPrompt w hv
    simp only [startCall]
    split
    · exact Or.inr (Or.inr (Or.inl
        ⟨by simp [World.record, World.suspend, isActive, ACTIVE_CALL_STATES],
          by simp [World.record, World.suspend],
          Or.inr (by simp [World.record, World.suspend]),
          by simp [World.record, World.suspend]⟩))
    · exact Or.inr (Or.inr (Or.inr (Or.inl ⟨hidle, rfl, rfl, rfl, rfl, rfl, rfl⟩)))
  · simp only [cancelCall, endCall]
    exact Or.inr (Or.inl (terminated_resetCall _ _ rfl (Or.inl rfl)
      (by simp [notifyPeer_eq])))
  · exact Or.inr (Or.inl (terminated_rejectCall _ _ _ _ rfl))
  · rename_i hv
    obtain ⟨hc, hi, hs⟩ := view_ringing w hv
    simp only [answerCall]
    split
    · exact Or.inr (Or.inr (Or.inl
        ⟨by simp [World.record, World.suspend, hc, isActive, ACTIVE_CALL_STATES],
          by simp [World.record, World.suspend],
          Or.inr (by simp [World.record, World.suspend]),
          by simp [World.record, World.suspend]⟩))
    · exact Or.inl (quiet_refl w)
  · exact Or.inl ⟨rfl, rfl, rfl, rfl, rfl, rfl⟩
  · exact Or.inl ⟨rfl, rfl, rfl, rfl, rfl, rfl⟩
  · simp only [endCall]
    exact Or.inr (Or.inl (terminated_resetCall _ _ rfl (Or.inl rfl)
      (by simp [notifyPeer_eq])))
  · exact Or.inl (quiet_refl w)

theorem receive_summary (e : Event) (w : World) :
    Quiet w (receive e w) ∨ Terminated w (receive e w) ∨
    Activated w (receive e w) := by
  unfold receive
  split
  · exact Or.inr (Or.inr ⟨by simp [handleIncomingCall, isActive, ACTIVE_CALL_STATES],
      rfl, Or.inl rfl, rfl⟩)
  · left
    simp only [handleCallAccepted]
    split
    · exact ⟨rfl, rfl, rfl, rfl, rfl, rfl⟩
    · exact quiet_refl w
  · left
    simp only [handleIceCandidate]
    split
    · exact quiet_refl w
    · split
      · exact ⟨rfl, rfl, rfl, rfl, rfl, rfl⟩
      · split
        · exact ⟨rfl, rfl, rfl, rfl, rfl, rfl⟩
        · exact ⟨rfl, rfl, rfl, rfl, rfl, rfl⟩
  · simp only [handleCallEnded]
    split
    · exact Or.inl (quiet_refl w)
    · exact Or.inr (Or.inl (terminated_resetCall _ _ rfl (Or.inl rfl) rfl))
  · simp only [handleCallRejected]
    split
    · exact Or.inl (quiet_refl w)
    · exact Or.inr (Or.inl (terminated_resetCall _ _ rfl (Or.inl rfl) rfl))
  · simp only [handleCallFailed]
    split
    · exact Or.inl (quiet_refl w)
    · exact Or.inr (Or.inl (terminated_resetCall _ _ rfl (Or.inl rfl) rfl))
  · exact Or.inl (quiet_refl w)

theorem onconnectionstatechange_summary (st : ConnectionState) (w : World) :
    Quiet w (onconnectionstatechange st w) ∨
    Terminated w (onconnectionstatechange st w) := by
  simp only [onconnectionstatechange]
  split
  · split
    · exact Or.inr (terminated_resetCall _ _ rfl (Or.inr rfl) rfl)
    · exact Or.inl (quiet_refl w)
  · exact Or.inl (quiet_refl w)

theorem summary_drain_accepted (w u : World) (pc : Nat)
    (q : List Candidate) (h : Quiet w u) :
    Quiet w (handleCallAccepted_drain pc q u) ∨
    Terminated w (handleCallAccepted_drain pc q u) ∨
    Connects w (handleCallAccepted_drain pc q u) := by
  obtain ⟨h1, h2, h3, h4, h5, h6⟩ := h
  cases q with
  | nil => exact Or.inr (Or.inr ⟨rfl, h2, h3, h4, h5, h6⟩)
  | cons c r => exact Or.inl ⟨h1, h2, h3, h4, h5, h6⟩

theorem quiet_drain_answer (w u : World) (c : AnswerCtx) (pc : Nat)
    (q : List Candidate) (h : Quiet w u) :
    Quiet w (answerCall_drain c pc q u) := by
  obtain ⟨h1, h2, h3, h4, h5, h6⟩ := h
  cases q <;> exact ⟨h1, h2, h3, h4, h5, h6⟩

theorem settle_summary (k : Nat) (o : Outcome) (w : World) :
    Quiet w (settle k o w) ∨ Terminated w (settle k o w) ∨
    Connects w (settle k o w) := by
  unfold settle
  split
  · exact Or.inl (quiet_refl w)
  · split
    · left
      simp [Quiet, startCall_afterGetUserMedia, installMedia, World.record,
        World.suspend]
    · exact Or.inr (Or.inl (terminated_resetCall _ _ rfl (Or.inr rfl) rfl))
    · left
      simp [Quiet, startCall_afterCreateOffer, World.record, World.suspend]
    · exact Or.inr (Or.inl (terminated_resetCall _ _ rfl (Or.inr rfl) rfl))
    · simp only [startCall_afterSetLocalDescription, emit]
      split
      · exact Or.inr (Or.inl (terminated_resetCall _ _ rfl (Or.inr rfl) rfl))
      · left
        simp [Quiet, World.record, World.updatePc]
    · exact Or.inr (Or.inl (terminated_resetCall _ _ rfl (Or.inr rfl) rfl))
    · simp only [handleCallAccepted_afterSetRemoteDescription]
      apply summary_drain_accepted
      simp [Quiet, World.updatePc]
    · simp only [handleCallAccepted_catch]
      split
      · exact Or.inr (Or.inl (terminated_resetCall _ _ rfl (Or.inr rfl) rfl))
      · exact Or.inl ⟨rfl, rfl, rfl, rfl, rfl, rfl⟩
    · apply summary_drain_accepted
      simp [Quiet]
    · apply summary_drain_accepted
      simp [Quiet]
    · left
      simp [Quiet, answerCall_afterGetUserMedia, installMedia, World.record,
        World.suspend]
    · exact Or.inr (Or.inl (terminated_rejectCall _ _ _ _ rfl))
    · left
      simp only [answerCall_afterSetRemoteDescription]
      apply quiet_drain_answer
      simp [Quiet, World.updatePc]
    · exact Or.inr (Or.inl (terminated_rejectCall _ _ _ _ rfl))
    · left
      apply quiet_drain_answer
      simp [Quiet]
    · left
      apply quiet_drain_answer
      simp [Quiet]
    · left
      simp [Quiet, answerCall_afterCreateAnswer, World.record, World.suspend]
    · exact Or.inr (Or.inl (terminated_rejectCall _ _ _ _ rfl))
    · simp only [answerCall_afterSetLocalDescription, emit]
      split
      · exact Or.inr (Or.inl (terminated_rejectCall _ _ _ _
          (by simp [World.record, World.updatePc])))
      · right; right
        simp [Connects, World.record, World.updatePc]
    · exact Or.inr (Or.inl (terminated_rejectCall _ _ _ _ rfl))
    · exact Or.inl (quiet_refl w)

theorem isActive_of_isTerminal (s : CallState) (h : isTerminal s = true) :
    isActive s = false := by
  cases s <;> simp_all [isTerminal, isActive, ACTIVE_CALL_STATES]

theorem commit_otherPeerUserIdRef (a b : World) :
    (commit a b).otherPeerUserIdRef = b.otherPeerUserIdRef := by
  unfold commit; split
  · rfl
  · split <;> rfl

theorem commit_unmounted (a b : World) (h : a.isUnmountedRef = true) :
    (commit a b).callState = a.callState ∧
    (commit a b).remoteDisplayName = a.remoteDisplayName ∧
    (commit a b).errorMessage = a.errorMessage ∧
    (commit a b).inCallRef = b.inCallRef := by
  simp [commit, h]

theorem commit_mounted (a b : World) (h : a.isUnmountedRef = false) :
    (commit a b).callState = b.callState ∧
    (commit a b).remoteDisplayName = b.remoteDisplayName ∧
    (commit a b).errorMessage = b.errorMessage ∧
    (commit a b).inCallRef =
      if b.callState = a.callState then b.inCallRef else isActive b.callState := by
  simp only [commit, h]
  simp
  split <;> simp

theorem consistent_commit (w b : World) (hI : Consistent w)
    (hs : Quiet w b ∨ Terminated w b ∨ Connects w b ∨
      (w.isUnmountedRef = false ∧
        (Activated w b ∨ Guarded w b ∨ Acknowledged w b))) :
    Consistent (commit w b) := by
  obtain ⟨i1, i2, i3⟩ := hI
  cases hm : w.isUnmountedRef
  · obtain ⟨c1, c2, _, c4⟩ := commit_mounted w b hm
    have i2' := i2 hm
    refine ⟨?_, ?_, ?_⟩
    · rw [commit_otherPeerUserIdRef, c1]
      rcases hs with ⟨q1, q2, _⟩ | ⟨t1, t2, _⟩ | ⟨k1, _⟩ | ⟨_, ⟨a1, _⟩ | ⟨g1, g2, g3, _⟩ | ⟨a1, a2, a3, _⟩⟩
      · rw [q1, q2]; exact i1
      · intro h; exact absurd t2 h
      · intro _; simp [k1, isActive, ACTIVE_CALL_STATES]
      · intro _; exact a1
      · rw [g3]; intro h
        have := i1 h
        simp [g1, isActive, ACTIVE_CALL_STATES] at this
      · rw [a3]; intro h
        have := i1 h
        rw [isActive_of_isTerminal _ a1] at this
        cases this
    · intro _
      rw [c4, c1]
      split
      · rename_i heq
        rcases hs with ⟨_, _, q3, _⟩ | ⟨t1, _, t3, _⟩ | ⟨_, _, k3, _⟩ | ⟨_, ⟨_, a2, _⟩ | ⟨_, _, _, g4, _⟩ | ⟨_, _, _, a4, _⟩⟩
        · rw [q3, i2', heq]
        · rcases t3 with t3 | t3
          · rw [t3, isActive_of_isTerminal _ t1]
          · rw [t3, i2', heq]
        · rw [k3, i2', heq]
        · rw [a2, i2', heq]
        · rw [g4, i2', heq]
        · rw [a4, i2', heq]
      · rfl
    · rw [c1, c2]
      rcases hs with ⟨q1, _, _, _, q5, _⟩ | ⟨_, _, _, _, t5, _⟩ | ⟨k1, _⟩ | ⟨_, ⟨a1, _⟩ | ⟨g1, g2, _, _, _, g6, _⟩ | ⟨a1, a2, _, _, _, a6, _⟩⟩
      · rw [q1, q5]; exact i3
      · intro _; exact t5
      · intro h; simp [k1, isActive, ACTIVE_CALL_STATES] at h
      · intro h; rw [a1] at h; cases h
      · intro _; rw [g6]; exact i3 (by simp [g1, isActive, ACTIVE_CALL_STATES])
      · intro _; rw [a6]; exact i3 (isActive_of_isTerminal _ a1)
  · obtain ⟨c1, c2, _, _⟩ := commit_unmounted w b hm
    have hb : b.isUnmountedRef = true := by
      rcases hs with ⟨_, _, _, _, _, q6⟩ | ⟨_, _, _, _, _, t6⟩ | ⟨_, _, _, _, _, k6⟩ | ⟨h, _⟩
      · rw [q6, hm]
      · rw [t6, hm]
      · rw [k6, hm]
      · rw [hm] at h; cases h
    refine ⟨?_, ?_, ?_⟩
    · rw [commit_otherPeerUserIdRef, c1]
      rcases hs with ⟨_, q2, _⟩ | ⟨_, t2, _⟩ | ⟨_, k2, _⟩ | ⟨h, _⟩
      · rw [q2]; exact i1
      · intro h; exact absurd t2 h
      · rw [k2]; exact i1
      · rw [hm] at h; cases h
    · intro h
      rw [commit_isUnmountedRef, hb] at h
      cases h
    · rw [c1, c2]; exact i3

theorem mounted_of_not (w : World) (h : ¬ w.isUnmountedRef = true) :
    w.isUnmountedRef = false := by
  simpa using h

theorem consistent_receive (w : World) (e : Event) (hI : Consistent w)
    (h : ¬ (w.isUnmountedRef = true ∨ w.socket.isNone = true)) :
    Consistent (commit w (receive e w)) := by
  have hm : w.isUnmountedRef = false := mounted_of_not w (fun h1 => h (Or.inl h1))
  apply consistent_commit w _ hI
  rcases receive_summary e w with h1 | h1 | h1
  · exact Or.inl h1
  · exact Or.inr (Or.inl h1)
  · exact Or.inr (Or.inr (Or.inr ⟨hm, Or.inl h1⟩))

theorem consistent_click (w : World) (e : Event) (hI : Consistent w)
    (h : ¬ w.isUnmountedRef = true) :
    Consistent (commit w (click e w)) := by
  have hm : w.isUnmountedRef = false := mounted_of_not w h
  apply consistent_commit w _ hI
  rcases click_summary e w with h1 | h1 | h1 | h1 | h1
  · exact Or.inl h1
  · exact Or.inr (Or.inl h1)
  · exact Or.inr (Or.inr (Or.inr ⟨hm, Or.inl h1⟩))
  · exact Or.inr (Or.inr (Or.inr ⟨hm, Or.inr (Or.inl h1)⟩))
  · exact Or.inr (Or.inr (Or.inr ⟨hm, Or.inr (Or.inr h1)⟩))

theorem step_consistent (w : World) (e : Event) (hI : Consistent w) :
    Consistent (step w e) := by
  cases e with
  | settle k o =>
    apply consistent_commit w _ hI
    rcases settle_summary k o w with h | h | h
    · exact Or.inl h
    · exact Or.inr (Or.inl h)
    · exact Or.inr (Or.inr (Or.inl h))
  | unmount =>
    simp only [step]
    split
    · exact hI
    · obtain ⟨i1, _, i3⟩ := hI
      rw [unmountCleanup_eq]
      split
      · refine ⟨i1, ?_, i3⟩
        intro h; cases h
      · refine ⟨i1, ?_, i3⟩
        intro h; cases h
  | track pc ev =>
    simp only [step]
    split
    · exact consistent_commit w _ hI (Or.inl ⟨rfl, rfl, rfl, rfl, rfl, rfl⟩)
    · exact hI
  | localCandidate pc c =>
    simp only [step]
    split
    · apply consistent_commit w _ hI
      left
      simp only [onicecandidate]
      split
      · simp [Quiet, emit, World.record]
      · exact quiet_refl w
    · exact hI
  | connectionState pc st =>
    simp only [step]
    split
    · apply consistent_commit w _ hI
      rcases onconnectionstatechange_summary st w with h | h
      · exact Or.inl h
      · exact Or.inr (Or.inl h)
    · exact hI
  | setOutgoingCallTarget t =>
    simp only [step]
    split
    · exact hI
    · exact consistent_commit w _ hI (Or.inl ⟨rfl, rfl, rfl, rfl, rfl, rfl⟩)
  | incomingCall p =>
    simp only [step]
    split
    · exact hI
    · rename_i h; exact consistent_receive w _ hI h
  | callAccepted p =>
    simp only [step]
    split
    · exact hI
    · rename_i h; exact consistent_receive w _ hI h
  | iceCandidate p =>
    simp only [step]
    split
    · exact hI
    · rename_i h; exact consistent_receive w _ hI h
  | callEnded =>
    simp only [step]
    split
    · exact hI
    · rename_i h; exact consistent_receive w _ hI h
  | callRejected =>
    simp only [step]
    split
    · exact hI
    · rename_i h; exact consistent_receive w _ hI h
  | callFailed p =>
    simp only [step]
    split
    · exact hI
    · rename_i h; exact consistent_receive w _ hI h
  | _ =>
    simp only [step]
    split
    · exact hI
    · rename_i h; exact consistent_click w _ hI h

theorem run_consistent (es : List Event) (w : World) (h : Consistent w) :
    Consistent (run w es) := by
  induction es generalizing w with
  | nil => exact h
  | cons e es ih =>
    rw [run_cons]
    exact ih _ (step_consistent w e h)

/-- Every reachable world is consistent. -/
theorem reachable_consistent (w : World) (h : Reachable w) : Consistent w := by
  obtain ⟨s, u, r, n, v, t, es, rfl⟩ := h
  apply run_consistent
  refine ⟨fun h => absurd rfl h, fun _ => ?_, fun _ => rfl⟩
  simp [World.mount, isActive, ACTIVE_CALL_STATES]


/-! ## Hanging up twice (C12) -/

theorem endCall_endCall (w : World) : endCall (endCall w) = endCall w := by
  simp [endCall, resetCall_eq, notifyPeer_eq, notifyEffects, nonEmpty, resetEffects,
    closeEffects, stopEffects, closeAt, stopAt]

theorem commit_self (v : World)
    (h : v.isUnmountedRef = true ∨ v.localStreamRef = v.localStream) :
    commit v v = v := by
  unfold commit
  split
  · rfl
  · rcases h with h | h
    · simp_all
    · cases v; simp_all

theorem view_of_ended (v : World) (hc : v.callState = CallState.ended) :
    view v = View.endedModal ∨ view v = View.nothing ∨ view v = View.notConnected := by
  unfold view
  simp only [hc]
  split
  · split <;> simp
  · simp
    split <;> simp

theorem click_end_of_ended (v : World) (hc : v.callState = CallState.ended) :
    click Event.clickEnd v = v ∧ click Event.clickCancel v = v := by
  unfold click
  rcases view_of_ended v hc with h | h | h <;> simp [h]

theorem view_commit_self (w : World) (hm : w.isUnmountedRef = false) :
    view (commit w w) = view w := by
  simp [commit, hm, view, receiverId]

theorem commit_mounted_fields (w b : World) (hm : w.isUnmountedRef = false)
    (hb : b.isUnmountedRef = false) :
    (commit w b).isUnmountedRef = false ∧
    (commit w b).localStreamRef = (commit w b).localStream := by
  simp only [commit, hm]
  simp
  split <;> simp [hb]

theorem step_click_twice_of_ignored (w : World) (e : Event)
    (hm : w.isUnmountedRef = false)
    (hw : click e w = w) (hv : ∀ v, view v = view w → click e v = v) :
    commit (commit w (click e w)) (click e (commit w (click e w))) =
      commit w (click e w) := by
  rw [hw, hv _ (view_commit_self w hm)]
  exact commit_self _ (Or.inr (commit_mounted_fields w w hm hm).2)

theorem step_click_twice_of_endCall (w : World) (e : Event)
    (hm : w.isUnmountedRef = false)
    (he : e = Event.clickEnd ∨ e = Event.clickCancel)
    (hw : click e w = endCall w) :
    commit (commit w (click e w)) (click e (commit w (click e w))) =
      commit w (click e w) := by
  rw [hw]
  have hc : (commit w (endCall w)).callState = CallState.ended := by
    rw [commit_callState _ _ hm]; simp [endCall, resetCall_eq]
  have hclick : click e (commit w (endCall w)) = commit w (endCall w) := by
    rcases he with rfl | rfl
    · exact (click_end_of_ended _ hc).1
    · exact (click_end_of_ended _ hc).2
  rw [hclick]
  exact commit_self _ (Or.inr (commit_mounted_fields w _ hm
    (by simp [endCall, resetCall_eq, notifyPeer_eq, hm])).2)

theorem step_end_twice (w : World) :
    step (step w Event.clickEnd) Event.clickEnd = step w Event.clickEnd ∧
    step (step w Event.clickCancel) Event.clickCancel = step w Event.clickCancel := by
  cases hm : w.isUnmountedRef
  · have hm2 : ∀ b, b.isUnmountedRef = false → (commit w b).isUnmountedRef = false :=
      fun b hb => (commit_mounted_fields w b hm hb).1
    have hme : (endCall w).isUnmountedRef = false := by
      simp [endCall, resetCall_eq, notifyPeer_eq, hm]
    constructor
    · cases hv : view w with
      | connected b =>
        have hw : click Event.clickEnd w = endCall w := by simp [click, hv]
        have := step_click_twice_of_endCall w Event.clickEnd hm (Or.inl rfl) hw
        simp only [step, hm, hm2 _ (hw ▸ hme)]
        simpa using fun _ => this
      | _ =>
        have hw : click Event.clickEnd w = w := by simp [click, hv]
        have := step_click_twice_of_ignored w Event.clickEnd hm hw
          (fun v h => by simp [click, h, hv])
        simp only [step, hm, hm2 _ (hw ▸ hm)]
        simpa using fun _ => this
    · cases hv : view w with
      | calling =>
        have hw : click Event.clickCancel w = endCall w := by simp [click, hv, cancelCall]
        have := step_click_twice_of_endCall w Event.clickCancel hm (Or.inr rfl) hw
        simp only [step, hm, hm2 _ (hw ▸ hme)]
        simpa using fun _ => this
      | _ =>
        have hw : click Event.clickCancel w = w := by simp [click, hv]
        have := step_click_twice_of_ignored w Event.clickCancel hm hw
          (fun v h => by simp [click, h, hv])
        simp only [step, hm, hm2 _ (hw ▸ hm)]
        simpa using fun _ => this
  · simp [step, hm]

/-! ## The messages emitted, and the re-render of a mounted component -/

theorem emitted_eq_sent (w : World) : emitted w = sent w.log := by
  rfl

theorem sent_append (a b : List Effect) : sent (a ++ b) = sent a ++ sent b := by
  simp [sent, List.filterMap_append]

theorem sent_resetEffects (w : World) : sent (resetEffects w) = [] := by
  simp only [resetEffects, closeEffects, stopEffects]
  cases w.pcRef <;> cases w.localStreamRef <;> simp [sent]

theorem sent_emitEffect (sock : Socket) (m : Msg) (h : sock.emitError = none) :
    sent [emitEffect sock m] = [m] := by
  simp [sent, emitEffect, h]

theorem sent_emitEffect_threw (sock : Socket) (m : Msg)
    (h : sock.emitError ≠ none) : sent [emitEffect sock m] = [] := by
  cases he : sock.emitError with
  | none => exact absurd he h
  | some err => simp [sent, emitEffect, he]

theorem commit_mounted_eq (a b : World) (hm : a.isUnmountedRef = false) :
    commit a b =
      { b with
        localStreamRef := b.localStream
        inCallRef :=
          if b.callState = a.callState then b.inCallRef else isActive b.callState
        hasBeenInCallRef :=
          if b.callState = a.callState then b.hasBeenInCallRef
          else if isActive b.callState then true else b.hasBeenInCallRef } := by
  simp only [commit, hm, Bool.false_eq_true, if_false]
  split <;> simp [*]

/-! ## The remote party and the call state (C11) -/

/-- C11, counterexample. In the reachable `lateAnswerWorld` bob accepted alice's
call, alice hung up while his `getUserMedia` was pending (`handleCallEnded`
cleared `otherPeerUserIdRef`), and his `answerCall` then ran to its
`setCallState(CONNECTED)`: `callState` is Connected and no remote party is
recorded. -/
theorem c11_connected_without_remote_party :
    Reachable lateAnswerWorld ∧
    lateAnswerWorld.callState = CallState.connected ∧
    lateAnswerWorld.otherPeerUserIdRef = none :=
  ⟨⟨some exampleSocket, some "bob", JsOpt.undefined, JsOpt.undefined,
      JsOpt.undefined, none,
      [Event.incomingCall invite, Event.clickAccept, Event.callEnded,
       Event.settle 0 cam, Event.settle 1 Outcome.resolved,
       Event.settle 2 (Outcome.description exampleAnswer),
       Event.settle 3 Outcome.resolved], rfl⟩, by decide, by decide⟩

/-- C11, as the code has it. In every reachable world, if a remote party is
recorded in `otherPeerUserIdRef` then `callState` is Calling, Ringing or
Connected. -/
theorem c11_remote_party_only_in_active_states (w : World) (hw : Reachable w)
    (hp : w.otherPeerUserIdRef ≠ none) :
    w.callState ∈ ACTIVE_CALL_STATES := by
  have := (reachable_consistent w hw).1 hp
  simpa [isActive] using this

theorem c11_remote_party_only_in_active_states_witness :
    connectedWorld.callState ∈ ACTIVE_CALL_STATES :=
  c11_remote_party_only_in_active_states connectedWorld
    ⟨some exampleSocket, some "alice", JsOpt.value "bob", JsOpt.undefined,
      JsOpt.undefined, none,
      [Event.clickStart, Event.settle 0 cam,
       Event.settle 1 (Outcome.description exampleOffer),
       Event.settle 2 Outcome.resolved, Event.callAccepted (some exampleAnswer),
       Event.settle 3 Outcome.resolved], rfl⟩
    (by decide)

/-! ## `endCall` (C12, C13) -/

/-- C12. In every world, `endCall` run twice gives the world `endCall` run once
gives: every field is equal, among them `callState`, the remote party, the
transport session, the local media, the queues and the error message, and so is
the sequence of emitted messages. The same holds for two clicks on the End
button and for two clicks on the Cancel button. -/
theorem c12_endCall_twice_is_endCall_once (w : World) :
    endCall (endCall w) = endCall w ∧
    emitted (endCall (endCall w)) = emitted (endCall w) ∧
    step (step w Event.clickEnd) Event.clickEnd = step w Event.clickEnd ∧
    step (step w Event.clickCancel) Event.clickCancel =
      step w Event.clickCancel :=
  ⟨endCall_endCall w, by rw [endCall_endCall], step_end_twice w⟩

/-- C13. What `endCall` does to the outside world is the attempt to notify the
peer followed by the effects of the cleanup. With a socket and a recorded
remote party `p` the attempt is one `socket.emit` of `end-call` to `p`, which
is one emitted message when it does not throw; with no remote party there is
no attempt. Whatever the attempt did, afterwards `callState` is Ended, the
transport session held is closed and `pcRef` is null, the stream held is
stopped and the local stream is null, both candidate queues are empty and the
remote party is cleared. -/
theorem c13_endCall_notifies_then_cleans_up (w : World) :
    (endCall w).log =
      w.log ++ notifyEffects w.socket w.otherPeerUserIdRef Msg.endCall ++
        resetEffects w ∧
    (∀ sock p, w.socket = some sock → w.otherPeerUserIdRef = some p → p ≠ "" →
      notifyEffects w.socket w.otherPeerUserIdRef Msg.endCall =
        [emitEffect sock (Msg.endCall p)] ∧
      (sock.emitError = none → emitted (endCall w) = emitted w ++ [Msg.endCall p]) ∧
      (sock.emitError ≠ none → emitted (endCall w) = emitted w)) ∧
    (w.otherPeerUserIdRef = none →
      notifyEffects w.socket w.otherPeerUserIdRef Msg.endCall = []) ∧
    (endCall w).callState = CallState.ended ∧
    (endCall w).pcRef = none ∧
    (∀ pc, w.pcRef = some pc → isOpen (endCall w) pc = false) ∧
    (endCall w).localStream = none ∧
    (endCall w).localStreamRef = none ∧
    (∀ s, w.localStreamRef = some s → allStopped (endCall w) s = true) ∧
    (endCall w).pendingIceCandidatesRef = [] ∧
    (endCall w).preConnectionIceQueueRef = [] ∧
    (endCall w).otherPeerUserIdRef = none := by
  have hlog : (endCall w).log =
      w.log ++ notifyEffects w.socket w.otherPeerUserIdRef Msg.endCall ++
        resetEffects w := by
    simp [endCall, resetCall_eq, notifyPeer_eq, resetEffects]
  refine ⟨hlog, ?_, ?_, ?_, ?_, ?_, ?_, ?_, ?_, ?_, ?_, ?_⟩
  · intro sock p hs hp hne
    have hn : notifyEffects w.socket w.otherPeerUserIdRef Msg.endCall =
        [emitEffect sock (Msg.endCall p)] := by
      simp [notifyEffects, hs, hp, nonEmpty, hne]
    refine ⟨hn, ?_, ?_⟩
    · intro he
      rw [emitted_eq_sent, emitted_eq_sent, hlog, hn, sent_append, sent_append,
        sent_emitEffect sock _ he, sent_resetEffects]
      simp
    · intro he
      rw [emitted_eq_sent, emitted_eq_sent, hlog, hn, sent_append, sent_append,
        sent_emitEffect_threw sock _ he, sent_resetEffects]
      simp
  · intro hp
    simp only [notifyEffects, hp, nonEmpty]
    cases w.socket <;> rfl
  · simp [endCall, resetCall_eq]
  · simp [endCall, resetCall_eq]
  · intro pc hpc
    simp [endCall, resetCall_eq, notifyPeer_eq, isOpen, hpc, closeAt, getElem?_updateAt]
    cases w.pcs[pc]? <;> simp
  · simp [endCall, resetCall_eq]
  · simp [endCall, resetCall_eq]
  · intro s hs
    simp [endCall, resetCall_eq, notifyPeer_eq, allStopped, hs, stopAt, getElem?_updateAt]
    cases w.streams[s]? <;> simp
  · simp [endCall, resetCall_eq]
  · simp [endCall, resetCall_eq]
  · simp [endCall, resetCall_eq]

/-! ## Declining an incoming call (C14) -/

/-- C14. Let the mounted component be Ringing, with a socket and the recorded
incoming call of caller `c`. The Decline button is rendered, and the click on it
(`rejectCall`) leaves `callState` Rejected. What it does to the outside world is
one `socket.emit` of `reject-call` to `c` followed by the effects of
`resetCall`, and none of these is a `getUserMedia`; when the emit does not
throw, that one message is what is added to the emitted messages. No stream
object is created and the local stream is null afterwards. The arrival of an
`incoming-call` message leaves the local stream, the streams that exist and the
effects as they were, so that a local stream that was null stays null. -/
theorem c14_decline_emits_reject_and_acquires_nothing (w : World)
    (ic : IncomingCall) (sock : Socket) (c : String)
    (hm : w.isUnmountedRef = false) (hs : w.socket = some sock)
    (hc : w.callState = CallState.ringing) (hi : w.incomingCall = some ic)
    (hsn : ic.sender = some c) (hne : c ≠ "") :
    view w = View.ringing ∧
    (step w Event.clickDecline).callState = CallState.rejected ∧
    (step w Event.clickDecline).log =
      w.log ++ [emitEffect sock (Msg.rejectCall c)] ++ resetEffects w ∧
    (∀ v, Effect.getUserMedia v ∉
      [emitEffect sock (Msg.rejectCall c)] ++ resetEffects w) ∧
    (sock.emitError = none →
      emitted (step w Event.clickDecline) = emitted w ++ [Msg.rejectCall c]) ∧
    (step w Event.clickDecline).streams.length = w.streams.length ∧
    (step w Event.clickDecline).localStream = none ∧
    (∀ (w0 : World) (p : IncomingCallPayload),
      (step w0 (Event.incomingCall p)).localStream = w0.localStream ∧
      (step w0 (Event.incomingCall p)).streams = w0.streams ∧
      (step w0 (Event.incomingCall p)).log = w0.log) := by
  have hview : view w = View.ringing := by
    simp [view, hs, hc, hi]
  have hv : step w Event.clickDecline =
      commit w (rejectCall w.socket w.incomingCall w) := by
    simp [step, hm, click, hview]
  have hlog : (step w Event.clickDecline).log =
      w.log ++ [emitEffect sock (Msg.rejectCall c)] ++ resetEffects w := by
    rw [hv, commit_log]
    simp [rejectCall, resetCall_eq, notifyPeer_eq, hs, hi, hsn, notifyEffects,
      nonEmpty, hne, resetEffects]
  refine ⟨hview, ?_, hlog, ?_, ?_, ?_, ?_, ?_⟩
  · rw [hv, commit_callState _ _ hm]
    simp [rejectCall, resetCall_eq]
  · intro v
    simp only [resetEffects, closeEffects, stopEffects, emitEffect]
    cases sock.emitError <;> cases w.pcRef <;> cases w.localStreamRef <;> simp
  · intro he
    rw [emitted_eq_sent, emitted_eq_sent, hlog, sent_append, sent_append,
      sent_emitEffect sock _ he, sent_resetEffects]
    simp
  · rw [hv, commit_streams]
    simp only [rejectCall, resetCall_eq, notifyPeer_eq, stopAt]
    cases w.localStreamRef <;> simp [updateAt_length]
  · rw [hv, commit_mounted_eq _ _ hm]
    simp [rejectCall, resetCall_eq]
  · intro w0 p
    simp only [step]
    split
    · exact ⟨rfl, rfl, rfl⟩
    · rename_i h
      have hm0 : w0.isUnmountedRef = false := by
        cases hh : w0.isUnmountedRef
        · rfl
        · exact absurd (Or.inl hh) h
      rw [commit_mounted_eq _ _ hm0]
      simp [receive, handleIncomingCall]

/-- Witness of C14: bob declines alice's call. -/
theorem c14_decline_emits_reject_and_acquires_nothing_witness :
    (step ringingWorld Event.clickDecline).callState = CallState.rejected ∧
    emitted (step ringingWorld Event.clickDecline) = [Msg.rejectCall "alice"] :=
  ⟨(c14_decline_emits_reject_and_acquires_nothing ringingWorld
      { sender := some "alice", fromUsername := some "Alice"
        signal := some exampleOffer, isVideoCall := true }
      exampleSocket "alice" (by decide) (by decide) (by decide) (by decide)
      (by decide) (by decide)).2.1, by decide⟩

/-! ## Loss of the transport and termination by the peer (C15, C16) -/

theorem commit_resetCall (w u : World) (hm : w.isUnmountedRef = false)
    (hpc : u.pcRef = w.pcRef) (hpcs : u.pcs = w.pcs) (hst : u.streams = w.streams)
    (hls : u.localStreamRef = w.localStream) :
    Released w (commit w (resetCall u)) ∧
    (commit w (resetCall u)).callState = u.callState ∧
    (commit w (resetCall u)).log = u.log ++ resetEffects u ∧
    (commit w (resetCall u)).pendingIceCandidatesRef = [] ∧
    (commit w (resetCall u)).preConnectionIceQueueRef = [] ∧
    (commit w (resetCall u)).otherPeerUserIdRef = none ∧
    (commit w (resetCall u)).errorMessage = none ∧
    (commit w (resetCall u)).remoteDisplayName = "" ∧
    (commit w (resetCall u)).streams.length = w.streams.length := by
  rw [commit_mounted_eq _ _ hm, resetCall_eq]
  refine ⟨⟨rfl, ?_, rfl, rfl, ?_⟩, rfl, rfl, rfl, rfl, rfl, rfl, rfl, ?_⟩
  · intro p hp
    simp [isOpen, hpc, hpcs, hp, closeAt, getElem?_updateAt]
    cases w.pcs[p]? <;> simp
  · intro s hs
    simp [allStopped, hst, hls, hs, stopAt, getElem?_updateAt]
    cases w.streams[s]? <;> simp
  · simp [hst, stopAt]
    cases u.localStreamRef <;> simp [updateAt_length]

theorem tornDown_resetCall (w u : World) (hw : Reachable w)
    (hm : w.isUnmountedRef = false)
    (hpc : u.pcRef = w.pcRef) (hpcs : u.pcs = w.pcs) (hst : u.streams = w.streams)
    (hls : u.localStreamRef = w.localStreamRef) (hlog : u.log = w.log) :
    TornDown w (commit w (resetCall u)) u.callState := by
  have hr := reachable_rendered w hw hm
  obtain ⟨h1, h2, h3, h4, h5, h6, _, _, _⟩ :=
    commit_resetCall w u hm hpc hpcs hst (hls.trans hr)
  have he : resetEffects u = resetEffects w := by
    simp [resetEffects, hpc, hst, hls]
  rw [hlog, he] at h3
  refine ⟨h2, h1, h4, h5, h6, h3, ?_⟩
  rw [emitted_eq_sent, emitted_eq_sent, h3, sent_append, sent_resetEffects]
  simp

/-- C15. In every reachable world with the component mounted and `callState`
Calling, Ringing or Connected, when an open peer connection reports the
connection state `failed` or `disconnected`, `callState` becomes Failed, the
effects are those of `resetCall` alone (no message is emitted), the transport
session and the local media held are released, and both candidate queues are
empty. -/
theorem c15_transport_loss_fails_the_call (w : World) (pc : Nat)
    (st : ConnectionState) (hw : Reachable w) (hm : w.isUnmountedRef = false)
    (ha : w.callState ∈ ACTIVE_CALL_STATES) (ho : isOpen w pc = true)
    (hst : st = ConnectionState.failed ∨ st = ConnectionState.disconnected) :
    TornDown w (step w (Event.connectionState pc st)) CallState.failed := by
  have hin : w.inCallRef = true := by
    rw [(reachable_consistent w hw).2.1 hm]
    simpa [isActive] using ha
  have hs : step w (Event.connectionState pc st) =
      commit w (resetCall
        { w with errorMessage := some "Connection failed"
                 callState := CallState.failed, showEndedModal := true }) := by
    simp [step, ho, onconnectionstatechange, hst, hm, hin]
  rw [hs]
  exact tornDown_resetCall w _ hw hm rfl rfl rfl rfl rfl

/-- Witness of C15: the transport of alice's call with bob disconnects. -/
theorem c15_transport_loss_fails_the_call_witness :
    TornDown connectedWorld
      (step connectedWorld (Event.connectionState 0 ConnectionState.disconnected))
      CallState.failed :=
  c15_transport_loss_fails_the_call connectedWorld 0 ConnectionState.disconnected
    ⟨some exampleSocket, some "alice", JsOpt.value "bob", JsOpt.undefined,
      JsOpt.undefined, none,
      [Event.clickStart, Event.settle 0 cam,
       Event.settle 1 (Outcome.description exampleOffer),
       Event.settle 2 Outcome.resolved, Event.callAccepted (some exampleAnswer),
       Event.settle 3 Outcome.resolved], rfl⟩
    (by decide) (by decide) (by decide) (Or.inr rfl)

/-- C16. In every reachable world with the component mounted, a socket, and
`callState` Calling, Ringing or Connected: a `call-ended` message leaves
`callState` Ended, a `call-rejected` message Rejected and a `call-failed`
message (with any payload) Failed; in each case the transport session, the
local media and the queues are released, the remote party is cleared and no
message is emitted. -/
theorem c16_remote_termination_releases (w : World) (hw : Reachable w)
    (hm : w.isUnmountedRef = false) (hs : w.socket ≠ none)
    (ha : w.callState ∈ ACTIVE_CALL_STATES) :
    TornDown w (step w Event.callEnded) CallState.ended ∧
    TornDown w (step w Event.callRejected) CallState.rejected ∧
    ∀ payload, TornDown w (step w (Event.callFailed payload)) CallState.failed := by
  have hin : w.inCallRef = true := by
    rw [(reachable_consistent w hw).2.1 hm]
    simpa [isActive] using ha
  refine ⟨?_, ?_, ?_⟩
  · have h : step w Event.callEnded =
        commit w (resetCall
          { w with inCallRef := false, callState := CallState.ended
                   showEndedModal := true }) := by
      simp [step, hm, hs, receive, handleCallEnded, hin]
    rw [h]
    exact tornDown_resetCall w _ hw hm rfl rfl rfl rfl rfl
  · have h : step w Event.callRejected =
        commit w (resetCall
          { w with inCallRef := false, callState := CallState.rejected
                   showEndedModal := true }) := by
      simp [step, hm, hs, receive, handleCallRejected, hin]
    rw [h]
    exact tornDown_resetCall w _ hw hm rfl rfl rfl rfl rfl
  · intro payload
    have h : step w (Event.callFailed payload) =
        commit w (resetCall
          { w with inCallRef := false
                   errorMessage := some (orDefault (payload.getD none) "Call failed")
                   callState := CallState.failed, showEndedModal := true }) := by
      simp [step, hm, hs, receive, handleCallFailed, hin]
    rw [h]
    exact tornDown_resetCall w _ hw hm rfl rfl rfl rfl rfl

/-- Witness of C16: bob hangs up on alice. -/
theorem c16_remote_termination_releases_witness :
    TornDown connectedWorld (step connectedWorld Event.callEnded) CallState.ended :=
  (c16_remote_termination_releases connectedWorld
    ⟨some exampleSocket, some "alice", JsOpt.value "bob", JsOpt.undefined,
      JsOpt.undefined, none,
      [Event.clickStart, Event.settle 0 cam,
       Event.settle 1 (Outcome.description exampleOffer),
       Event.settle 2 Outcome.resolved, Event.callAccepted (some exampleAnswer),
       Event.settle 3 Outcome.resolved], rfl⟩
    (by decide) (by decide) (by decide)).1

/-! ## Leaving Failed (C17) -/

theorem commit_callState_same (a b : World) (h : b.callState = a.callState) :
    (commit a b).callState = a.callState := by
  unfold commit; split
  · rfl
  · simp [h]

theorem view_of_failed (v : World) (hc : v.callState = CallState.failed) :
    view v = View.endedModal ∨ view v = View.nothing ∨ view v = View.notConnected := by
  unfold view
  simp only [hc]
  split
  · split <;> simp
  · simp
    split <;> simp

theorem click_of_failed (w : World) (e : Event) (hc : w.callState = CallState.failed)
    (he : e ≠ Event.clickCloseEnded) : (click e w).callState = w.callState := by
  unfold click
  rcases view_of_failed w hc with h | h | h <;> cases e <;> simp_all [onClose]

/-- C17, counterexample. In the reachable `failedWorld` `callState` is Failed and
the user has not acknowledged it; an `incoming-call` message
(`handleIncomingCall`, lines 164-178, which looks at no state) sets Ringing and
the Accept and Decline buttons are rendered. -/
theorem c17_incoming_call_leaves_failed :
    Reachable failedWorld ∧
    failedWorld.callState = CallState.failed ∧
    (step failedWorld (Event.incomingCall invite)).callState = CallState.ringing ∧
    view (step failedWorld (Event.incomingCall invite)) = View.ringing :=
  ⟨⟨some exampleSocket, some "alice", JsOpt.value "bob", JsOpt.undefined,
      JsOpt.undefined, none,
      [Event.clickStart, Event.settle 0 (Outcome.rejected denied)], rfl⟩,
    by decide, by decide, by decide⟩

/-- C17, as the code has it. In every reachable world whose `callState` is
Failed, every event other than the click on the acknowledgment button, an
`incoming-call` message and the settling of an awaited operation leaves
`callState` Failed. -/
theorem c17_failed_stays_failed (w : World) (e : Event) (hw : Reachable w)
    (hf : w.callState = CallState.failed)
    (h1 : e ≠ Event.clickCloseEnded) (h2 : ∀ p, e ≠ Event.incomingCall p)
    (h3 : ∀ k o, e ≠ Event.settle k o) :
    (step w e).callState = CallState.failed := by
  have hin : w.isUnmountedRef = false → w.inCallRef = false := by
    intro hm
    rw [(reachable_consistent w hw).2.1 hm, hf]
    rfl
  rw [← hf]
  cases e with
  | settle k o => exact absurd rfl (h3 k o)
  | incomingCall p => exact absurd rfl (h2 p)
  | clickCloseEnded => exact absurd rfl h1
  | unmount =>
    simp only [step, unmountCleanup_eq]
    split
    · rfl
    · split <;> rfl
  | track pc ev =>
    simp only [step]
    split
    · exact commit_callState_same _ _ rfl
    · rfl
  | localCandidate pc c =>
    simp only [step]
    split
    · apply commit_callState_same
      simp only [onicecandidate]
      split
      · simp [emit, World.record]
      · rfl
    · rfl
  | connectionState pc st =>
    simp only [step]
    split
    · apply commit_callState_same
      simp only [onconnectionstatechange]
      split
      · split
        · simp [resetCall_eq, hf]
        · rfl
      · rfl
    · rfl
  | setOutgoingCallTarget t =>
    simp only [step]
    split
    · rfl
    · exact commit_callState_same _ _ rfl
  | callAccepted p =>
    simp only [step]
    split
    · rfl
    · apply commit_callState_same
      simp only [receive, handleCallAccepted]
      split
      · simp [World.record, World.suspend]
      · rfl
  | iceCandidate p =>
    simp only [step]
    split
    · rfl
    · apply commit_callState_same
      simp only [receive, handleIceCandidate]
      split
      · rfl
      · split
        · rfl
        · split
          · simp [World.record]
          · rfl
  | callEnded =>
    simp only [step]
    split
    · rfl
    · rename_i h
      have hm := mounted_of_not w (fun h1 => h (Or.inl h1))
      apply commit_callState_same
      simp [receive, handleCallEnded, hin hm]
  | callRejected =>
    simp only [step]
    split
    · rfl
    · rename_i h
      have hm := mounted_of_not w (fun h1 => h (Or.inl h1))
      apply commit_callState_same
      simp [receive, handleCallRejected, hin hm]
  | callFailed p =>
    simp only [step]
    split
    · rfl
    · rename_i h
      have hm := mounted_of_not w (fun h1 => h (Or.inl h1))
      apply commit_callState_same
      simp [receive, handleCallFailed, hin hm]
  | _ =>
    simp only [step]
    split
    · rfl
    · exact commit_callState_same _ _ (click_of_failed w _ hf (by simp))

/-- Witness of C17: a `call-ended` message after alice's call failed. -/
theorem c17_failed_stays_failed_witness :
    (step failedWorld Event.callEnded).callState = CallState.failed :=
  c17_failed_stays_failed failedWorld Event.callEnded
    ⟨some exampleSocket, some "alice", JsOpt.value "bob", JsOpt.undefined,
      JsOpt.undefined, none,
      [Event.clickStart, Event.settle 0 (Outcome.rejected denied)], rfl⟩
    (by decide) (by decide) (fun p => by simp) (fun k o => by simp)

/-! ## The error message (C18) -/

theorem step_summary (w : World) (e : Event) :
    step w e = w ∨ step w e = unmountCleanup w ∨
    ∃ b, step w e = commit w b ∧
      (Quiet w b ∨ Terminated w b ∨ Connects w b ∨
        (w.isUnmountedRef = false ∧
          (Activated w b ∨ Guarded w b ∨ Acknowledged w b))) := by
  have hrecv : ∀ ev, (¬ (w.isUnmountedRef = true ∨ w.socket.isNone = true)) →
      (Quiet w (receive ev w) ∨ Terminated w (receive ev w) ∨ Connects w (receive ev w) ∨
        (w.isUnmountedRef = false ∧
          (Activated w (receive ev w) ∨ Guarded w (receive ev w) ∨
            Acknowledged w (receive ev w)))) := by
    intro ev h
    have hm : w.isUnmountedRef = false := mounted_of_not w (fun h1 => h (Or.inl h1))
    rcases receive_summary ev w with h1 | h1 | h1
    · exact Or.inl h1
    · exact Or.inr (Or.inl h1)
    · exact Or.inr (Or.inr (Or.inr ⟨hm, Or.inl h1⟩))
  have hclick : ∀ ev, (¬ w.isUnmountedRef = true) →
      (Quiet w (click ev w) ∨ Terminated w (click ev w) ∨ Connects w (click ev w) ∨
        (w.isUnmountedRef = false ∧
          (Activated w (click ev w) ∨ Guarded w (click ev w) ∨
            Acknowledged w (click ev w)))) := by
    intro ev h
    have hm : w.isUnmountedRef = false := mounted_of_not w h
    rcases click_summary ev w with h1 | h1 | h1 | h1 | h1
    · exact Or.inl h1
    · exact Or.inr (Or.inl h1)
    · exact Or.inr (Or.inr (Or.inr ⟨hm, Or.inl h1⟩))
    · exact Or.inr (Or.inr (Or.inr ⟨hm, Or.inr (Or.inl h1)⟩))
    · exact Or.inr (Or.inr (Or.inr ⟨hm, Or.inr (Or.inr h1)⟩))
  cases e with
  | settle k o =>
    refine Or.inr (Or.inr ⟨_, rfl, ?_⟩)
    rcases settle_summary k o w with h | h | h
    · exact Or.inl h
    · exact Or.inr (Or.inl h)
    · exact Or.inr (Or.inr (Or.inl h))
  | unmount =>
    simp only [step]
    split
    · exact Or.inl rfl
    · exact Or.inr (Or.inl rfl)
  | track pc ev =>
    simp only [step]
    split
    · exact Or.inr (Or.inr ⟨_, rfl, Or.inl ⟨rfl, rfl, rfl, rfl, rfl, rfl⟩⟩)
    · exact Or.inl rfl
  | localCandidate pc c =>
    simp only [step]
    split
    · refine Or.inr (Or.inr ⟨_, rfl, Or.inl ?_⟩)
      simp only [onicecandidate]
      split
      · simp [Quiet, emit, World.record]
      · exact quiet_refl w
    · exact Or.inl rfl
  | connectionState pc st =>
    simp only [step]
    split
    · refine Or.inr (Or.inr ⟨_, rfl, ?_⟩)
      rcases onconnectionstatechange_summary st w with h | h
      · exact Or.inl h
      · exact Or.inr (Or.inl h)
    · exact Or.inl rfl
  | setOutgoingCallTarget t =>
    simp only [step]
    split
    · exact Or.inl rfl
    · exact Or.inr (Or.inr ⟨_, rfl, Or.inl ⟨rfl, rfl, rfl, rfl, rfl, rfl⟩⟩)
  | incomingCall p =>
    simp only [step]
    split
    · exact Or.inl rfl
    · rename_i h; exact Or.inr (Or.inr ⟨_, rfl, hrecv _ h⟩)
  | callAccepted p =>
    simp only [step]
    split
    · exact Or.inl rfl
    · rename_i h; exact Or.inr (Or.inr ⟨_, rfl, hrecv _ h⟩)
  | iceCandidate p =>
    simp only [step]
    split
    · exact Or.inl rfl
    · rename_i h; exact Or.inr (Or.inr ⟨_, rfl, hrecv _ h⟩)
  | callEnded =>
    simp only [step]
    split
    · exact Or.inl rfl
    · rename_i h; exact Or.inr (Or.inr ⟨_, rfl, hrecv _ h⟩)
  | callRejected =>
    simp only [step]
    split
    · exact Or.inl rfl
    · rename_i h; exact Or.inr (Or.inr ⟨_, rfl, hrecv _ h⟩)
  | callFailed p =>
    simp only [step]
    split
    · exact Or.inl rfl
    · rename_i h; exact Or.inr (Or.inr ⟨_, rfl, hrecv _ h⟩)
  | _ =>
    simp only [step]
    split
    · exact Or.inl rfl
    · rename_i h; exact Or.inr (Or.inr ⟨_, rfl, hclick _ h⟩)

/-- C18, counterexample. In the reachable `guardFailedWorld` the guard of
`startCall` has set the error message and Failed. An `incoming-call` message
then sets Ringing and leaves the error message: the world reached has a
non-null `errorMessage` and `callState` Ringing. -/
theorem c18_error_message_outlives_failed :
    Reachable guardFailedWorld ∧
    guardFailedWorld.callState = CallState.failed ∧
    guardFailedWorld.errorMessage = some missingUserMessage ∧
    Reachable (step guardFailedWorld (Event.incomingCall invite)) ∧
    (step guardFailedWorld (Event.incomingCall invite)).callState =
      CallState.ringing ∧
    (step guardFailedWorld (Event.incomingCall invite)).errorMessage =
      some missingUserMessage :=
  ⟨⟨some exampleSocket, none, JsOpt.undefined, JsOpt.undefined, JsOpt.undefined,
      none, [Event.setOutgoingCallTarget (some bobTarget), Event.clickStart], rfl⟩,
    by decide, by decide,
    ⟨some exampleSocket, none, JsOpt.undefined, JsOpt.undefined, JsOpt.undefined,
      none, [Event.setOutgoingCallTarget (some bobTarget), Event.clickStart,
        Event.incomingCall invite], rfl⟩,
    by decide, by decide⟩

/-- C18, as the code has it. Whenever an event takes `errorMessage` from null to
non-null, the world it leaves has `callState` Failed; the message is then the
one of the guard of `startCall`, and the event started from Idle. -/
theorem c18_error_message_is_set_only_with_failed (w : World) (e : Event)
    (h0 : w.errorMessage = none) (h1 : (step w e).errorMessage ≠ none) :
    (step w e).callState = CallState.failed ∧
    (step w e).errorMessage = some missingUserMessage ∧
    w.callState = CallState.idle := by
  rcases step_summary w e with h | h | ⟨b, h, hs⟩
  · rw [h] at h1; exact absurd h0 h1
  · rw [h, unmountCleanup_eq] at h1
    split at h1 <;> exact absurd h0 h1
  · rw [h] at h1 ⊢
    cases hm : w.isUnmountedRef
    · obtain ⟨c1, _, c3, _⟩ := commit_mounted w b hm
      rw [c3] at h1
      rw [c1, c3]
      rcases hs with ⟨_, _, _, q, _⟩ | ⟨_, _, _, t, _⟩ | ⟨_, _, _, k, _⟩ |
        ⟨_, ⟨_, _, a, _⟩ | ⟨g1, g2, _, _, g5, _⟩ | ⟨_, _, _, _, a, _⟩⟩
      · rw [q] at h1; exact absurd h0 h1
      · exact absurd t h1
      · rw [k] at h1; exact absurd h0 h1
      · rcases a with a | a
        · rw [a] at h1; exact absurd h0 h1
        · exact absurd a h1
      · exact ⟨g2, g5, g1⟩
      · exact absurd a h1
    · obtain ⟨_, _, c3, _⟩ := commit_unmounted w b hm
      rw [c3] at h1; exact absurd h0 h1

/-- Witness of C18: the click on Start in `staleIdleWorld`, where no user is
logged in. -/
theorem c18_error_message_is_set_only_with_failed_witness :
    (step staleIdleWorld Event.clickStart).callState = CallState.failed :=
  (c18_error_message_is_set_only_with_failed staleIdleWorld Event.clickStart
    (by decide) (by decide)).1

/-! ## The acknowledgment (C19) -/

/-- C19. In every reachable world whose `callState` is Ended, Rejected or Failed,
`handleCloseEnded` leaves `callState` Idle, `errorMessage` null, the remote
display name empty and the ended modal hidden; and so does the click on the
acknowledgment button of the mounted component that shows the modal. -/
theorem c19_acknowledgment_returns_to_idle (w : World) (hw : Reachable w)
    (ht : isTerminal w.callState = true) :
    (handleCloseEnded w).callState = CallState.idle ∧
    (handleCloseEnded w).errorMessage = none ∧
    (handleCloseEnded w).remoteDisplayName = "" ∧
    (handleCloseEnded w).showEndedModal = false ∧
    (w.isUnmountedRef = false → view w = View.endedModal →
      (step w Event.clickCloseEnded).callState = CallState.idle ∧
      (step w Event.clickCloseEnded).errorMessage = none ∧
      (step w Event.clickCloseEnded).remoteDisplayName = "" ∧
      (step w Event.clickCloseEnded).showEndedModal = false) := by
  have hn : w.remoteDisplayName = "" :=
    (reachable_consistent w hw).2.2 (isActive_of_isTerminal _ ht)
  refine ⟨rfl, rfl, ?_, rfl, ?_⟩
  · simpa [handleCloseEnded, onClose] using hn
  · intro hm hv
    have hs : step w Event.clickCloseEnded = commit w (handleCloseEnded w) := by
      simp [step, hm, click, hv]
    rw [hs, commit_mounted_eq _ _ hm]
    simpa [handleCloseEnded, onClose] using hn

/-- Witness of C19: alice closes the dialog of her failed call. -/
theorem c19_acknowledgment_returns_to_idle_witness :
    (step failedWorld Event.clickCloseEnded).callState = CallState.idle :=
  ((c19_acknowledgment_returns_to_idle failedWorld
    ⟨some exampleSocket, some "alice", JsOpt.value "bob", JsOpt.undefined,
      JsOpt.undefined, none,
      [Event.clickStart, Event.settle 0 (Outcome.rejected denied)], rfl⟩
    (by decide)).2.2.2.2 (by decide) (by decide)).1

/-! ## An outgoing call that is accepted (C20) -/

theorem sent_addTracks (ts : List (Nat × Bool)) (p s : Nat) :
    sent (ts.map fun t => Effect.addTrack p s t.1) = [] := by
  induction ts with
  | nil => rfl
  | cons t ts ih => simp [sent]

theorem startCall_completes (A : World) (c : StartCtx) (k : Nat)
    (ts : List (Nat × Bool)) (offer : Sdp)
    (hAm : A.isUnmountedRef = false)
    (ht : A.tasks[k]? = some (Task.startCall_getUserMedia c))
    (hs : c.socket.emitError = none) :
    (run A [Event.settle k (Outcome.stream ts),
      Event.settle A.tasks.length (Outcome.description offer),
      Event.settle (A.tasks.length + 1) Outcome.resolved]).callState = A.callState ∧
    (run A [Event.settle k (Outcome.stream ts),
      Event.settle A.tasks.length (Outcome.description offer),
      Event.settle (A.tasks.length + 1) Outcome.resolved]).otherPeerUserIdRef =
      A.otherPeerUserIdRef ∧
    (run A [Event.settle k (Outcome.stream ts),
      Event.settle A.tasks.length (Outcome.description offer),
      Event.settle (A.tasks.length + 1) Outcome.resolved]).pcRef = some A.pcs.length ∧
    (run A [Event.settle k (Outcome.stream ts),
      Event.settle A.tasks.length (Outcome.description offer),
      Event.settle (A.tasks.length + 1) Outcome.resolved]).log =
      A.log ++ [Effect.newPeerConnection A.pcs.length] ++
        ts.map (fun t => Effect.addTrack A.pcs.length A.streams.length t.1) ++
        [Effect.createOffer A.pcs.length,
         Effect.setLocalDescription A.pcs.length offer,
         Effect.emit (Msg.callUser c.receiverId
           { type := offer.type, sdp := offer.sdp } c.currentUserId
           A.isVideoCallRef)] ∧
    (run A [Event.settle k (Outcome.stream ts),
      Event.settle A.tasks.length (Outcome.description offer),
      Event.settle (A.tasks.length + 1) Outcome.resolved]).isUnmountedRef = false ∧
    (run A [Event.settle k (Outcome.stream ts),
      Event.settle A.tasks.length (Outcome.description offer),
      Event.settle (A.tasks.length + 1) Outcome.resolved]).socket = A.socket ∧
    (run A [Event.settle k (Outcome.stream ts),
      Event.settle A.tasks.length (Outcome.description offer),
      Event.settle (A.tasks.length + 1) Outcome.resolved]).pendingIceCandidatesRef =
      A.pendingIceCandidatesRef ∧
    (run A [Event.settle k (Outcome.stream ts),
      Event.settle A.tasks.length (Outcome.description offer),
      Event.settle (A.tasks.length + 1) Outcome.resolved]).tasks.length =
      A.tasks.length + 2 ∧
    isOpen (run A [Event.settle k (Outcome.stream ts),
      Event.settle A.tasks.length (Outcome.description offer),
      Event.settle (A.tasks.length + 1) Outcome.resolved]) A.pcs.length = true := by
  have hrun : run A [Event.settle k (Outcome.stream ts),
      Event.settle A.tasks.length (Outcome.description offer),
      Event.settle (A.tasks.length + 1) Outcome.resolved] =
      step (step (step A (Event.settle k (Outcome.stream ts)))
        (Event.settle A.tasks.length (Outcome.description offer)))
        (Event.settle (A.tasks.length + 1) Outcome.resolved) := by
    simp [run]
  rw [hrun]
  clear hrun
  have hB : step A (Event.settle k (Outcome.stream ts)) =
      commit A (startCall_afterGetUserMedia c ts
        { A with tasks := A.tasks.set k Task.done }) := by
    simp [step, settle, ht]
  rw [commit_of_mounted _ _ hAm (by simp [startCall_afterGetUserMedia, installMedia,
    World.record, World.suspend])] at hB
  generalize step A (Event.settle k (Outcome.stream ts)) = B at *
  have hBt : B.tasks[A.tasks.length]? = some (Task.startCall_createOffer c A.pcs.length) := by
    rw [hB]
    simp only [startCall_afterGetUserMedia, installMedia, World.record, World.suspend]
    exact getElem?_set_append_last _ _ _ _
  have hBm : B.isUnmountedRef = false := by
    rw [hB]
    simpa [startCall_afterGetUserMedia, installMedia, World.record, World.suspend]
      using hAm
  have hBl : B.tasks.length = A.tasks.length + 1 := by
    rw [hB]; simp [startCall_afterGetUserMedia, installMedia, World.record, World.suspend]
  have hC : step B (Event.settle A.tasks.length (Outcome.description offer)) =
      commit B (startCall_afterCreateOffer c A.pcs.length offer
        { B with tasks := B.tasks.set A.tasks.length Task.done }) := by
    simp [step, settle, hBt]
  rw [commit_of_mounted _ _ hBm (by simp [startCall_afterCreateOffer, World.record,
    World.suspend])] at hC
  generalize step B (Event.settle A.tasks.length (Outcome.description offer)) = C at *
  have hCt : C.tasks[A.tasks.length + 1]? =
      some (Task.startCall_setLocalDescription c A.pcs.length offer) := by
    rw [hC]
    simp only [startCall_afterCreateOffer, World.record, World.suspend]
    rw [← hBl]
    exact getElem?_set_append_last _ _ _ _
  have hCm : C.isUnmountedRef = false := by
    rw [hC]; simpa [startCall_afterCreateOffer, World.record, World.suspend] using hBm
  have hD : step C (Event.settle (A.tasks.length + 1) Outcome.resolved) =
      commit C (startCall_afterSetLocalDescription c A.pcs.length offer
        { C with tasks := C.tasks.set (A.tasks.length + 1) Task.done }) := by
    simp [step, settle, hCt]
  rw [commit_of_mounted _ _ hCm (by simp [startCall_afterSetLocalDescription, emit, hs,
    World.record, World.updatePc])] at hD
  rw [hD]
  simp only [startCall_afterSetLocalDescription, emit, hs, World.record, World.updatePc,
    hC, startCall_afterCreateOffer, World.suspend, hB, startCall_afterGetUserMedia,
    installMedia, emitEffect]
  refine ⟨trivial, trivial, trivial, ?_, hAm, trivial, trivial, ?_, ?_⟩
  · simp
  · simp
  · simp [isOpen, updateAt]

/-- C20. Let the mounted component be Idle with a socket whose `emit` does not
throw, a receiver id `rid` and a local user id `uid`. The Start button is
rendered; the click on it sets Calling and records `rid` as remote party; when
`getUserMedia`, `createOffer` and `setLocalDescription` have resolved,
`callState` is Calling, the remote party is `rid`, and the effects are the
media acquisition, the new session with its tracks, the offer, and one emitted
`call-user` message with `userToCall = rid`, `from = uid`, the type and sdp of
the offer, and the video flag of the call. A `call-accepted` message whose
`setRemoteDescription` resolves then leaves `callState` Connected. -/
theorem c20_outgoing_call_reaches_connected (w : World) (sock : Socket)
    (rid uid : String) (ts : List (Nat × Bool)) (offer ans : Sdp)
    (hm : w.isUnmountedRef = false) (hi : w.callState = CallState.idle)
    (hs : w.socket = some sock) (he : sock.emitError = none)
    (hr : receiverId w = some rid) (hrn : rid ≠ "")
    (hu : w.currentUserId = some uid) (hun : uid ≠ "") :
    view w = View.outgoingPrompt ∧
    (step w Event.clickStart).callState = CallState.calling ∧
    (step w Event.clickStart).otherPeerUserIdRef = some rid ∧
    (run w (outgoingCall w.tasks.length ts offer)).callState = CallState.calling ∧
    (run w (outgoingCall w.tasks.length ts offer)).otherPeerUserIdRef = some rid ∧
    (run w (outgoingCall w.tasks.length ts offer)).log =
      w.log ++ [Effect.getUserMedia (toBool (isVideoCall w)),
        Effect.newPeerConnection w.pcs.length] ++
        ts.map (fun t => Effect.addTrack w.pcs.length w.streams.length t.1) ++
        [Effect.createOffer w.pcs.length,
         Effect.setLocalDescription w.pcs.length offer,
         Effect.emit (Msg.callUser rid { type := offer.type, sdp := offer.sdp } uid
           (toBool (isVideoCall w)))] ∧
    emitted (run w (outgoingCall w.tasks.length ts offer)) =
      emitted w ++ [Msg.callUser rid { type := offer.type, sdp := offer.sdp } uid
        (toBool (isVideoCall w))] ∧
    (run w (outgoingCall w.tasks.length ts offer ++
      acceptance w.tasks.length ans)).callState = CallState.connected := by
  have hview : view w = View.outgoingPrompt := by
    simp [view, hs, hi, hr, truthy, hrn]
  have hA : step w Event.clickStart = commit w (startCall w) := by
    simp [step, hm, click, hview]
  have hst : startCall w =
      ({ w with errorMessage := none, otherPeerUserIdRef := some rid
                remoteDisplayName := orDefault (receiverName w).toOption "User"
                isVideoCallRef := toBool (isVideoCall w)
                callState := CallState.calling
                pendingIceCandidatesRef := [], preConnectionIceQueueRef := []
                log := w.log ++ [Effect.getUserMedia (toBool (isVideoCall w))]
                tasks := w.tasks ++ [Task.startCall_getUserMedia
                  { socket := sock, receiverId := rid, currentUserId := uid }] } :
        World) := by
    simp [startCall, hs, hr, hu, nonEmpty, hrn, hun, World.record, World.suspend]
  rw [hst, commit_mounted_eq _ _ hm] at hA
  have hrun1 : run w (outgoingCall w.tasks.length ts offer) =
      run (step w Event.clickStart)
        [Event.settle w.tasks.length (Outcome.stream ts),
         Event.settle (w.tasks.length + 1) (Outcome.description offer),
         Event.settle (w.tasks.length + 1 + 1) Outcome.resolved] := by
    simp [run, outgoingCall]
  have hrun2 : run w (outgoingCall w.tasks.length ts offer ++
      acceptance w.tasks.length ans) =
      step (step (run w (outgoingCall w.tasks.length ts offer))
        (Event.callAccepted (some ans)))
        (Event.settle (w.tasks.length + 3) Outcome.resolved) := by
    rw [run_append]; simp [run, acceptance]
  rw [hrun2, hrun1]
  clear hrun1 hrun2
  generalize step w Event.clickStart = A at *
  have hAm : A.isUnmountedRef = false := by rw [hA]; exact hm
  have hAt : A.tasks[w.tasks.length]? = some (Task.startCall_getUserMedia
      { socket := sock, receiverId := rid, currentUserId := uid }) := by
    rw [hA]; simp
  have hAl : A.tasks.length = w.tasks.length + 1 := by rw [hA]; simp
  have hAc : A.callState = CallState.calling := by rw [hA]
  have hAo : A.otherPeerUserIdRef = some rid := by rw [hA]
  have hAlog : A.log = w.log ++ [Effect.getUserMedia (toBool (isVideoCall w))] := by
    rw [hA]
  have hAv : A.isVideoCallRef = toBool (isVideoCall w) := by rw [hA]
  have hAp : A.pcs = w.pcs := by rw [hA]
  have hAs : A.streams = w.streams := by rw [hA]
  have hAsock : A.socket = some sock := by rw [hA]; exact hs
  have hAq : A.pendingIceCandidatesRef = [] := by rw [hA]
  obtain ⟨d1, d2, d3, d4, d5, d6, d7, d8, d9⟩ :=
    startCall_completes A { socket := sock, receiverId := rid, currentUserId := uid }
      w.tasks.length ts offer hAm hAt he
  rw [hAl] at d1 d2 d3 d4 d5 d6 d7 d8 d9
  generalize run A [Event.settle w.tasks.length (Outcome.stream ts),
      Event.settle (w.tasks.length + 1) (Outcome.description offer),
      Event.settle (w.tasks.length + 1 + 1) Outcome.resolved] = D at *
  rw [hAc] at d1
  rw [hAo] at d2
  rw [hAp] at d3 d9
  rw [hAlog, hAv, hAp, hAs] at d4
  rw [hAsock] at d6
  rw [hAq] at d7
  have hlog : D.log = w.log ++ [Effect.getUserMedia (toBool (isVideoCall w)),
        Effect.newPeerConnection w.pcs.length] ++
        ts.map (fun t => Effect.addTrack w.pcs.length w.streams.length t.1) ++
        [Effect.createOffer w.pcs.length,
         Effect.setLocalDescription w.pcs.length offer,
         Effect.emit (Msg.callUser rid { type := offer.type, sdp := offer.sdp } uid
           (toBool (isVideoCall w)))] := by
    rw [d4]; simp
  refine ⟨hview, hAc, hAo, d1, d2, hlog, ?_, ?_⟩
  · rw [emitted_eq_sent, emitted_eq_sent, hlog]
    simp only [sent_append, sent_addTracks]
    simp [sent]
  · have hE : step D (Event.callAccepted (some ans)) =
        commit D ((D.record [Effect.setRemoteDescription w.pcs.length (some ans)]).suspend
          (Task.handleCallAccepted_setRemoteDescription w.pcs.length ans)) := by
      simp [step, d5, d6, receive, handleCallAccepted, d3]
    rw [commit_of_mounted _ _ d5 (by simp [World.record, World.suspend])] at hE
    generalize step D (Event.callAccepted (some ans)) = E at *
    have hEt : E.tasks[w.tasks.length + 3]? =
        some (Task.handleCallAccepted_setRemoteDescription w.pcs.length ans) := by
      rw [hE]
      simp only [World.record, World.suspend]
      rw [List.getElem?_append_right (by omega)]
      simp [d8]
    have hEm : E.isUnmountedRef = false := by
      rw [hE]; simpa [World.record, World.suspend] using d5
    have hF : step E (Event.settle (w.tasks.length + 3) Outcome.resolved) =
        commit E (handleCallAccepted_afterSetRemoteDescription w.pcs.length ans
          { E with tasks := E.tasks.set (w.tasks.length + 3) Task.done }) := by
      simp [step, settle, hEt]
    rw [hF, commit_callState _ _ hEm]
    have hEq : E.pendingIceCandidatesRef = [] := by
      rw [hE]; simpa [World.record, World.suspend] using d7
    simp [handleCallAccepted_afterSetRemoteDescription, World.updatePc, hEq,
      handleCallAccepted_drain]

/-- Witness of C20: alice calls bob and bob accepts. -/
theorem c20_outgoing_call_reaches_connected_witness :
    (run callerMount (outgoingCall 0 [(1, false), (2, true)] exampleOffer ++
      acceptance 0 exampleAnswer)).callState = CallState.connected :=
  (c20_outgoing_call_reaches_connected callerMount exampleSocket "bob" "alice"
    [(1, false), (2, true)] exampleOffer exampleAnswer (by decide) (by decide)
    (by decide) (by decide) (by decide) (by decide) (by decide)
    (by decide)).2.2.2.2.2.2.2

/-! ## The drain when the transport rejects candidates (C22) -/

theorem run_drain_answer_tasks (rest : List Candidate) (w : World) (c : AnswerCtx)
    (pc k : Nat) (os : List Outcome)
    (ht : w.tasks[k]? = some (Task.answerCall_addIceCandidate c pc rest))
    (hlen : os.length = rest.length + 1)
    (hos : ∀ o ∈ os, settlesAddIceCandidate o = true) :
    (run w (Event.settle k (os.headD Outcome.resolved) ::
        settleFrom w.tasks.length os.tail)).tasks.length =
      w.tasks.length + rest.length + 1 ∧
    (run w (Event.settle k (os.headD Outcome.resolved) ::
        settleFrom w.tasks.length os.tail)).tasks[w.tasks.length + rest.length]? =
      some (Task.answerCall_createAnswer c pc) ∧
    (run w (Event.settle k (os.headD Outcome.resolved) ::
        settleFrom w.tasks.length os.tail)).isUnmountedRef = w.isUnmountedRef := by
  have hk : k < w.tasks.length := by
    by_contra h
    rw [List.getElem?_eq_none (by omega)] at ht
    cases ht
  induction rest generalizing w k os with
  | nil =>
    match os, hlen with
    | [o], _ =>
      have ho := hos o (by simp)
      simp only [settleFrom, run, List.foldl, List.headD, List.tail]
      rw [step_drain_answer w c pc k [] o ht ho]
      simp only [commit_tasks, commit_isUnmountedRef, answerCall_drain, World.record,
        World.suspend]
      refine ⟨by simp, ?_, by simp⟩
      rw [List.getElem?_append_right (by simp)]
      simp
  | cons x r ih =>
    match os, hlen with
    | o :: o2 :: os2, hl =>
      have ho := hos o (by simp)
      simp only [settleFrom, run, List.foldl, List.headD, List.tail]
      rw [step_drain_answer w c pc k (x :: r) o ht ho]
      have hl2 : (commit w (answerCall_drain c pc (x :: r)
          { w with tasks := w.tasks.set k Task.done })).tasks.length =
          w.tasks.length + 1 := by
        simp [commit_tasks, answerCall_drain, World.record, World.suspend]
      have := ih
        (commit w (answerCall_drain c pc (x :: r)
          { w with tasks := w.tasks.set k Task.done }))
        w.tasks.length (o2 :: os2)
        (by simp only [commit_tasks, answerCall_drain, World.record, World.suspend]
            exact getElem?_set_append_last _ _ _ _)
        (by simpa using hl) (fun o h => hos o (by simp [h]))
        (by rw [hl2]; omega)
      simp only [run, List.foldl, List.headD, List.tail] at this
      rw [hl2] at this
      obtain ⟨h1, h2, h3⟩ := this
      refine ⟨?_, ?_, ?_⟩
      · rw [h1]; simp; omega
      · rw [← h2]; congr 1; simp; omega
      · rw [h3]
        simp [commit_isUnmountedRef, answerCall_drain, World.record, World.suspend]

theorem run_drain_answer_any (rest : List Candidate) (w : World) (c : AnswerCtx)
    (pc k : Nat) (os os2 : List Outcome)
    (ht : w.tasks[k]? = some (Task.answerCall_addIceCandidate c pc rest))
    (hlen : os.length = rest.length + 1) (hlen2 : os2.length = rest.length + 1)
    (hos : ∀ o ∈ os, settlesAddIceCandidate o = true)
    (hos2 : ∀ o ∈ os2, settlesAddIceCandidate o = true) :
    run w (Event.settle k (os.headD Outcome.resolved) ::
        settleFrom w.tasks.length os.tail) =
      run w (Event.settle k (os2.headD Outcome.resolved) ::
        settleFrom w.tasks.length os2.tail) := by
  induction rest generalizing w k os os2 with
  | nil =>
    match os, hlen, os2, hlen2 with
    | [o], _, [p], _ =>
      simp only [settleFrom, run, List.foldl, List.headD, List.tail]
      rw [step_drain_answer w c pc k [] o ht (hos o (by simp)),
        step_drain_answer w c pc k [] p ht (hos2 p (by simp))]
  | cons x r ih =>
    match os, hlen, os2, hlen2 with
    | o :: o2 :: os3, hl, p :: p2 :: os4, hl2 =>
      simp only [settleFrom, run, List.foldl, List.headD, List.tail]
      rw [step_drain_answer w c pc k (x :: r) o ht (hos o (by simp)),
        step_drain_answer w c pc k (x :: r) p ht (hos2 p (by simp))]
      have hl3 : (commit w (answerCall_drain c pc (x :: r)
          { w with tasks := w.tasks.set k Task.done })).tasks.length =
          w.tasks.length + 1 := by
        simp [commit_tasks, answerCall_drain, World.record, World.suspend]
      have := ih
        (commit w (answerCall_drain c pc (x :: r)
          { w with tasks := w.tasks.set k Task.done }))
        w.tasks.length (o2 :: os3) (p2 :: os4)
        (by simp only [commit_tasks, answerCall_drain, World.record, World.suspend]
            exact getElem?_set_append_last _ _ _ _)
        (by simpa using hl) (by simpa using hl2)
        (fun o h => hos o (by simp [h])) (fun o h => hos2 o (by simp [h]))
      simp only [run, List.foldl, List.headD, List.tail] at this
      rw [hl3] at this
      exact this

theorem run_drain_accepted_any (rest : List Candidate) (w : World)
    (pc k : Nat) (os os2 : List Outcome)
    (ht : w.tasks[k]? = some (Task.handleCallAccepted_addIceCandidate pc rest))
    (hlen : os.length = rest.length + 1) (hlen2 : os2.length = rest.length + 1)
    (hos : ∀ o ∈ os, settlesAddIceCandidate o = true)
    (hos2 : ∀ o ∈ os2, settlesAddIceCandidate o = true) :
    run w (Event.settle k (os.headD Outcome.resolved) ::
        settleFrom w.tasks.length os.tail) =
      run w (Event.settle k (os2.headD Outcome.resolved) ::
        settleFrom w.tasks.length os2.tail) := by
  induction rest generalizing w k os os2 with
  | nil =>
    match os, hlen, os2, hlen2 with
    | [o], _, [p], _ =>
      simp only [settleFrom, run, List.foldl, List.headD, List.tail]
      rw [step_drain_accepted w pc k [] o ht (hos o (by simp)),
        step_drain_accepted w pc k [] p ht (hos2 p (by simp))]
  | cons x r ih =>
    match os, hlen, os2, hlen2 with
    | o :: o2 :: os3, hl, p :: p2 :: os4, hl2 =>
      simp only [settleFrom, run, List.foldl, List.headD, List.tail]
      rw [step_drain_accepted w pc k (x :: r) o ht (hos o (by simp)),
        step_drain_accepted w pc k (x :: r) p ht (hos2 p (by simp))]
      have hl3 : (commit w (handleCallAccepted_drain pc (x :: r)
          { w with tasks := w.tasks.set k Task.done })).tasks.length =
          w.tasks.length + 1 := by
        simp [commit_tasks, handleCallAccepted_drain, World.record, World.suspend]
      have := ih
        (commit w (handleCallAccepted_drain pc (x :: r)
          { w with tasks := w.tasks.set k Task.done }))
        w.tasks.length (o2 :: os3) (p2 :: os4)
        (by simp only [commit_tasks, handleCallAccepted_drain, World.record,
              World.suspend]
            exact getElem?_set_append_last _ _ _ _)
        (by simpa using hl) (by simpa using hl2)
        (fun o h => hos o (by simp [h])) (fun o h => hos2 o (by simp [h]))
      simp only [run, List.foldl, List.headD, List.tail] at this
      rw [hl3] at this
      exact this

/-- `answerCall` from its suspended `setRemoteDescription` to its call of
`createAnswer`. -/
theorem run_answer_offer_applied (w : World) (c : AnswerCtx) (pc k : Nat)
    (os : List Outcome)
    (ht : w.tasks[k]? = some (Task.answerCall_setRemoteDescription c pc))
    (hlen : os.length =
      (w.preConnectionIceQueueRef ++ w.pendingIceCandidatesRef).length)
    (hos : ∀ o ∈ os, settlesAddIceCandidate o = true) :
    (run w (Event.settle k Outcome.resolved :: settleFrom w.tasks.length os)).log =
      w.log ++
        (w.preConnectionIceQueueRef ++ w.pendingIceCandidatesRef).map
          (Effect.addIceCandidate pc) ++ [Effect.createAnswer pc] ∧
    (run w (Event.settle k Outcome.resolved ::
        settleFrom w.tasks.length os)).preConnectionIceQueueRef = [] ∧
    (run w (Event.settle k Outcome.resolved ::
        settleFrom w.tasks.length os)).pendingIceCandidatesRef = [] ∧
    (run w (Event.settle k Outcome.resolved ::
        settleFrom w.tasks.length os)).tasks.length = w.tasks.length + os.length + 1 ∧
    (run w (Event.settle k Outcome.resolved ::
        settleFrom w.tasks.length os)).tasks[w.tasks.length + os.length]? =
      some (Task.answerCall_createAnswer c pc) ∧
    (run w (Event.settle k Outcome.resolved ::
        settleFrom w.tasks.length os)).isUnmountedRef = w.isUnmountedRef := by
  have hstep : step w (Event.settle k Outcome.resolved) =
      commit w (answerCall_afterSetRemoteDescription c pc
        { w with tasks := w.tasks.set k Task.done }) := by
    simp [step, settle, ht]
  rw [run_cons, hstep]
  generalize hQ : w.preConnectionIceQueueRef ++ w.pendingIceCandidatesRef = Q at *
  cases Q with
  | nil =>
    have : os = [] := by simpa using hlen
    subst this
    simp only [settleFrom, run, List.foldl, answerCall_afterSetRemoteDescription, hQ,
      answerCall_drain, commit_log, commit_pending, commit_pre, commit_tasks,
      commit_isUnmountedRef, World.updatePc, World.record, World.suspend]
    refine ⟨by simp, trivial, trivial, by simp, ?_, trivial⟩
    simp
  | cons x rest =>
    match os, hlen with
    | o :: os2, hl =>
      have htk : (commit w (answerCall_afterSetRemoteDescription c pc
          { w with tasks := w.tasks.set k Task.done })).tasks[w.tasks.length]? =
          some (Task.answerCall_addIceCandidate c pc rest) := by
        simp only [commit_tasks, answerCall_afterSetRemoteDescription,
          World.updatePc, hQ, answerCall_drain, World.record, World.suspend]
        exact getElem?_set_append_last _ _ _ _
      have hdr := run_drain_answer rest
        (commit w (answerCall_afterSetRemoteDescription c pc
          { w with tasks := w.tasks.set k Task.done }))
        c pc w.tasks.length (o :: os2) htk (by simpa using hl) hos
      have hdt := run_drain_answer_tasks rest
        (commit w (answerCall_afterSetRemoteDescription c pc
          { w with tasks := w.tasks.set k Task.done }))
        c pc w.tasks.length (o :: os2) htk (by simpa using hl) hos
      have hl2 : (commit w (answerCall_afterSetRemoteDescription c pc
          { w with tasks := w.tasks.set k Task.done })).tasks.length =
          w.tasks.length + 1 := by
        simp [commit_tasks, answerCall_afterSetRemoteDescription, hQ,
          answerCall_drain, World.record, World.suspend, World.updatePc]
      rw [hl2] at hdr hdt
      simp only [List.headD, List.tail] at hdr hdt
      obtain ⟨d1, d2, d3⟩ := hdr
      obtain ⟨t1, t2, t3⟩ := hdt
      have hlr : os2.length = rest.length := by simpa using hl
      simp only [settleFrom]
      refine ⟨?_, ?_, ?_, ?_, ?_, ?_⟩
      · rw [d1]
        simp [commit_log, answerCall_afterSetRemoteDescription, hQ,
          answerCall_drain, World.record, World.suspend, World.updatePc]
      · rw [d3]
        simp [commit_pre, answerCall_afterSetRemoteDescription, hQ,
          answerCall_drain, World.record, World.suspend, World.updatePc]
      · rw [d2]
        simp [commit_pending, answerCall_afterSetRemoteDescription, hQ,
          answerCall_drain, World.record, World.suspend, World.updatePc]
      · rw [t1]; simp [hlr]; omega
      · rw [← t2]; congr 1; simp [hlr]; omega
      · rw [t3]
        simp [commit_isUnmountedRef, answerCall_afterSetRemoteDescription, hQ,
          answerCall_drain, World.record, World.suspend, World.updatePc]

/-- `handleCallAccepted` from its suspended `setRemoteDescription` to its
end. -/
theorem run_accepted_answer_applied (w : World) (pc k : Nat) (sig : Sdp)
    (os : List Outcome) (hm : w.isUnmountedRef = false)
    (ht : w.tasks[k]? = some (Task.handleCallAccepted_setRemoteDescription pc sig))
    (hlen : os.length = w.pendingIceCandidatesRef.length)
    (hos : ∀ o ∈ os, settlesAddIceCandidate o = true) :
    (run w (Event.settle k Outcome.resolved :: settleFrom w.tasks.length os)).log =
      w.log ++ w.pendingIceCandidatesRef.map (Effect.addIceCandidate pc) ∧
    (run w (Event.settle k Outcome.resolved ::
        settleFrom w.tasks.length os)).pendingIceCandidatesRef = [] ∧
    (run w (Event.settle k Outcome.resolved ::
        settleFrom w.tasks.length os)).callState = CallState.connected := by
  rw [run_cons, step_setRemoteDescription_resolved w pc k sig ht]
  generalize hQ : w.pendingIceCandidatesRef = Q at *
  cases Q with
  | nil =>
    have : os = [] := by simpa using hlen
    subst this
    simp [settleFrom, run, handleCallAccepted_afterSetRemoteDescription, hQ,
      handleCallAccepted_drain, commit_log, commit_pending, commit_callState, hm,
      World.updatePc]
  | cons x rest =>
    match os, hlen with
    | o :: os2, hl =>
      have hdr := run_drain_accepted rest
        (commit w (handleCallAccepted_afterSetRemoteDescription pc sig
          { w with tasks := w.tasks.set k Task.done }))
        pc w.tasks.length (o :: os2)
        (by simp [commit_isUnmountedRef, hm,
              handleCallAccepted_afterSetRemoteDescription, hQ,
              handleCallAccepted_drain, World.record, World.suspend, World.updatePc])
        (by simp only [commit_tasks, handleCallAccepted_afterSetRemoteDescription,
              World.updatePc, hQ, handleCallAccepted_drain, World.record,
              World.suspend]
            exact getElem?_set_append_last _ _ _ _)
        (by simpa using hl) hos
      have hl2 : (commit w (handleCallAccepted_afterSetRemoteDescription pc sig
          { w with tasks := w.tasks.set k Task.done })).tasks.length =
          w.tasks.length + 1 := by
        simp [commit_tasks, handleCallAccepted_afterSetRemoteDescription, hQ,
          handleCallAccepted_drain, World.record, World.suspend, World.updatePc]
      rw [hl2] at hdr
      simp only [List.headD, List.tail] at hdr
      obtain ⟨d1, d2, d3⟩ := hdr
      simp only [hQ] at d1 d2 d3
      simp only [settleFrom]
      refine ⟨?_, ?_, d2⟩
      · rw [d1]
        simp [commit_log, handleCallAccepted_afterSetRemoteDescription, hQ,
          handleCallAccepted_drain, World.record, World.suspend, World.updatePc]
      · rw [d3]
        simp [commit_pending, handleCallAccepted_afterSetRemoteDescription, hQ,
          handleCallAccepted_drain, World.record, World.suspend, World.updatePc]

theorem settles_replicate (n : Nat) :
    ∀ o ∈ List.replicate n Outcome.resolved, settlesAddIceCandidate o = true := by
  intro o ho
  rw [List.eq_of_mem_replicate ho]
  rfl

/-- C22. Let `handleCallAccepted` or `answerCall` be suspended at its
`setRemoteDescription` (task `k`), and let the transport answer the calls of
`addIceCandidate` of the drain with `os`, each a success or a rejection. The
world reached is the one reached when every call succeeds; every candidate of
the queue (pending queue; for `answerCall` the pre-session queue followed by
the pending queue) was passed to the transport, in queue order; the queues are
empty; and the function went on: `handleCallAccepted` to Connected,
`answerCall` to `createAnswer`. -/
theorem c22_rejected_candidates_do_not_abort_the_drain (w : World) (k : Nat)
    (os : List Outcome) (hos : ∀ o ∈ os, settlesAddIceCandidate o = true) :
    (∀ pc sig, w.isUnmountedRef = false →
      w.tasks[k]? = some (Task.handleCallAccepted_setRemoteDescription pc sig) →
      os.length = w.pendingIceCandidatesRef.length →
      run w (Event.settle k Outcome.resolved :: settleFrom w.tasks.length os) =
        run w (Event.settle k Outcome.resolved ::
          settleFrom w.tasks.length (List.replicate os.length Outcome.resolved)) ∧
      (run w (Event.settle k Outcome.resolved ::
          settleFrom w.tasks.length os)).log =
        w.log ++ w.pendingIceCandidatesRef.map (Effect.addIceCandidate pc) ∧
      (run w (Event.settle k Outcome.resolved ::
          settleFrom w.tasks.length os)).pendingIceCandidatesRef = [] ∧
      (run w (Event.settle k Outcome.resolved ::
          settleFrom w.tasks.length os)).callState = CallState.connected) ∧
    (∀ c pc,
      w.tasks[k]? = some (Task.answerCall_setRemoteDescription c pc) →
      os.length =
        (w.preConnectionIceQueueRef ++ w.pendingIceCandidatesRef).length →
      run w (Event.settle k Outcome.resolved :: settleFrom w.tasks.length os) =
        run w (Event.settle k Outcome.resolved ::
          settleFrom w.tasks.length (List.replicate os.length Outcome.resolved)) ∧
      (run w (Event.settle k Outcome.resolved ::
          settleFrom w.tasks.length os)).log =
        w.log ++
          (w.preConnectionIceQueueRef ++ w.pendingIceCandidatesRef).map
            (Effect.addIceCandidate pc) ++ [Effect.createAnswer pc] ∧
      (run w (Event.settle k Outcome.resolved ::
          settleFrom w.tasks.length os)).preConnectionIceQueueRef = [] ∧
      (run w (Event.settle k Outcome.resolved ::
          settleFrom w.tasks.length os)).pendingIceCandidatesRef = []) := by
  constructor
  · intro pc sig hm ht hlen
    obtain ⟨a1, a2, a3⟩ := run_accepted_answer_applied w pc k sig os hm ht hlen hos
    refine ⟨?_, a1, a2, a3⟩
    rw [run_cons, run_cons, step_setRemoteDescription_resolved w pc k sig ht]
    match os, hlen, hos with
    | [], _, _ => rfl
    | o :: os2, hl, hos =>
      have hQ : w.pendingIceCandidatesRef =
          w.pendingIceCandidatesRef.head! :: w.pendingIceCandidatesRef.tail := by
        cases hq : w.pendingIceCandidatesRef with
        | nil => rw [hq] at hl; simp at hl
        | cons x r => rfl
      have hl2 : (commit w (handleCallAccepted_afterSetRemoteDescription pc sig
          { w with tasks := w.tasks.set k Task.done })).tasks.length =
          w.tasks.length + 1 := by
        rw [commit_tasks]
        simp only [handleCallAccepted_afterSetRemoteDescription, World.updatePc]
        rw [hQ]
        simp [handleCallAccepted_drain, World.record, World.suspend]
      have := run_drain_accepted_any w.pendingIceCandidatesRef.tail
        (commit w (handleCallAccepted_afterSetRemoteDescription pc sig
          { w with tasks := w.tasks.set k Task.done }))
        pc w.tasks.length (o :: os2)
        (List.replicate (o :: os2).length Outcome.resolved)
        (by rw [commit_tasks]
            simp only [handleCallAccepted_afterSetRemoteDescription, World.updatePc]
            rw [hQ]
            simp only [handleCallAccepted_drain, World.record, World.suspend,
              List.tail_cons]
            exact getElem?_set_append_last _ _ _ _)
        (by rw [hl, List.length_tail]
            have : 0 < w.pendingIceCandidatesRef.length := by rw [← hl]; simp
            omega)
        (by rw [List.length_replicate, hl, List.length_tail]
            have : 0 < w.pendingIceCandidatesRef.length := by rw [← hl]; simp
            omega)
        hos (settles_replicate _)
      rw [hl2] at this
      simpa [settleFrom, List.replicate_succ] using this
  · intro c pc ht hlen
    obtain ⟨a1, a2, a3, _, _, _⟩ := run_answer_offer_applied w c pc k os ht hlen hos
    refine ⟨?_, a1, a2, a3⟩
    have hstep : step w (Event.settle k Outcome.resolved) =
        commit w (answerCall_afterSetRemoteDescription c pc
          { w with tasks := w.tasks.set k Task.done }) := by
      simp [step, settle, ht]
    rw [run_cons, run_cons, hstep]
    generalize hQd : w.preConnectionIceQueueRef ++ w.pendingIceCandidatesRef = Q at *
    match os, hlen, hos with
    | [], _, _ => rfl
    | o :: os2, hl, hos =>
      cases Q with
      | nil => simp at hl
      | cons x rest =>
        have hl2 : (commit w (answerCall_afterSetRemoteDescription c pc
            { w with tasks := w.tasks.set k Task.done })).tasks.length =
            w.tasks.length + 1 := by
          simp [commit_tasks, answerCall_afterSetRemoteDescription, hQd,
            answerCall_drain, World.record, World.suspend, World.updatePc]
        have := run_drain_answer_any rest
          (commit w (answerCall_afterSetRemoteDescription c pc
            { w with tasks := w.tasks.set k Task.done }))
          c pc w.tasks.length (o :: os2)
          (List.replicate (o :: os2).length Outcome.resolved)
          (by simp only [commit_tasks, answerCall_afterSetRemoteDescription,
                World.updatePc, hQd, answerCall_drain, World.record, World.suspend]
              exact getElem?_set_append_last _ _ _ _)
          (by simpa using hl) (by simpa using hl)
          hos (settles_replicate _)
        rw [hl2] at this
        simpa [settleFrom, List.replicate_succ] using this

/-- Witness of C22: the transport refuses candidate 8 of bob's queues 7, 8, 9. -/
theorem c22_rejected_candidates_do_not_abort_the_drain_witness :
    (run answeringWorld
      [Event.settle 1 Outcome.resolved, Event.settle 2 Outcome.resolved,
       Event.settle 3 (Outcome.rejected badCandidate),
       Event.settle 4 Outcome.resolved]).log =
      answeringWorld.log ++
        [Effect.addIceCandidate 0 7, Effect.addIceCandidate 0 8,
         Effect.addIceCandidate 0 9, Effect.createAnswer 0] :=
  ((c22_rejected_candidates_do_not_abort_the_drain answeringWorld 1
      [Outcome.resolved, Outcome.rejected badCandidate, Outcome.resolved]
      (by decide)).2 answeringCtx 0 (by decide) (by decide)).2.1

/-! ## The remote stream (C23, C24) -/

theorem ontrackUpdater_eq (ev : TrackEvent) (prev : Option (List RemoteTrack)) :
    ontrackUpdater ev prev =
      (offeredTracks ev).foldl addIfNewId ((prev.getD []).foldl addTrack []) := by
  unfold ontrackUpdater offeredTracks
  cases ev.firstStream with
  | some ts => rfl
  | none =>
    cases ev.track with
    | some t => rfl
    | none => rfl

theorem addTrack_cases (nx : List RemoteTrack) (t : RemoteTrack) :
    (addTrack nx t = nx ∧ ∃ x ∈ nx, x.obj = t.obj) ∨
    (addTrack nx t = nx ++ [t] ∧ ∀ x ∈ nx, x.obj ≠ t.obj) := by
  unfold addTrack
  split
  · rename_i h
    left
    simpa using h
  · rename_i h
    right
    simpa using h

theorem addIfNewId_cases (nx : List RemoteTrack) (t : RemoteTrack) :
    (addIfNewId nx t = nx ∧ ((∃ x ∈ nx, x.id = t.id) ∨ ∃ x ∈ nx, x.obj = t.obj)) ∨
    (addIfNewId nx t = nx ++ [t] ∧ (∀ x ∈ nx, x.id ≠ t.id) ∧
      ∀ x ∈ nx, x.obj ≠ t.obj) := by
  unfold addIfNewId
  split
  · rename_i h
    have h' : ∀ x ∈ nx, x.id ≠ t.id := by simpa using h
    rcases addTrack_cases nx t with ⟨e, h2⟩ | ⟨e, h2⟩
    · exact Or.inl ⟨e, Or.inr h2⟩
    · exact Or.inr ⟨e, h', h2⟩
  · rename_i h
    left
    refine ⟨rfl, Or.inl ?_⟩
    simpa using h

theorem objNodup_snoc (nx : List RemoteTrack) (t : RemoteTrack) (h : ObjNodup nx)
    (h2 : ∀ x ∈ nx, x.obj ≠ t.obj) : ObjNodup (nx ++ [t]) := by
  unfold ObjNodup at *
  simp only [List.map_append, List.map_cons, List.map_nil]
  apply List.Nodup.append h (by simp)
  intro a ha hb
  simp at ha hb
  obtain ⟨x, hx, rfl⟩ := ha
  exact h2 x hx hb

theorem idNodup_snoc (nx : List RemoteTrack) (t : RemoteTrack) (h : IdNodup nx)
    (h2 : ∀ x ∈ nx, x.id ≠ t.id) : IdNodup (nx ++ [t]) := by
  unfold IdNodup at *
  simp only [List.map_append, List.map_cons, List.map_nil]
  apply List.Nodup.append h (by simp)
  intro a ha hb
  simp at ha hb
  obtain ⟨x, hx, rfl⟩ := ha
  exact h2 x hx hb

theorem objNodup_addTrack (nx : List RemoteTrack) (t : RemoteTrack)
    (h : ObjNodup nx) : ObjNodup (addTrack nx t) := by
  rcases addTrack_cases nx t with ⟨e, _⟩ | ⟨e, h2⟩
  · rw [e]; exact h
  · rw [e]; exact objNodup_snoc nx t h h2

theorem objNodup_copy (l acc : List RemoteTrack) (h : ObjNodup acc) :
    ObjNodup (l.foldl addTrack acc) := by
  induction l generalizing acc with
  | nil => exact h
  | cons t l ih => exact ih _ (objNodup_addTrack acc t h)

theorem objNodup_addIfNewId (nx : List RemoteTrack) (t : RemoteTrack)
    (h : ObjNodup nx) : ObjNodup (addIfNewId nx t) := by
  rcases addIfNewId_cases nx t with ⟨e, _⟩ | ⟨e, _, h2⟩
  · rw [e]; exact h
  · rw [e]; exact objNodup_snoc nx t h h2

theorem idNodup_addIfNewId (nx : List RemoteTrack) (t : RemoteTrack)
    (h : IdNodup nx) : IdNodup (addIfNewId nx t) := by
  rcases addIfNewId_cases nx t with ⟨e, _⟩ | ⟨e, h1, _⟩
  · rw [e]; exact h
  · rw [e]; exact idNodup_snoc nx t h h1

theorem objNodup_foldl (ts nx : List RemoteTrack) (h : ObjNodup nx) :
    ObjNodup (ts.foldl addIfNewId nx) := by
  induction ts generalizing nx with
  | nil => exact h
  | cons t ts ih => exact ih _ (objNodup_addIfNewId nx t h)

theorem idNodup_foldl (ts nx : List RemoteTrack) (h : IdNodup nx) :
    IdNodup (ts.foldl addIfNewId nx) := by
  induction ts generalizing nx with
  | nil => exact h
  | cons t ts ih => exact ih _ (idNodup_addIfNewId nx t h)

theorem copy_of_nodup (l acc : List RemoteTrack) (h : ObjNodup (acc ++ l)) :
    l.foldl addTrack acc = acc ++ l := by
  induction l generalizing acc with
  | nil => simp
  | cons t l ih =>
    simp only [List.foldl]
    rcases addTrack_cases acc t with ⟨_, x, hx, hxo⟩ | ⟨e, _⟩
    · exfalso
      unfold ObjNodup at h
      simp only [List.map_append, List.map_cons] at h
      have := (List.nodup_append.mp h).2.2
      exact this (List.mem_map.mpr ⟨x, hx, rfl⟩) (by simp [hxo])
    · rw [e, ih (acc ++ [t]) (by simpa using h)]
      simp

theorem copy_self (l : List RemoteTrack) (h : ObjNodup l) :
    l.foldl addTrack [] = l := by
  simpa using copy_of_nodup l [] (by simpa using h)

theorem objNodup_ontrackUpdater (ev : TrackEvent) (prev : Option (List RemoteTrack)) :
    ObjNodup (ontrackUpdater ev prev) := by
  rw [ontrackUpdater_eq]
  exact objNodup_foldl _ _ (objNodup_copy _ _ (by simp [ObjNodup]))

theorem idNodup_ontrackUpdater (ev : TrackEvent) (prev : Option (List RemoteTrack))
    (ho : ObjNodup (prev.getD [])) (hi : IdNodup (prev.getD [])) :
    IdNodup (ontrackUpdater ev prev) := by
  rw [ontrackUpdater_eq, copy_self _ ho]
  exact idNodup_foldl _ _ hi

/-- The loop only appends: the result starts with `nx`, and what follows comes
from `ts`. -/
theorem foldl_addIfNewId_extends (ts nx : List RemoteTrack) :
    ∃ extra, ts.foldl addIfNewId nx = nx ++ extra ∧ ∀ x ∈ extra, x ∈ ts := by
  induction ts generalizing nx with
  | nil => exact ⟨[], by simp, by simp⟩
  | cons t ts ih =>
    simp only [List.foldl]
    rcases addIfNewId_cases nx t with ⟨e, _⟩ | ⟨e, _⟩
    · rw [e]
      obtain ⟨extra, h1, h2⟩ := ih nx
      exact ⟨extra, h1, fun x hx => List.mem_cons_of_mem _ (h2 x hx)⟩
    · rw [e]
      obtain ⟨extra, h1, h2⟩ := ih (nx ++ [t])
      refine ⟨t :: extra, by simpa using h1, ?_⟩
      intro x hx
      rcases List.mem_cons.mp hx with h | h
      · rw [h]; exact List.mem_cons_self _ _
      · exact List.mem_cons_of_mem _ (h2 x h)

/-- After the loop each track of `ts` is in the result by id or as an object. -/
theorem foldl_addIfNewId_covers (ts nx : List RemoteTrack) :
    ∀ t ∈ ts, (∃ x ∈ ts.foldl addIfNewId nx, x.id = t.id) ∨
      (∃ x ∈ ts.foldl addIfNewId nx, x.obj = t.obj) := by
  induction ts generalizing nx with
  | nil => intro t ht; cases ht
  | cons u ts ih =>
    intro t ht
    simp only [List.foldl]
    rcases List.mem_cons.mp ht with h | h
    · subst h
      obtain ⟨extra, he, _⟩ := foldl_addIfNewId_extends ts (addIfNewId nx t)
      rw [he]
      rcases addIfNewId_cases nx t with ⟨e, h1 | h1⟩ | ⟨e, _⟩
      · obtain ⟨x, hx, hxi⟩ := h1
        exact Or.inl ⟨x, by rw [e]; exact List.mem_append_left _ hx, hxi⟩
      · obtain ⟨x, hx, hxi⟩ := h1
        exact Or.inr ⟨x, by rw [e]; exact List.mem_append_left _ hx, hxi⟩
      · exact Or.inl ⟨t, by rw [e]; simp, rfl⟩
    · exact ih _ t h

theorem foldl_addIfNewId_fixed (ts r : List RemoteTrack)
    (h : ∀ t ∈ ts, (∃ x ∈ r, x.id = t.id) ∨ (∃ x ∈ r, x.obj = t.obj)) :
    ts.foldl addIfNewId r = r := by
  induction ts with
  | nil => rfl
  | cons t ts ih =>
    simp only [List.foldl]
    rcases addIfNewId_cases r t with ⟨e, _⟩ | ⟨_, h1, h2⟩
    · rw [e]
      exact ih (fun u hu => h u (List.mem_cons_of_mem _ hu))
    · exfalso
      rcases h t (List.mem_cons_self _ _) with ⟨x, hx, hxi⟩ | ⟨x, hx, hxi⟩
      · exact h1 x hx hxi
      · exact h2 x hx hxi

theorem ontrackUpdater_twice (ev : TrackEvent) (prev : Option (List RemoteTrack)) :
    ontrackUpdater ev (some (ontrackUpdater ev prev)) = ontrackUpdater ev prev := by
  have ho := objNodup_ontrackUpdater ev prev
  generalize hs : ontrackUpdater ev prev = s1 at *
  rw [ontrackUpdater_eq, Option.getD_some, copy_self _ ho]
  apply foldl_addIfNewId_fixed
  rw [← hs, ontrackUpdater_eq]
  exact foldl_addIfNewId_covers _ _

theorem remoteAfter_snoc (evs : List TrackEvent) (ev : TrackEvent) :
    remoteAfter (evs ++ [ev]) = some (ontrackUpdater ev (remoteAfter evs)) := by
  simp [remoteAfter, List.foldl_append]

theorem ontrackUpdater_extends (ev : TrackEvent) (prev : Option (List RemoteTrack))
    (ho : ObjNodup (prev.getD [])) :
    ∃ extra, ontrackUpdater ev prev = prev.getD [] ++ extra ∧
      ∀ x ∈ extra, x ∈ offeredTracks ev := by
  rw [ontrackUpdater_eq, copy_self _ ho]
  exact foldl_addIfNewId_extends _ _

theorem ontrackUpdater_covers (ev : TrackEvent) (prev : Option (List RemoteTrack)) :
    ∀ t ∈ offeredTracks ev, (∃ x ∈ ontrackUpdater ev prev, x.id = t.id) ∨
      (∃ x ∈ ontrackUpdater ev prev, x.obj = t.obj) := by
  rw [ontrackUpdater_eq]
  exact foldl_addIfNewId_covers _ _

theorem objNodup_remoteAfter (evs : List TrackEvent) :
    ObjNodup ((remoteAfter evs).getD []) := by
  induction evs using List.reverseRecOn with
  | nil => simp [remoteAfter, ObjNodup]
  | append_singleton evs ev _ =>
    rw [remoteAfter_snoc]
    exact objNodup_ontrackUpdater ev _

theorem idNodup_remoteAfter (evs : List TrackEvent) :
    IdNodup ((remoteAfter evs).getD []) := by
  induction evs using List.reverseRecOn with
  | nil => simp [remoteAfter, IdNodup]
  | append_singleton evs ev ih =>
    rw [remoteAfter_snoc]
    exact idNodup_ontrackUpdater ev _ (objNodup_remoteAfter evs) ih

theorem mem_remoteAfter (evs : List TrackEvent) :
    ∀ x ∈ (remoteAfter evs).getD [], ∃ ev ∈ evs, x ∈ offeredTracks ev := by
  induction evs using List.reverseRecOn with
  | nil => intro x hx; simp [remoteAfter] at hx
  | append_singleton evs ev ih =>
    intro x hx
    rw [remoteAfter_snoc] at hx
    obtain ⟨extra, he, hsub⟩ :=
      ontrackUpdater_extends ev (remoteAfter evs) (objNodup_remoteAfter evs)
    simp only [Option.getD_some] at hx
    rw [he] at hx
    rcases List.mem_append.mp hx with h | h
    · obtain ⟨ev2, hev2, hx2⟩ := ih x h
      exact ⟨ev2, List.mem_append_left _ hev2, hx2⟩
    · exact ⟨ev, by simp, hsub x h⟩

theorem trackIds_mono (evs : List TrackEvent) (ev : TrackEvent) :
    ∀ i ∈ trackIds (remoteAfter evs), i ∈ trackIds (remoteAfter (evs ++ [ev])) := by
  intro i hi
  obtain ⟨extra, he, _⟩ :=
    ontrackUpdater_extends ev (remoteAfter evs) (objNodup_remoteAfter evs)
  rw [remoteAfter_snoc]
  simp only [trackIds, Option.getD_some] at hi ⊢
  rw [he, List.map_append]
  exact List.mem_append_left _ hi

theorem offered_in_remoteAfter (evs : List TrackEvent)
    (hc : SameObjectSameId (evs.flatMap offeredTracks)) :
    ∀ ev ∈ evs, ∀ t ∈ offeredTracks ev, t.id ∈ trackIds (remoteAfter evs) := by
  induction evs using List.reverseRecOn with
  | nil => intro ev hev; cases hev
  | append_singleton evs ev ih =>
    have hc0 : SameObjectSameId (evs.flatMap offeredTracks) := by
      intro t ht u hu
      exact hc t (by simp only [List.flatMap_append, List.mem_append]; exact Or.inl ht)
        u (by simp only [List.flatMap_append, List.mem_append]; exact Or.inl hu)
    intro ev2 hev2 t ht
    rcases List.mem_append.mp hev2 with h | h
    · exact trackIds_mono evs ev _ (ih hc0 ev2 h t ht)
    · have h2 : ev2 = ev := by simpa using h
      subst h2
      rw [remoteAfter_snoc]
      simp only [trackIds, Option.getD_some]
      rcases ontrackUpdater_covers ev2 (remoteAfter evs) t ht with
        ⟨x, hx, hxi⟩ | ⟨x, hx, hxo⟩
      · exact List.mem_map.mpr ⟨x, hx, hxi⟩
      · have hx2 : x ∈ (remoteAfter (evs ++ [ev2])).getD [] := by
          rw [remoteAfter_snoc]; exact hx
        obtain ⟨ev3, hev3, hx3⟩ := mem_remoteAfter (evs ++ [ev2]) x hx2
        have := hc x (List.mem_flatMap.mpr ⟨ev3, hev3, hx3⟩) t
          (List.mem_flatMap.mpr ⟨ev2, hev2, ht⟩) hxo
        exact List.mem_map.mpr ⟨x, hx, this⟩

theorem mem_announcedTracks (ev : TrackEvent) (h : TrackInFirstStream ev)
    (t : RemoteTrack) : t ∈ announcedTracks ev ↔ t ∈ offeredTracks ev := by
  unfold announcedTracks offeredTracks
  cases hf : ev.firstStream with
  | none => simp
  | some ts =>
    cases ht : ev.track with
    | none => simp
    | some u =>
      simp only [Option.toList, Option.getD_some, List.singleton_append, List.mem_cons]
      constructor
      · rintro (h1 | h1)
        · rw [h1]; exact h ts u hf ht
        · exact h1
      · exact Or.inr

theorem click_keepsRemote (e : Event) (w : World) : KeepsRemote w (click e w) := by
  unfold click
  split <;> simp [KeepsRemote, onClose, handleCloseEnded, startCall, cancelCall,
    endCall, rejectCall, answerCall, resetCall_eq, notifyPeer_eq, World.record,
    World.suspend]
  all_goals (split <;> simp)

theorem receive_keepsRemote (e : Event) (w : World) :
    KeepsRemote w (receive e w) := by
  unfold receive
  split <;> simp [KeepsRemote, handleIncomingCall, handleCallAccepted,
    handleIceCandidate, handleCallEnded, handleCallRejected, handleCallFailed,
    resetCall_eq, World.record, World.suspend]
  all_goals (repeat' split) <;> simp

theorem settle_keepsRemote (k : Nat) (o : Outcome) (w : World) :
    KeepsRemote w (settle k o w) := by
  unfold settle
  split
  · exact Or.inl rfl
  · split <;> simp [KeepsRemote, startCall_afterGetUserMedia, startCall_catch,
      startCall_afterCreateOffer, startCall_afterSetLocalDescription,
      handleCallAccepted_afterSetRemoteDescription, handleCallAccepted_drain,
      handleCallAccepted_catch, answerCall_afterGetUserMedia, answerCall_catch,
      answerCall_afterSetRemoteDescription, answerCall_drain,
      answerCall_afterCreateAnswer, answerCall_afterSetLocalDescription,
      installMedia, rejectCall, emit, resetCall_eq, notifyPeer_eq, World.record,
      World.suspend, World.updatePc]
    all_goals (repeat' split) <;> simp

theorem commit_remoteStream (a b : World) :
    (commit a b).remoteStream =
      if a.isUnmountedRef then a.remoteStream else b.remoteStream := by
  unfold commit
  split
  · rfl
  · simp only []
    split <;> rfl

theorem remoteDistinct_commit (w b : World) (h : RemoteDistinct w)
    (hb : KeepsRemote w b ∨ ∃ ev, b.remoteStream = some (ontrackUpdater ev w.remoteStream)) :
    RemoteDistinct (commit w b) := by
  unfold RemoteDistinct
  rw [commit_remoteStream]
  split
  · exact h
  · rcases hb with (hb | hb) | ⟨ev, hb⟩
    · rw [hb]; exact h
    · rw [hb]; simp [ObjNodup, IdNodup]
    · rw [hb]
      exact ⟨objNodup_ontrackUpdater ev _, idNodup_ontrackUpdater ev _ h.1 h.2⟩

theorem step_remoteDistinct (w : World) (e : Event) (h : RemoteDistinct w) :
    RemoteDistinct (step w e) := by
  cases e with
  | settle k o => exact remoteDistinct_commit w _ h (Or.inl (settle_keepsRemote k o w))
  | unmount =>
    simp only [step, unmountCleanup_eq]
    split
    · exact h
    · split <;> exact h
  | track pc ev =>
    simp only [step]
    split
    · exact remoteDistinct_commit w _ h (Or.inr ⟨ev, rfl⟩)
    · exact h
  | localCandidate pc c =>
    simp only [step]
    split
    · apply remoteDistinct_commit w _ h
      left
      simp only [onicecandidate]
      split
      · simp [KeepsRemote, emit, World.record]
      · exact Or.inl rfl
    · exact h
  | connectionState pc st =>
    simp only [step]
    split
    · apply remoteDistinct_commit w _ h
      left
      simp only [onconnectionstatechange]
      split
      · split
        · simp [KeepsRemote, resetCall_eq]
        · exact Or.inl rfl
      · exact Or.inl rfl
    · exact h
  | setOutgoingCallTarget t =>
    simp only [step]
    split
    · exact h
    · exact remoteDistinct_commit w _ h (Or.inl (Or.inl rfl))
  | incomingCall p =>
    simp only [step]
    split
    · exact h
    · exact remoteDistinct_commit w _ h (Or.inl (receive_keepsRemote _ w))
  | callAccepted p =>
    simp only [step]
    split
    · exact h
    · exact remoteDistinct_commit w _ h (Or.inl (receive_keepsRemote _ w))
  | iceCandidate p =>
    simp only [step]
    split
    · exact h
    · exact remoteDistinct_commit w _ h (Or.inl (receive_keepsRemote _ w))
  | callEnded =>
    simp only [step]
    split
    · exact h
    · exact remoteDistinct_commit w _ h (Or.inl (receive_keepsRemote _ w))
  | callRejected =>
    simp only [step]
    split
    · exact h
    · exact remoteDistinct_commit w _ h (Or.inl (receive_keepsRemote _ w))
  | callFailed p =>
    simp only [step]
    split
    · exact h
    · exact remoteDistinct_commit w _ h (Or.inl (receive_keepsRemote _ w))
  | _ =>
    simp only [step]
    split
    · exact h
    · exact remoteDistinct_commit w _ h (Or.inl (click_keepsRemote _ w))

theorem run_remoteDistinct (es : List Event) (w : World) (h : RemoteDistinct w) :
    RemoteDistinct (run w es) := by
  induction es generalizing w with
  | nil => exact h
  | cons e es ih =>
    rw [run_cons]
    exact ih _ (step_remoteDistinct w e h)

theorem reachable_remoteDistinct (w : World) (h : Reachable w) : RemoteDistinct w := by
  obtain ⟨s, u, r, n, v, t, es, rfl⟩ := h
  apply run_remoteDistinct
  simp [RemoteDistinct, World.mount, ObjNodup, IdNodup]

theorem step_track_twice (w : World) (pc : Nat) (ev : TrackEvent) :
    step (step w (Event.track pc ev)) (Event.track pc ev) =
      step w (Event.track pc ev) := by
  cases ho : isOpen w pc
  · simp [step, ho]
  · cases hm : w.isUnmountedRef
    · have h1 : step w (Event.track pc ev) =
          { ontrack ev w with localStreamRef := w.localStream } := by
        simp only [step, ho, if_true]
        exact commit_of_mounted _ _ hm rfl
      have ho2 : isOpen (step w (Event.track pc ev)) pc = true := by
        rw [h1]; simpa [isOpen, ontrack] using ho
      have hm2 : (step w (Event.track pc ev)).isUnmountedRef = false := by
        rw [h1]; exact hm
      generalize step w (Event.track pc ev) = v at *
      simp only [step, ho2, if_true]
      rw [commit_of_mounted v (ontrack ev v) hm2 rfl]
      subst h1
      simp [ontrack, ontrackUpdater_twice]
    · have h1 : step w (Event.track pc ev) = w := by
        simp only [step, ho, if_true]
        cases w
        simp_all [commit, ontrack]
      rw [h1, h1]

theorem run_tracks (evs : List TrackEvent) (w : World) (pc : Nat)
    (hm : w.isUnmountedRef = false) (ho : isOpen w pc = true) :
    (run w (evs.map (Event.track pc))).remoteStream =
      evs.foldl (fun s ev => some (ontrackUpdater ev s)) w.remoteStream := by
  induction evs generalizing w with
  | nil => rfl
  | cons ev evs ih =>
    have h1 : step w (Event.track pc ev) =
        { ontrack ev w with localStreamRef := w.localStream } := by
      simp only [step, ho, if_true]
      exact commit_of_mounted _ _ hm rfl
    simp only [List.map_cons, run_cons, List.foldl]
    rw [ih (step w (Event.track pc ev)) (by rw [h1]; exact hm)
      (by rw [h1]; simpa [isOpen, ontrack] using ho), h1]
    rfl

/-- C23. Starting with no remote stream, after every sequence of track events
no two tracks of the remote stream have the same id, and the same holds for the
remote stream of every reachable world. Running the updater of `ontrack` a
second time with the same event returns the stream it returned the first time,
so delivering a track event twice leaves the tracks as after delivering it
once. -/
theorem c23_remote_stream_has_no_duplicate_ids :
    (∀ evs : List TrackEvent, (trackIds (remoteAfter evs)).Nodup) ∧
    (∀ w : World, Reachable w → (trackIds w.remoteStream).Nodup) ∧
    (∀ (ev : TrackEvent) (prev : Option (List RemoteTrack)),
      ontrackUpdater ev (some (ontrackUpdater ev prev)) = ontrackUpdater ev prev) ∧
    (∀ (evs : List TrackEvent) (ev : TrackEvent),
      remoteAfter (evs ++ [ev, ev]) = remoteAfter (evs ++ [ev])) ∧
    (∀ (w : World) (pc : Nat) (ev : TrackEvent),
      step (step w (Event.track pc ev)) (Event.track pc ev) =
        step w (Event.track pc ev)) := by
  refine ⟨idNodup_remoteAfter, fun w hw => (reachable_remoteDistinct w hw).2,
    ontrackUpdater_twice, ?_, step_track_twice⟩
  intro evs ev
  have : evs ++ [ev, ev] = (evs ++ [ev]) ++ [ev] := by simp
  rw [this, remoteAfter_snoc, remoteAfter_snoc, ontrackUpdater_twice]

/-- C24. Let one object have one id among the tracks of the events `evs`.
Starting with no remote stream, after `evs` the ids in the remote stream are
exactly the ids of the tracks the updater was offered (those of the first
stream of an event, or its track when it carries no stream); when the track of
each event belongs to its first stream, these are exactly the ids of the
tracks the events announce (each event's track and the tracks of its first
stream). An id that is in the stream is still in it after one more event. The
remote stream of a mounted component with an open session and no remote stream
is, after the track events `evs`, this stream. -/
theorem c24_remote_stream_holds_the_announced_tracks (evs : List TrackEvent)
    (hc : SameObjectSameId (evs.flatMap offeredTracks)) :
    (∀ i, i ∈ trackIds (remoteAfter evs) ↔
      ∃ ev ∈ evs, ∃ t ∈ offeredTracks ev, t.id = i) ∧
    ((∀ ev ∈ evs, TrackInFirstStream ev) →
      ∀ i, i ∈ trackIds (remoteAfter evs) ↔
        ∃ ev ∈ evs, ∃ t ∈ announcedTracks ev, t.id = i) ∧
    (∀ ev, ∀ i ∈ trackIds (remoteAfter evs),
      i ∈ trackIds (remoteAfter (evs ++ [ev]))) ∧
    (∀ (w : World) (pc : Nat), w.isUnmountedRef = false → isOpen w pc = true →
      w.remoteStream = none →
      (run w (evs.map (Event.track pc))).remoteStream = remoteAfter evs) := by
  have h1 : ∀ i, i ∈ trackIds (remoteAfter evs) ↔
      ∃ ev ∈ evs, ∃ t ∈ offeredTracks ev, t.id = i := by
    intro i
    constructor
    · intro hi
      obtain ⟨x, hx, rfl⟩ := List.mem_map.mp hi
      obtain ⟨ev, hev, hxe⟩ := mem_remoteAfter evs x hx
      exact ⟨ev, hev, x, hxe, rfl⟩
    · rintro ⟨ev, hev, t, ht, rfl⟩
      exact offered_in_remoteAfter evs hc ev hev t ht
  refine ⟨h1, ?_, trackIds_mono evs, ?_⟩
  · intro hw i
    rw [h1]
    constructor
    · rintro ⟨ev, hev, t, ht, rfl⟩
      exact ⟨ev, hev, t, (mem_announcedTracks ev (hw ev hev) t).mpr ht, rfl⟩
    · rintro ⟨ev, hev, t, ht, rfl⟩
      exact ⟨ev, hev, t, (mem_announcedTracks ev (hw ev hev) t).mp ht, rfl⟩
  · intro w pc hm ho hr
    rw [run_tracks evs w pc hm ho, hr]
    rfl

/-- Witness of C24: audio and video announced in one stream, then a third track
in no stream. -/
theorem c24_remote_stream_holds_the_announced_tracks_witness :
    trackIds (remoteAfter exampleTrackEvents) = [1, 2, 3] ∧
    ∀ i, i ∈ trackIds (remoteAfter exampleTrackEvents) ↔
      ∃ ev ∈ exampleTrackEvents, ∃ t ∈ offeredTracks ev, t.id = i :=
  ⟨by decide,
    (c24_remote_stream_holds_the_announced_tracks exampleTrackEvents (by decide)).1⟩

/-! ## Unmounting during a call (C25) -/

/-- C25. In every reachable world with the component mounted, `callState`
Calling, Ringing or Connected, a socket and a recorded remote party `p`, the
unmount does one `socket.emit` of `end-call` to `p` followed by the close of
the transport session and the stop of the tracks of the local stream; the
message is emitted when the emit does not throw, and the release is the same
when it throws. Afterwards `pcRef` is null, the session it held is closed, both
candidate queues are empty and every track of the local stream is stopped. -/
theorem c25_unmount_notifies_and_releases (w : World) (sock : Socket) (p : String)
    (hw : Reachable w) (hm : w.isUnmountedRef = false)
    (ha : w.callState ∈ ACTIVE_CALL_STATES)
    (hs : w.socket = some sock) (hp : w.otherPeerUserIdRef = some p) (hne : p ≠ "") :
    (step w Event.unmount).log =
      w.log ++ [emitEffect sock (Msg.endCall p)] ++ resetEffects w ∧
    (sock.emitError = none →
      emitted (step w Event.unmount) = emitted w ++ [Msg.endCall p]) ∧
    (sock.emitError ≠ none → emitted (step w Event.unmount) = emitted w) ∧
    (step w Event.unmount).pcRef = none ∧
    (∀ pc, w.pcRef = some pc → isOpen (step w Event.unmount) pc = false) ∧
    (step w Event.unmount).pendingIceCandidatesRef = [] ∧
    (step w Event.unmount).preConnectionIceQueueRef = [] ∧
    (∀ s, w.localStream = some s → allStopped (step w Event.unmount) s = true) ∧
    (step w Event.unmount).localStreamRef = none ∧
    (step w Event.unmount).isUnmountedRef = true := by
  have hin : w.inCallRef = true := by
    rw [(reachable_consistent w hw).2.1 hm]
    simpa [isActive] using ha
  have hr : w.localStreamRef = w.localStream := reachable_rendered w hw hm
  have hn : notifyEffects w.socket w.otherPeerUserIdRef Msg.endCall =
      [emitEffect sock (Msg.endCall p)] := by
    simp [notifyEffects, hs, hp, nonEmpty, hne]
  have hstep : step w Event.unmount =
      { w with isUnmountedRef := true, pcRef := none
               pendingIceCandidatesRef := [], preConnectionIceQueueRef := []
               pcs := closeAt w.pcs w.pcRef
               streams := stopAt w.streams w.localStreamRef
               log := w.log ++ [emitEffect sock (Msg.endCall p)] ++ resetEffects w
               localStreamRef := none } := by
    simp [step, hm, unmountCleanup_eq, hin, hn]
  have hlog : (step w Event.unmount).log =
      w.log ++ [emitEffect sock (Msg.endCall p)] ++ resetEffects w := by
    rw [hstep]
  refine ⟨hlog, ?_, ?_, ?_, ?_, ?_, ?_, ?_, ?_, ?_⟩
  · intro he
    rw [emitted_eq_sent, emitted_eq_sent, hlog, sent_append, sent_append,
      sent_emitEffect sock _ he, sent_resetEffects]
    simp
  · intro he
    rw [emitted_eq_sent, emitted_eq_sent, hlog, sent_append, sent_append,
      sent_emitEffect_threw sock _ he, sent_resetEffects]
    simp
  · rw [hstep]
  · intro pc hpc
    rw [hstep]
    simp [isOpen, hpc, closeAt, getElem?_updateAt]
    cases w.pcs[pc]? <;> simp
  · rw [hstep]
  · rw [hstep]
  · intro s hs2
    rw [hstep]
    simp [allStopped, hr, hs2, stopAt, getElem?_updateAt]
    cases w.streams[s]? <;> simp
  · rw [hstep]
  · rw [hstep]

/-- Witness of C25: alice's component unmounts during her call with bob. -/
theorem c25_unmount_notifies_and_releases_witness :
    emitted (step connectedWorld Event.unmount) =
      emitted connectedWorld ++ [Msg.endCall "bob"] :=
  (c25_unmount_notifies_and_releases connectedWorld exampleSocket "bob"
    ⟨some exampleSocket, some "alice", JsOpt.value "bob", JsOpt.undefined,
      JsOpt.undefined, none,
      [Event.clickStart, Event.settle 0 cam,
       Event.settle 1 (Outcome.description exampleOffer),
       Event.settle 2 Outcome.resolved, Event.callAccepted (some exampleAnswer),
       Event.settle 3 Outcome.resolved], rfl⟩
    (by decide) (by decide) (by decide) (by decide) (by decide)).2.1 (by decide)

/-! ## A failure while answering (C26) -/

/-- C26. Let `answerCall` be suspended at `getUserMedia`, `setRemoteDescription`,
`createAnswer` or `setLocalDescription`, with the caller `s` of the stored
incoming call present. When the awaited operation rejects, what the `catch`
does to the outside world is one `socket.emit` of `reject-call` to `s`,
followed by the effects of `resetCall`; when the emit does not throw, that one
message is what is added to the emitted messages. -/
theorem c26_failed_answer_notifies_the_caller (w : World) (k : Nat) (c : AnswerCtx)
    (s : String) (e : JsError)
    (ht : AnswerCallAwaits w k c) (hs : c.incomingCall.sender = some s)
    (hne : s ≠ "") :
    (step w (Event.settle k (Outcome.rejected e))).log =
      w.log ++ [emitEffect c.socket (Msg.rejectCall s)] ++ resetEffects w ∧
    (c.socket.emitError = none →
      emitted (step w (Event.settle k (Outcome.rejected e))) =
        emitted w ++ [Msg.rejectCall s]) := by
  have hstep : step w (Event.settle k (Outcome.rejected e)) =
      commit w (answerCall_catch c e { w with tasks := w.tasks.set k Task.done }) := by
    rcases ht with h | ⟨pc, h⟩ | ⟨pc, h⟩ | ⟨pc, d, h⟩ <;> simp [step, settle, h]
  have hlog : (step w (Event.settle k (Outcome.rejected e))).log =
      w.log ++ [emitEffect c.socket (Msg.rejectCall s)] ++ resetEffects w := by
    rw [hstep, commit_log]
    simp [answerCall_catch, rejectCall, resetCall_eq, notifyPeer_eq, notifyEffects, hs,
      nonEmpty, hne, resetEffects]
  refine ⟨hlog, ?_⟩
  intro he
  rw [emitted_eq_sent, emitted_eq_sent, hlog, sent_append, sent_append,
    sent_emitEffect _ _ he, sent_resetEffects]
  simp

/-- Witness of C26: the transport refuses alice's offer while bob answers. -/
theorem c26_failed_answer_notifies_the_caller_witness :
    emitted (step answeringWorld (Event.settle 1 (Outcome.rejected badSdp))) =
      emitted answeringWorld ++ [Msg.rejectCall "alice"] :=
  (c26_failed_answer_notifies_the_caller answeringWorld 1 answeringCtx "alice" badSdp
    (Or.inr (Or.inl ⟨0, by decide⟩)) (by decide) (by decide)).2 (by decide)

/-! ## An incoming call in any state (C27) -/

/-- C27. In every world of a mounted component with a socket, whatever its
`callState`, an `incoming-call` message with payload `p` leaves `callState`
Ringing, the remote party `p.from`, and the stored invitation the fields of `p`
with the video flag coerced to a boolean. It adds no effect (no message is
emitted) and leaves the transport session, the sessions that exist, the local
stream, the streams that exist and both candidate queues as they were. -/
theorem c27_incoming_call_is_unconditional (w : World) (p : IncomingCallPayload)
    (hm : w.isUnmountedRef = false) (hs : w.socket ≠ none) :
    (step w (Event.incomingCall p)).callState = CallState.ringing ∧
    (step w (Event.incomingCall p)).otherPeerUserIdRef = p.sender ∧
    (step w (Event.incomingCall p)).incomingCall =
      some { sender := p.sender, fromUsername := p.fromUsername, signal := p.signal
             isVideoCall := p.isVideoCall.getD false } ∧
    (step w (Event.incomingCall p)).log = w.log ∧
    emitted (step w (Event.incomingCall p)) = emitted w ∧
    (step w (Event.incomingCall p)).pcRef = w.pcRef ∧
    (step w (Event.incomingCall p)).pcs = w.pcs ∧
    (step w (Event.incomingCall p)).localStream = w.localStream ∧
    (step w (Event.incomingCall p)).streams = w.streams ∧
    (step w (Event.incomingCall p)).pendingIceCandidatesRef =
      w.pendingIceCandidatesRef ∧
    (step w (Event.incomingCall p)).preConnectionIceQueueRef =
      w.preConnectionIceQueueRef := by
  have h : step w (Event.incomingCall p) = commit w (handleIncomingCall p w) := by
    simp [step, hm, hs, receive]
  rw [h, commit_mounted_eq _ _ hm]
  simp [handleIncomingCall, emitted]

/-- Witness of C27: carol calls alice, who is Connected with bob. -/
theorem c27_incoming_call_is_unconditional_witness :
    (step connectedWorld (Event.incomingCall carolInvite)).callState =
      CallState.ringing :=
  (c27_incoming_call_is_unconditional connectedWorld carolInvite (by decide)
    (by decide)).1

/-! ## The guard of `startCall` (C28) -/

/-- C28. When the socket, the receiver id or the local user id is missing,
`startCall` only sets the error message, Failed, `showEndedModal` and
`hasBeenInCallRef` (which together show the ended modal): no effect is added
(no media acquisition, no message), no function is suspended, and the
transport session, the local stream, the remote party and both candidate
queues are as before. The same holds for the click on the Start button of a
mounted component, after which the ended modal is rendered. -/
theorem c28_startCall_without_user_or_connection (w : World)
    (h : w.socket = none ∨ nonEmpty (receiverId w) = none ∨
      nonEmpty w.currentUserId = none) :
    startCall w =
      { w with errorMessage := some "Cannot start call: missing user or connection"
               callState := CallState.failed, showEndedModal := true
               hasBeenInCallRef := true } ∧
    (startCall w).log = w.log ∧ emitted (startCall w) = emitted w ∧
    (startCall w).tasks = w.tasks ∧
    (startCall w).pcRef = w.pcRef ∧ (startCall w).pcs = w.pcs ∧
    (startCall w).localStream = w.localStream ∧
    (startCall w).streams = w.streams ∧
    (startCall w).otherPeerUserIdRef = w.otherPeerUserIdRef ∧
    (startCall w).pendingIceCandidatesRef = w.pendingIceCandidatesRef ∧
    (startCall w).preConnectionIceQueueRef = w.preConnectionIceQueueRef ∧
    (w.isUnmountedRef = false → view w = View.outgoingPrompt →
      (step w Event.clickStart).callState = CallState.failed ∧
      (step w Event.clickStart).errorMessage =
        some "Cannot start call: missing user or connection" ∧
      view (step w Event.clickStart) = View.endedModal ∧
      (step w Event.clickStart).log = w.log ∧
      (step w Event.clickStart).pcs = w.pcs ∧
      (step w Event.clickStart).streams = w.streams) := by
  have hst : startCall w =
      { w with errorMessage := some "Cannot start call: missing user or connection"
               callState := CallState.failed, showEndedModal := true
               hasBeenInCallRef := true } := by
    unfold startCall
    split
    · rename_i h1 h2 h3
      rcases h with h | h | h
      · rw [h] at h1; cases h1
      · rw [h] at h2; cases h2
      · rw [h] at h3; cases h3
    · rfl
  refine ⟨hst, ?_⟩
  rw [hst]
  refine ⟨rfl, rfl, rfl, rfl, rfl, rfl, rfl, rfl, rfl, rfl, ?_⟩
  intro hm hv
  have hi := view_outgoingPrompt w hv
  have hstep : step w Event.clickStart = commit w (startCall w) := by
    simp [step, hm, click, hv]
  have hsock : w.socket ≠ none := by
    intro hn
    simp [view, hn] at hv
    split at hv <;> cases hv
  rw [hstep, hst, commit_mounted_eq _ _ hm]
  simp [hi, isActive, ACTIVE_CALL_STATES, view, hsock]

/-- Witness of C28: the click on Start in `staleIdleWorld`, where no user is
logged in. -/
theorem c28_startCall_without_user_or_connection_witness :
    view (step staleIdleWorld Event.clickStart) = View.endedModal :=
  ((c28_startCall_without_user_or_connection staleIdleWorld
    (Or.inr (Or.inr (by decide)))).2.2.2.2.2.2.2.2.2.2.2 (by decide) (by decide)).2.2.1

/-! ## The mute and camera flags (C29) -/

theorem keepsFlags_refl (w : World) : KeepsFlags w w := ⟨rfl, Or.inl rfl⟩

theorem keepsFlags_commit (w b : World) (h : KeepsFlags w b) :
    KeepsFlags w (commit w b) := by
  unfold commit
  split
  · exact ⟨rfl, Or.inl rfl⟩
  · simp only []
    split <;> exact h

theorem click_keepsFlags (e : Event) (w : World) (h1 : e ≠ Event.clickMute)
    (h2 : e ≠ Event.clickVideo) : KeepsFlags w (click e w) := by
  unfold click
  split <;> simp_all [KeepsFlags, onClose, handleCloseEnded, startCall, cancelCall,
    endCall, rejectCall, answerCall, resetCall_eq, notifyPeer_eq, World.record,
    World.suspend]
  all_goals (split <;> simp)

theorem receive_keepsFlags (e : Event) (w : World) : KeepsFlags w (receive e w) := by
  unfold receive
  split <;> simp [KeepsFlags, handleIncomingCall, handleCallAccepted,
    handleIceCandidate, handleCallEnded, handleCallRejected, handleCallFailed,
    resetCall_eq, World.record, World.suspend]
  all_goals (repeat' split) <;> simp

theorem settle_keepsFlags (k : Nat) (o : Outcome) (w : World) :
    KeepsFlags w (settle k o w) := by
  unfold settle
  split
  · exact keepsFlags_refl w
  · split <;> simp [KeepsFlags, startCall_afterGetUserMedia, startCall_catch,
      startCall_afterCreateOffer, startCall_afterSetLocalDescription,
      handleCallAccepted_afterSetRemoteDescription, handleCallAccepted_drain,
      handleCallAccepted_catch, answerCall_afterGetUserMedia, answerCall_catch,
      answerCall_afterSetRemoteDescription, answerCall_drain,
      answerCall_afterCreateAnswer, answerCall_afterSetLocalDescription,
      installMedia, rejectCall, emit, resetCall_eq, notifyPeer_eq, World.record,
      World.suspend, World.updatePc]
    all_goals first
      | (cases w.isVideoCallRef <;> simp)
      | ((repeat' split) <;> simp)

theorem step_keepsFlags (w : World) (e : Event) (h1 : e ≠ Event.clickMute)
    (h2 : e ≠ Event.clickVideo) : KeepsFlags w (step w e) := by
  cases e with
  | settle k o => exact keepsFlags_commit w _ (settle_keepsFlags k o w)
  | unmount =>
    simp only [step, unmountCleanup_eq]
    split
    · exact keepsFlags_refl w
    · split <;> exact ⟨rfl, Or.inl rfl⟩
  | track pc ev =>
    simp only [step]
    split
    · exact keepsFlags_commit w _ ⟨rfl, Or.inl rfl⟩
    · exact keepsFlags_refl w
  | localCandidate pc c =>
    simp only [step]
    split
    · apply keepsFlags_commit
      simp only [onicecandidate]
      split
      · simp [KeepsFlags, emit, World.record]
      · exact keepsFlags_refl w
    · exact keepsFlags_refl w
  | connectionState pc st =>
    simp only [step]
    split
    · apply keepsFlags_commit
      simp only [onconnectionstatechange]
      split
      · split
        · simp [KeepsFlags, resetCall_eq]
        · exact keepsFlags_refl w
      · exact keepsFlags_refl w
    · exact keepsFlags_refl w
  | setOutgoingCallTarget t =>
    simp only [step]
    split
    · exact keepsFlags_refl w
    · exact keepsFlags_commit w _ ⟨rfl, Or.inl rfl⟩
  | incomingCall p =>
    simp only [step]
    split
    · exact keepsFlags_refl w
    · exact keepsFlags_commit w _ (receive_keepsFlags _ w)
  | callAccepted p =>
    simp only [step]
    split
    · exact keepsFlags_refl w
    · exact keepsFlags_commit w _ (receive_keepsFlags _ w)
  | iceCandidate p =>
    simp only [step]
    split
    · exact keepsFlags_refl w
    · exact keepsFlags_commit w _ (receive_keepsFlags _ w)
  | callEnded =>
    simp only [step]
    split
    · exact keepsFlags_refl w
    · exact keepsFlags_commit w _ (receive_keepsFlags _ w)
  | callRejected =>
    simp only [step]
    split
    · exact keepsFlags_refl w
    · exact keepsFlags_commit w _ (receive_keepsFlags _ w)
  | callFailed p =>
    simp only [step]
    split
    · exact keepsFlags_refl w
    · exact keepsFlags_commit w _ (receive_keepsFlags _ w)
  | clickMute => exact absurd rfl h1
  | clickVideo => exact absurd rfl h2
  | _ =>
    simp only [step]
    split
    · exact keepsFlags_refl w
    · exact keepsFlags_commit w _ (click_keepsFlags _ w (by simp) (by simp))

/-- C29. `resetCall`, `endCall`, `rejectCall` and `handleCloseEnded` leave
`isMuted` and `isVideoOff` as they were. More generally every event other than
the clicks on the mute and camera buttons leaves `isMuted` alone and leaves
`isVideoOff` true when it was true. So in `nextVideoCallWorld`, reached by a
voice call (which set `isVideoOff`), its end and acknowledgment, and a video
call that then connects, `isVideoOff` is still true. -/
theorem c29_teardown_keeps_mute_and_camera_flags (w : World) (s : Option Socket)
    (ic : Option IncomingCall) :
    ((resetCall w).isMuted = w.isMuted ∧ (resetCall w).isVideoOff = w.isVideoOff) ∧
    ((endCall w).isMuted = w.isMuted ∧ (endCall w).isVideoOff = w.isVideoOff) ∧
    ((rejectCall s ic w).isMuted = w.isMuted ∧
      (rejectCall s ic w).isVideoOff = w.isVideoOff) ∧
    ((handleCloseEnded w).isMuted = w.isMuted ∧
      (handleCloseEnded w).isVideoOff = w.isVideoOff) ∧
    (∀ e, e ≠ Event.clickMute → e ≠ Event.clickVideo →
      (step w e).isMuted = w.isMuted ∧
      (w.isVideoOff = true → (step w e).isVideoOff = true)) ∧
    (Reachable nextVideoCallWorld ∧
      afterAudioCallWorld.callState = CallState.idle ∧
      afterAudioCallWorld.isVideoOff = true ∧
      nextVideoCallWorld.callState = CallState.connected ∧
      nextVideoCallWorld.isVideoCallRef = true ∧
      nextVideoCallWorld.isVideoOff = true) := by
  refine ⟨?_, ?_, ?_, ?_, ?_, ?_⟩
  · simp [resetCall_eq]
  · simp [endCall, resetCall_eq, notifyPeer_eq]
  · simp [rejectCall, resetCall_eq, notifyPeer_eq]
  · simp [handleCloseEnded, onClose]
  · intro e h1 h2
    obtain ⟨k1, k2⟩ := step_keepsFlags w e h1 h2
    refine ⟨k1, fun h => ?_⟩
    rcases k2 with k2 | k2
    · rw [k2, h]
    · exact k2
  · exact ⟨⟨some exampleSocket, some "bob", JsOpt.undefined, JsOpt.undefined,
      JsOpt.undefined, none,
      [Event.incomingCall audioInvite, Event.clickAccept, Event.settle 0 mic,
       Event.settle 1 Outcome.resolved,
       Event.settle 2 (Outcome.description exampleAnswer),
       Event.settle 3 Outcome.resolved, Event.clickEnd, Event.clickCloseEnded,
       Event.incomingCall invite, Event.clickAccept, Event.settle 4 cam,
       Event.settle 5 Outcome.resolved,
       Event.settle 6 (Outcome.description exampleAnswer),
       Event.settle 7 Outcome.resolved], rfl⟩,
      by decide, by decide, by decide, by decide, by decide⟩

/-! ## Props and the call target of the store (C30) -/

/-- C30, the code at the failing input. In the reachable `voicePromptWorld` the
props `receiverName` and `isVideoCall` are omitted and the store's call target
has `receiverName` "Bob" and `isVideoCall` false. The destructuring defaults of
lines 24-25 replace the omitted props by "User" and `true` before lines 33-36
apply `??`, so the call target is not consulted: `isVideoCall` is `true` and
`receiverName` is "User", and the click on Start requests media with
`video = true` and shows "User". This holds in every world whose prop is
omitted. -/
theorem c30_omitted_props_hide_the_call_target :
    Reachable voicePromptWorld ∧
    view voicePromptWorld = View.outgoingPrompt ∧
    voicePromptWorld.isVideoCallPropRaw = JsOpt.undefined ∧
    voicePromptWorld.receiverNamePropRaw = JsOpt.undefined ∧
    targetField voicePromptWorld.outgoingCallTarget OutgoingCallTarget.isVideoCall =
      JsOpt.value false ∧
    targetField voicePromptWorld.outgoingCallTarget OutgoingCallTarget.receiverName =
      JsOpt.value "Bob" ∧
    isVideoCall voicePromptWorld = JsOpt.value true ∧
    receiverName voicePromptWorld = JsOpt.value "User" ∧
    (step voicePromptWorld Event.clickStart).log = [Effect.getUserMedia true] ∧
    (step voicePromptWorld Event.clickStart).remoteDisplayName = "User" ∧
    (∀ w : World, w.isVideoCallPropRaw = JsOpt.undefined →
      isVideoCall w = JsOpt.value true) ∧
    (∀ w : World, w.receiverNamePropRaw = JsOpt.undefined →
      receiverName w = JsOpt.value "User") :=
  ⟨⟨some exampleSocket, some "alice", JsOpt.undefined, JsOpt.undefined,
      JsOpt.undefined, none, [Event.setOutgoingCallTarget (some voiceTarget)], rfl⟩,
    by decide, by decide, by decide, by decide, by decide, by decide, by decide,
    by decide, by decide,
    fun w h => by simp [isVideoCall, isVideoCallProp, h, JsOpt.withDefault, JsOpt.orElse],
    fun w h => by simp [receiverName, receiverNameProp, h, JsOpt.withDefault,
      JsOpt.orElse]⟩

/-! ## An incoming call that is accepted (C21) -/

/-- C21. Let the mounted component be Ringing with a socket whose `emit` does
not throw and the recorded incoming call of caller `c`, and let every awaited
step of `answerCall` succeed (the calls of `addIceCandidate` may settle either
way). The Accept button is rendered, and from the click to the end of
`answerCall` the effects are, in this order: the media acquisition, the new
transport session and its tracks, `setRemoteDescription` with the offer, one
`addIceCandidate` for each queued candidate, `createAnswer`,
`setLocalDescription`, and one emitted `answer-call` message to `c` with the
type and sdp of the created answer. No other message is emitted, `callState`
is Connected and the stored incoming call is null. -/
theorem c21_answerCall_steps_in_order (w : World) (sock : Socket)
    (ic : IncomingCall) (c : String) (ts : List (Nat × Bool)) (os : List Outcome)
    (ans : Sdp)
    (hm : w.isUnmountedRef = false) (hs : w.socket = some sock)
    (he : sock.emitError = none)
    (hr : w.callState = CallState.ringing) (hi : w.incomingCall = some ic)
    (hc : ic.sender = some c)
    (hlen : os.length = w.preConnectionIceQueueRef.length)
    (hos : ∀ o ∈ os, settlesAddIceCandidate o = true) :
    view w = View.ringing ∧
    (run w (acceptedCall w.tasks.length ts os ans)).log =
      w.log ++ [Effect.getUserMedia ic.isVideoCall,
        Effect.newPeerConnection w.pcs.length] ++
        ts.map (fun t => Effect.addTrack w.pcs.length w.streams.length t.1) ++
        [Effect.setRemoteDescription w.pcs.length ic.signal] ++
        w.preConnectionIceQueueRef.map (Effect.addIceCandidate w.pcs.length) ++
        [Effect.createAnswer w.pcs.length,
         Effect.setLocalDescription w.pcs.length ans,
         Effect.emit (Msg.answerCall (some c) { type := ans.type, sdp := ans.sdp })] ∧
    emitted (run w (acceptedCall w.tasks.length ts os ans)) =
      emitted w ++ [Msg.answerCall (some c) { type := ans.type, sdp := ans.sdp }] ∧
    (run w (acceptedCall w.tasks.length ts os ans)).callState =
      CallState.connected ∧
    (run w (acceptedCall w.tasks.length ts os ans)).incomingCall = none := by
  have hview : view w = View.ringing := by
    simp [view, hs, hr, hi]
  have hA : step w Event.clickAccept = commit w (answerCall w) := by
    simp [step, hm, click, hview]
  have hst : answerCall w =
      ({ w with otherPeerUserIdRef := ic.sender
                remoteDisplayName := orDefault ic.fromUsername "User"
                errorMessage := none
                isVideoCallRef := ic.isVideoCall
                pendingIceCandidatesRef := []
                log := w.log ++ [Effect.getUserMedia ic.isVideoCall]
                tasks := w.tasks ++ [Task.answerCall_getUserMedia
                  { socket := sock, incomingCall := ic }] } : World) := by
    simp [answerCall, hs, hi, World.record, World.suspend]
  rw [hst, commit_of_mounted _ _ hm (by simp)] at hA
  have hrun : run w (acceptedCall w.tasks.length ts os ans) =
      run (run (step (step w Event.clickAccept)
          (Event.settle w.tasks.length (Outcome.stream ts)))
        (Event.settle (w.tasks.length + 1) Outcome.resolved ::
          settleFrom (w.tasks.length + 2) os))
        [Event.settle (w.tasks.length + 2 + os.length) (Outcome.description ans),
         Event.settle (w.tasks.length + 3 + os.length) Outcome.resolved] := by
    simp only [acceptedCall, run_append]
    rfl
  rw [hrun]
  clear hrun
  generalize step w Event.clickAccept = A at *
  have hAm : A.isUnmountedRef = false := by rw [hA]; exact hm
  have hAt : A.tasks[w.tasks.length]? = some (Task.answerCall_getUserMedia
      { socket := sock, incomingCall := ic }) := by
    rw [hA]; simp
  -- `getUserMedia` resolves
  have hB : step A (Event.settle w.tasks.length (Outcome.stream ts)) =
      commit A (answerCall_afterGetUserMedia { socket := sock, incomingCall := ic } ts
        { A with tasks := A.tasks.set w.tasks.length Task.done }) := by
    simp [step, settle, hAt]
  rw [commit_of_mounted _ _ hAm (by simp [answerCall_afterGetUserMedia, installMedia,
    World.record, World.suspend])] at hB
  generalize step A (Event.settle w.tasks.length (Outcome.stream ts)) = B at *
  have hBm : B.isUnmountedRef = false := by
    rw [hB]
    simpa [answerCall_afterGetUserMedia, installMedia, World.record, World.suspend]
      using hAm
  have hBl : B.tasks.length = w.tasks.length + 2 := by
    rw [hB, hA]
    simp [answerCall_afterGetUserMedia, installMedia, World.record, World.suspend]
  have hBt : B.tasks[w.tasks.length + 1]? =
      some (Task.answerCall_setRemoteDescription
        { socket := sock, incomingCall := ic } w.pcs.length) := by
    rw [hB, hA]
    simp only [answerCall_afterGetUserMedia, installMedia, World.record, World.suspend]
    rw [List.getElem?_append_right (by simp)]
    simp
  have hBq : B.preConnectionIceQueueRef ++ B.pendingIceCandidatesRef =
      w.preConnectionIceQueueRef := by
    rw [hB, hA]
    simp [answerCall_afterGetUserMedia, installMedia, World.record, World.suspend]
  have hBlog : B.log = w.log ++ [Effect.getUserMedia ic.isVideoCall,
        Effect.newPeerConnection w.pcs.length] ++
        ts.map (fun t => Effect.addTrack w.pcs.length w.streams.length t.1) ++
        [Effect.setRemoteDescription w.pcs.length ic.signal] := by
    rw [hB, hA]
    simp [answerCall_afterGetUserMedia, installMedia, World.record, World.suspend]
  -- the offer is applied and the queues are drained
  obtain ⟨r1, _, _, r4, r5, r6⟩ := run_answer_offer_applied B
    { socket := sock, incomingCall := ic } w.pcs.length (w.tasks.length + 1) os hBt
    (by rw [hBq]; exact hlen) hos
  rw [hBl] at r1 r4 r5 r6
  rw [hBq, hBlog] at r1
  rw [hBm] at r6
  generalize run B (Event.settle (w.tasks.length + 1) Outcome.resolved ::
      settleFrom (w.tasks.length + 2) os) = R at *
  -- `createAnswer` resolves
  have hD : step R (Event.settle (w.tasks.length + 2 + os.length)
        (Outcome.description ans)) =
      commit R (answerCall_afterCreateAnswer { socket := sock, incomingCall := ic }
        w.pcs.length ans
        { R with tasks := R.tasks.set (w.tasks.length + 2 + os.length) Task.done }) := by
    simp [step, settle, r5]
  rw [commit_of_mounted _ _ r6 (by simp [answerCall_afterCreateAnswer, World.record,
    World.suspend])] at hD
  simp only [run, List.foldl]
  generalize step R (Event.settle (w.tasks.length + 2 + os.length)
      (Outcome.description ans)) = D at *
  have hDm : D.isUnmountedRef = false := by
    rw [hD]; simpa [answerCall_afterCreateAnswer, World.record, World.suspend] using r6
  have hDt : D.tasks[w.tasks.length + 3 + os.length]? =
      some (Task.answerCall_setLocalDescription
        { socket := sock, incomingCall := ic } w.pcs.length ans) := by
    have hidx : w.tasks.length + 3 + os.length = R.tasks.length := by omega
    rw [hD, hidx]
    simp only [answerCall_afterCreateAnswer, World.record, World.suspend]
    exact getElem?_set_append_last _ _ _ _
  have hDlog : D.log = R.log ++ [Effect.setLocalDescription w.pcs.length ans] := by
    rw [hD]; simp [answerCall_afterCreateAnswer, World.record, World.suspend]
  -- `setLocalDescription` resolves
  have hE : step D (Event.settle (w.tasks.length + 3 + os.length) Outcome.resolved) =
      commit D (answerCall_afterSetLocalDescription
        { socket := sock, incomingCall := ic } w.pcs.length ans
        { D with tasks := D.tasks.set (w.tasks.length + 3 + os.length) Task.done }) := by
    simp [step, settle, hDt]
  rw [hE, commit_mounted_eq _ _ hDm]
  have hlog : (answerCall_afterSetLocalDescription
        { socket := sock, incomingCall := ic } w.pcs.length ans
        { D with tasks := (D.tasks.set (w.tasks.length + 3 + os.length)
            Task.done) }).log =
      w.log ++ [Effect.getUserMedia ic.isVideoCall,
        Effect.newPeerConnection w.pcs.length] ++
        ts.map (fun t => Effect.addTrack w.pcs.length w.streams.length t.1) ++
        [Effect.setRemoteDescription w.pcs.length ic.signal] ++
        w.preConnectionIceQueueRef.map (Effect.addIceCandidate w.pcs.length) ++
        [Effect.createAnswer w.pcs.length,
         Effect.setLocalDescription w.pcs.length ans,
         Effect.emit (Msg.answerCall (some c) { type := ans.type, sdp := ans.sdp })] := by
    simp [answerCall_afterSetLocalDescription, emit, he, World.record, World.updatePc,
      emitEffect, hDlog, r1, hc]
  refine ⟨hview, hlog, ?_, ?_, ?_⟩
  · rw [emitted_eq_sent, emitted_eq_sent]
    simp only []
    rw [hlog]
    simp only [sent_append, sent_addTracks]
    simp [sent, List.filterMap_map]
  · simp [answerCall_afterSetLocalDescription, emit, he, World.record, World.updatePc]
  · simp [answerCall_afterSetLocalDescription, emit, he, World.record, World.updatePc]

/-- Witness of C21: bob accepts alice's call with candidate 7 queued, which the
transport refuses. -/
theorem c21_answerCall_steps_in_order_witness :
    emitted (run ringingWithCandidateWorld
      (acceptedCall 0 [(1, false), (2, true)] [Outcome.rejected badCandidate]
        exampleAnswer)) = [Msg.answerCall (some "alice") exampleAnswer] :=
  (c21_answerCall_steps_in_order ringingWithCandidateWorld exampleSocket
    { sender := some "alice", fromUsername := some "Alice"
      signal := some exampleOffer, isVideoCall := true }
    "alice" [(1, false), (2, true)] [Outcome.rejected badCandidate] exampleAnswer
    (by decide) (by decide) (by decide) (by decide) (by decide) (by decide)
    (by decide) (by decide)).2.2.1

end CallComponent
